import Mathlib

/-!
# FileDriver: CART frame cache and file translation layer

A shallow embedding of `src/cart_cache.c` and `src/cart_driver.c`.

Conventions of the embedding.

* A byte buffer (`char *`, `char[CART_FRAME_SIZE]`) is a total map from an
  offset to a byte; only offsets inside the C object are ever meant.
* C `int` / `uint32_t` counters that never go below zero (`current`,
  `cacheSize`, `time`, `pos`, `fLength`, `fileCount`) are natural numbers;
  quantities that can hold `-1` (`memCart`, `memFrm`, `currentFrame`, handles,
  return codes) are integers. Arithmetic is the mathematical one: no counter
  is taken past `INT_MAX`.
* A file name (`char *fName`, compared with `strcmp`) is the string it points
  to; the caller leaves the string passed to `cart_open` unchanged.
* Constants that come from headers that are not part of the sources
  (`cart_controller.h`, `cart_cache.h`) are the fields of `CartHeader`.
* `client_cart_bus_request` (`src/cart_client.c`) together with the server
  behind the socket is a parameter of the driver functions (`BusFn`); a
  transport error is the response register with all 64 bits set.

Limits of the embedding. It describes the calls that stay inside the C
objects and the range of `int`; where the source steps outside them the
embedding has no counterpart of what the C program does.

* `fCart` and `fFrame` are `int[CART_CARTRIDGE_SIZE]` inside the entries of
  `allFile[CART_MAX_TOTAL_FILES]`; here they are total maps. `cart_write`
  does not compare the frame index with `CART_CARTRIDGE_SIZE`: in the C
  program a write that reaches an index past the arrays stores into the
  entry's own `fFrame` (through `fCart`) and into the header fields of the
  next table entry.
* `originPos + count` in `cart_read` and `cart_write` is an `int` sum in the
  source and overflows when it exceeds `INT_MAX`; here it is the exact sum.
* `set_cart_cache_size` stores its `uint32_t` argument into the `int`
  `cacheSize`; here the capacity is the argument, which is the same value up
  to `INT_MAX`.
* `cart_open` stores the pointer `path`; a caller that changes the string
  afterwards changes what later calls compare with. Here the stored name is
  the string at the time of the call.
-/

namespace FileDriver

/-- A byte buffer: offset to byte value. -/
abbrev Block := Nat → Nat

/-- The constants of the project headers used by the sources. -/
structure CartHeader where
  CART_FRAME_SIZE : Nat
  CART_MAX_CARTRIDGES : Nat
  CART_OP_INITMS : Nat
  CART_OP_BZERO : Nat
  CART_OP_LDCART : Nat
  CART_OP_RDFRME : Nat
  CART_OP_WRFRME : Nat
  CART_OP_POWOFF : Nat

/-- The values the constants have in the CART controller header of the
assignment this driver was written for. -/
def stdHeader : CartHeader :=
  { CART_FRAME_SIZE := 1024, CART_MAX_CARTRIDGES := 64, CART_OP_INITMS := 0,
    CART_OP_BZERO := 1, CART_OP_LDCART := 2, CART_OP_RDFRME := 3,
    CART_OP_WRFRME := 4, CART_OP_POWOFF := 5 }

/-- C `memcpy(dst + d, src + s, n)`: the destination after the copy. -/
def memcpy (dst : Block) (d : Nat) (src : Block) (s : Nat) (n : Nat) : Block :=
  fun k => if d ≤ k ∧ k < d + n then src (k - d + s) else dst k

/-- The all-zero buffer (`calloc`, `memset(_, 0, _)`, zero-initialised globals). -/
def zeroBlock : Block := fun _ => 0

/-- Array store `a[i] = v`. -/
def setAt {α : Type} (a : Nat → α) (i : Nat) (v : α) : Nat → α :=
  fun k => if k = i then v else a k

/-- The loop `for (i = 0; i < n; i++) if (p i) return i;`: the least index
below `n` satisfying `p`, if any. -/
def firstIdx (p : Nat → Bool) : Nat → Option Nat
  | 0 => none
  | n + 1 =>
    match firstIdx p n with
    | some i => some i
    | none => if p n then some n else none

/-! ## cart_cache.c -/

/-- The struct `elem` of one cache line. -/
structure elem where
  memCart : Int
  memFrm : Int
  time : Nat
  memContent : Block

/-- The globals of `cart_cache.c`: `cacheSize`, `current` and the array
`cache` (the slots with index below `cacheSize` are the allocated ones). -/
structure Cache where
  cacheSize : Nat
  current : Nat
  cache : Nat → elem

/-- The function `set_cart_cache_size`: the new globals and the return value
(for `max_frames` up to `INT_MAX`, where the conversion of the `uint32_t`
argument to the `int` `cacheSize` keeps the value). -/
def set_cart_cache_size (c : Cache) (max_frames : Nat) : Cache × Int :=
  ({ c with cacheSize := max_frames }, 0)

/-- The function `init_cart_cache`: `calloc` gives zeroed slots, the loop marks
the `cacheSize` allocated ones as empty, `current` is reset. -/
def init_cart_cache (c : Cache) : Cache :=
  { cacheSize := c.cacheSize
    current := 0
    cache := fun i =>
      if i < c.cacheSize then
        { memCart := -1, memFrm := -1, time := 0, memContent := zeroBlock }
      else
        { memCart := 0, memFrm := 0, time := 0, memContent := zeroBlock } }

/-- The function `close_cart_cache`: every allocated slot is cleared; `current`
is left as it is. -/
def close_cart_cache (K : CartHeader) (c : Cache) : Cache :=
  { c with
    cache := fun i =>
      if i < c.cacheSize then
        { memCart := -1, memFrm := -1, time := 0,
          memContent := memcpy (c.cache i).memContent 0 zeroBlock 0 K.CART_FRAME_SIZE }
      else c.cache i }

/-- The loop `for (i = 0; i < current; i++) cache[i].time++;`. -/
def ageAll (c : Cache) : Nat → elem :=
  fun i => if i < c.current then { c.cache i with time := (c.cache i).time + 1 } else c.cache i

/-- The test `cache[i].memCart == cart && cache[i].memFrm == frm`. -/
def keyMatch (slots : Nat → elem) (cart frm : Nat) (i : Nat) : Bool :=
  decide ((slots i).memCart = (cart : Int)) && decide ((slots i).memFrm = (frm : Int))

/-- The search of `put_cart_cache` for the least recently used slot:
`max = cache[0].time; maxIndex = 0;` followed by `n` rounds of the loop
`for (i = 1; ...; i++) if (max < cache[i].time) { max = ...; maxIndex = i; }`. -/
def maxIndex (slots : Nat → elem) : Nat → Nat
  | 0 => 0
  | n + 1 =>
    let m := maxIndex slots n
    if (slots m).time < (slots (n + 1)).time then n + 1 else m

/-- The function `put_cart_cache` (it always returns 0): the cache afterwards. -/
def put_cart_cache (K : CartHeader) (c : Cache) (cart frm : Nat) (buf : Block) : Cache :=
  let slots := ageAll c
  match firstIdx (keyMatch slots cart frm) c.cacheSize with
  | some i =>
    { c with
      cache := setAt slots i
        { slots i with
          memContent := memcpy (slots i).memContent 0 buf 0 K.CART_FRAME_SIZE
          time := 0 } }
  | none =>
    if c.current = c.cacheSize then
      let m := maxIndex slots (c.cacheSize - 1)
      { c with
        cache := setAt slots m
          { memCart := cart, memFrm := frm, time := 0,
            memContent := memcpy (slots m).memContent 0 buf 0 K.CART_FRAME_SIZE } }
    else
      { c with
        cache := setAt slots c.current
          { slots c.current with
            memCart := cart, memFrm := frm,
            memContent := memcpy (slots c.current).memContent 0 buf 0 K.CART_FRAME_SIZE }
        current := c.current + 1 }

/-- The function `get_cart_cache`: the cache afterwards and the content of the
slot the returned pointer refers to (`none` for `NULL`). -/
def get_cart_cache (c : Cache) (cart frm : Nat) : Cache × Option Block :=
  let slots := ageAll c
  match firstIdx (keyMatch slots cart frm) c.current with
  | some i =>
    ({ c with cache := setAt slots i { slots i with time := 0 } }, some (slots i).memContent)
  | none => ({ c with cache := slots }, none)

/-! ## cart_driver.c -/

/-- Conversion of a C `int` argument to `uint16_t` (`CartridgeIndex`,
`CartFrameIndex`). -/
def toU16 (x : Int) : Nat := (x % 65536).toNat

/-- Conversion of a C `int` argument to `uint64_t`. -/
def toU64 (x : Int) : Nat := (x % 18446744073709551616).toNat

/-- The function `create_cart_opcode` on `uint64_t` arguments. -/
def create_cart_opcode (cky1 cky2 crt1 cct1 cfm1 : Nat) : Nat :=
  ((cky1 &&& 0xff) <<< 56) ||| ((cky2 &&& 0xff) <<< 48) ||| ((crt1 &&& 1) <<< 47)
    ||| ((cct1 &&& 0xffff) <<< 31) ||| ((cfm1 &&& 0xffff) <<< 15)

/-- The five registers written by `extract_cart_opcode`. -/
structure Regs where
  ky1 : Nat
  ky2 : Nat
  rt1 : Nat
  ct1 : Nat
  fm1 : Nat

/-- The function `extract_cart_opcode`: its return value and the registers. -/
def extract_cart_opcode (resp : Nat) : Int × Regs :=
  (0, { fm1 := (resp >>> 15) &&& 0xffff, ct1 := (resp >>> 31) &&& 0xffff,
        rt1 := (resp >>> 47) &&& 1, ky2 := (resp >>> 48) &&& 0xff,
        ky1 := (resp >>> 56) &&& 0xff })

/-- What the driver sees of `client_cart_bus_request(reg, buf)`: from the state
of the far end and the request, the response register, the frame received (it
is stored into `buf` by a READ_FRAME request only) and the new state of the far
end. -/
abbrev BusFn (D : Type) := D → Nat → Block → Nat × Block × D

/-- One struct `cartFile` of the file table. -/
structure cartFile where
  fName : String
  fLength : Nat
  isOpen : Int
  fHandle : Int
  pos : Nat
  fCart : Nat → Int
  fFrame : Nat → Int

/-- The globals of the driver together with the cache globals, the state of
the far end of the bus, and the log of the request registers handed to
`client_cart_bus_request` so far (oldest first). -/
structure Driver (D : Type) where
  allFile : Nat → cartFile
  fileCount : Nat
  currentFrame : Int
  currentCart : Int
  cc : Cache
  dev : D
  sent : List Nat

/-- Outcome of one request/response exchange. -/
structure Xfer (D : Type) where
  ok : Bool
  dev : D
  sent : List Nat
  payload : Block

/-- The pattern repeated for every request in the driver: build the register
with `create_cart_opcode` (give up if it is `-1`), hand it to
`client_cart_bus_request`, decode the response with `extract_cart_opcode` (give
up if that fails) and give up if the status register `rt1` is set. -/
def bus_xfer {D : Type} (bus : BusFn D) (dev : D) (sent : List Nat)
    (op ct fm : Nat) (buf : Block) : Xfer D :=
  let reg := create_cart_opcode op 0 0 ct fm
  if reg = 18446744073709551615 then
    { ok := false, dev := dev, sent := sent, payload := buf }
  else
    let r := bus dev reg buf
    let e := extract_cart_opcode r.1
    if e.1 ≠ 0 then
      { ok := false, dev := r.2.2, sent := sent ++ [reg], payload := r.2.1 }
    else if e.2.rt1 ≠ 0 then
      { ok := false, dev := r.2.2, sent := sent ++ [reg], payload := r.2.1 }
    else
      { ok := true, dev := r.2.2, sent := sent ++ [reg], payload := r.2.1 }

/-- Outcome of bringing one frame into `tmp`. -/
structure Fetched (D : Type) where
  ok : Bool
  cc : Cache
  dev : D
  sent : List Nat
  tmp : Block

/-- The head of the loop body of `cart_read` and `cart_write`: look the frame
up in the cache (a hit looks it up a second time for the `memcpy`); on a miss
send LOAD_CARTRIDGE and READ_FRAME, and, in `cart_read` only (`putOnMiss`),
insert the frame into the cache. -/
def fetch_frame {D : Type} (K : CartHeader) (bus : BusFn D) (putOnMiss : Bool)
    (cc : Cache) (dev : D) (sent : List Nat) (tmp : Block) (cart frm : Int) : Fetched D :=
  let g1 := get_cart_cache cc (toU16 cart) (toU16 frm)
  match g1.2 with
  | some _ =>
    let g2 := get_cart_cache g1.1 (toU16 cart) (toU16 frm)
    { ok := true, cc := g2.1, dev := dev, sent := sent,
      tmp := match g2.2 with
        | some b => memcpy tmp 0 b 0 K.CART_FRAME_SIZE
        | none => tmp }
  | none =>
    let x := bus_xfer bus dev sent K.CART_OP_LDCART (toU64 cart) 0 zeroBlock
    if x.ok = false then
      { ok := false, cc := g1.1, dev := x.dev, sent := x.sent, tmp := tmp }
    else
      let y := bus_xfer bus x.dev x.sent K.CART_OP_RDFRME 0 (toU64 frm) tmp
      let tmp1 := memcpy tmp 0 y.payload 0 K.CART_FRAME_SIZE
      if y.ok = false then
        { ok := false, cc := g1.1, dev := y.dev, sent := y.sent, tmp := tmp1 }
      else
        { ok := true
          cc := if putOnMiss then put_cart_cache K g1.1 (toU16 cart) (toU16 frm) tmp1 else g1.1
          dev := y.dev, sent := y.sent, tmp := tmp1 }

/-- The pointer offset `remains + CART_FRAME_SIZE * j` into the caller buffer. -/
def bufOff (K : CartHeader) (originPos : Nat) (j : Int) : Nat :=
  (((K.CART_FRAME_SIZE - originPos % K.CART_FRAME_SIZE : Nat) : Int)
    + (K.CART_FRAME_SIZE : Int) * j).toNat

/-- What the loop of `cart_read` leaves behind. -/
structure ReadRes (D : Type) where
  ret : Int
  pos : Nat
  cc : Cache
  dev : D
  sent : List Nat
  buf : Block

/-- The loop `for (i = posFrame, j = 0; i <= lenFrame; i++, j++)` of
`cart_read` followed by `return 0`, on the file entry `f` (of which only `pos`
changes). The first argument is the number of rounds left, `lenFrame + 1 - i`. -/
def readLoop {D : Type} (K : CartHeader) (bus : BusFn D) (f : cartFile)
    (originPos count : Nat) :
    Nat → Nat → Int → Nat → Cache → D → List Nat → Block → Block → ReadRes D
  | 0, _, _, pos, cc, dev, sent, _, buf =>
    { ret := 0, pos := pos, cc := cc, dev := dev, sent := sent, buf := buf }
  | n + 1, i, j, pos, cc, dev, sent, tmp, buf =>
    let FS := K.CART_FRAME_SIZE
    let posFrame := originPos / FS
    let lenFrame := f.fLength / FS
    let countFrame := (originPos + count) / FS
    let remains := FS - originPos % FS
    let x := fetch_frame K bus true cc dev sent tmp (f.fCart i) (f.fFrame i)
    if x.ok = false then
      { ret := -1, pos := pos, cc := x.cc, dev := x.dev, sent := x.sent, buf := buf }
    else if i < lenFrame then
      if i = posFrame then
        if i = countFrame then
          { ret := count, pos := pos + count, cc := x.cc, dev := x.dev, sent := x.sent,
            buf := memcpy buf 0 x.tmp (originPos % FS) count }
        else
          readLoop K bus f originPos count n (i + 1) (j - 1 + 1) (pos + remains)
            x.cc x.dev x.sent x.tmp (memcpy buf 0 x.tmp (originPos % FS) remains)
      else
        if i = countFrame then
          { ret := count, pos := pos + (count + originPos) % FS, cc := x.cc, dev := x.dev,
            sent := x.sent
            buf := memcpy buf (bufOff K originPos j) x.tmp 0 ((originPos + count) % FS) }
        else
          readLoop K bus f originPos count n (i + 1) (j + 1) (pos + FS)
            x.cc x.dev x.sent x.tmp (memcpy buf (bufOff K originPos j) x.tmp 0 FS)
    else
      if i = posFrame then
        if originPos + count > f.fLength then
          { ret := (f.fLength : Int) - originPos, pos := pos + (f.fLength - originPos),
            cc := x.cc, dev := x.dev, sent := x.sent
            buf := memcpy buf 0 x.tmp (originPos % FS) (f.fLength - originPos) }
        else
          { ret := count, pos := pos + count, cc := x.cc, dev := x.dev, sent := x.sent,
            buf := memcpy buf 0 x.tmp (originPos % FS) count }
      else
        if originPos + count > f.fLength then
          { ret := (f.fLength : Int) - originPos, pos := pos + f.fLength % FS,
            cc := x.cc, dev := x.dev, sent := x.sent
            buf := memcpy buf (bufOff K originPos j) x.tmp 0 (f.fLength % FS) }
        else
          { ret := count, pos := pos + (count + originPos) % FS, cc := x.cc, dev := x.dev,
            sent := x.sent
            buf := memcpy buf (bufOff K originPos j) x.tmp 0 ((originPos + count) % FS) }

/-- The function `cart_read`: the state afterwards, the caller buffer
afterwards and the return value. -/
def cart_read {D : Type} (K : CartHeader) (bus : BusFn D) (s : Driver D)
    (fd : Int) (buf : Block) (count : Int) : Driver D × Block × Int :=
  if fd > s.fileCount ∨ fd < 0 then (s, buf, -1)
  else if (s.allFile fd.toNat).isOpen = 0 then (s, buf, -1)
  else if count < 0 then (s, buf, -1)
  else
    let f := s.allFile fd.toNat
    let FS := K.CART_FRAME_SIZE
    let r := readLoop K bus f f.pos count.toNat (f.fLength / FS + 1 - f.pos / FS) (f.pos / FS) 0
      f.pos s.cc s.dev s.sent zeroBlock buf
    ({ s with
        allFile := setAt s.allFile fd.toNat { f with pos := r.pos }
        cc := r.cc, dev := r.dev, sent := r.sent },
      r.buf, r.ret)

/-- What the loop of `cart_write` leaves behind. -/
structure WriteRes (D : Type) where
  ret : Int
  f : cartFile
  currentFrame : Int
  currentCart : Int
  cc : Cache
  dev : D
  sent : List Nat

/-- The splice of round `i` of `cart_write` (everything between the fetch and
the WRITE_FRAME request): the file entry, the allocator cursor, `tmp` and `j`
afterwards. `lenFrame` is the constant computed before the loop. -/
def writeSplice (K : CartHeader) (originPos count lenFrame : Nat) (buf : Block)
    (i : Nat) (j : Int) (f : cartFile) (cf ct : Int) (tmp : Block) :
    cartFile × Int × Int × Block × Int :=
  let FS := K.CART_FRAME_SIZE
  let posFrame := originPos / FS
  let countFrame := (originPos + count) / FS
  let remains := FS - originPos % FS
  if i ≤ lenFrame then
    if i = posFrame then
      if i = countFrame then
        ({ f with
            pos := f.pos + count
            fLength := if originPos + count > f.fLength then originPos + count else f.fLength },
          cf, ct, memcpy tmp (originPos % FS) buf 0 count, j)
      else
        ({ f with pos := f.pos + remains }, cf, ct,
          memcpy tmp (originPos % FS) buf 0 remains, j - 1)
    else
      if i = countFrame then
        ({ f with
            pos := f.pos + (count + originPos) % FS
            fLength := if originPos + count > f.fLength then originPos + count else f.fLength },
          cf, ct, memcpy tmp 0 buf (bufOff K originPos j) ((count + originPos) % FS), j)
      else
        ({ f with pos := f.pos + FS }, cf, ct,
          memcpy tmp 0 buf (bufOff K originPos j) FS, j)
  else
    let cf1 := cf + 1
    let ct2 := if cf1 = 1024 then ct + 1 else ct
    let cf2 := if cf1 = 1024 then 0 else cf1
    let f1 := { f with fFrame := setAt f.fFrame i cf2, fCart := setAt f.fCart i ct2 }
    if i ≠ countFrame then
      ({ f1 with pos := f1.pos + FS }, cf2, ct2,
        memcpy tmp 0 buf (bufOff K originPos j) FS, j)
    else
      ({ f1 with pos := f1.pos + (count + originPos) % FS, fLength := originPos + count },
        cf2, ct2, memcpy tmp 0 buf (bufOff K originPos j) ((count + originPos) % FS), j)

/-- The loop `for (i = posFrame, j = 0; i <= countFrame; i++, j++)` of
`cart_write` followed by `return count`. The first argument is the number of
rounds left, `countFrame + 1 - i`. -/
def writeLoop {D : Type} (K : CartHeader) (bus : BusFn D)
    (originPos count lenFrame : Nat) (buf : Block) :
    Nat → Nat → Int → cartFile → Int → Int → Cache → D → List Nat → Block → WriteRes D
  | 0, _, _, f, cf, ct, cc, dev, sent, _ =>
    { ret := count, f := f, currentFrame := cf, currentCart := ct, cc := cc, dev := dev,
      sent := sent }
  | n + 1, i, j, f, cf, ct, cc, dev, sent, tmp =>
    let x := fetch_frame K bus false cc dev sent tmp (f.fCart i) (f.fFrame i)
    if x.ok = false then
      { ret := -1, f := f, currentFrame := cf, currentCart := ct, cc := x.cc, dev := x.dev,
        sent := x.sent }
    else
      let sp := writeSplice K originPos count lenFrame buf i j f cf ct x.tmp
      let f1 := sp.1
      let tmp1 := sp.2.2.2.1
      let y := bus_xfer bus x.dev x.sent K.CART_OP_WRFRME 0 (toU64 (f1.fFrame i)) tmp1
      if y.ok = false then
        { ret := -1, f := f1, currentFrame := sp.2.1, currentCart := sp.2.2.1, cc := x.cc,
          dev := y.dev, sent := y.sent }
      else
        writeLoop K bus originPos count lenFrame buf n (i + 1) (sp.2.2.2.2 + 1) f1
          sp.2.1 sp.2.2.1
          (put_cart_cache K x.cc (toU16 (f1.fCart i)) (toU16 (f1.fFrame i)) tmp1)
          y.dev y.sent tmp1

/-- The function `cart_write`: the state afterwards and the return value. -/
def cart_write {D : Type} (K : CartHeader) (bus : BusFn D) (s : Driver D)
    (fd : Int) (buf : Block) (count : Int) : Driver D × Int :=
  if fd > s.fileCount ∨ fd < 0 then (s, -1)
  else if (s.allFile fd.toNat).isOpen = 0 then (s, -1)
  else if count < 0 then (s, -1)
  else
    let f := s.allFile fd.toNat
    let FS := K.CART_FRAME_SIZE
    let f0 :=
      if f.pos = 0 ∧ f.fLength = 0 then
        { f with fFrame := setAt f.fFrame 0 s.currentFrame, fCart := setAt f.fCart 0 s.currentCart }
      else f
    let r := writeLoop K bus f.pos count.toNat (f.fLength / FS) buf
      ((f.pos + count.toNat) / FS + 1 - f.pos / FS) (f.pos / FS) 0
      f0 s.currentFrame s.currentCart s.cc s.dev s.sent zeroBlock
    ({ s with
        allFile := setAt s.allFile fd.toNat r.f
        currentFrame := r.currentFrame, currentCart := r.currentCart
        cc := r.cc, dev := r.dev, sent := r.sent },
      r.ret)

/-- The function `cart_seek`. -/
def cart_seek {D : Type} (s : Driver D) (fd : Int) (loc : Nat) : Driver D × Int :=
  if fd > s.fileCount ∨ fd < 0 then (s, -1)
  else if loc > (s.allFile fd.toNat).fLength then (s, -1)
  else if (s.allFile fd.toNat).isOpen = 0 then (s, -1)
  else
    ({ s with allFile := setAt s.allFile fd.toNat { s.allFile fd.toNat with pos := loc } }, 0)

/-- The function `cart_close`. -/
def cart_close {D : Type} (s : Driver D) (fd : Int) : Driver D × Int :=
  if fd > s.fileCount ∨ fd < 0 then (s, -1)
  else if (s.allFile fd.toNat).isOpen = 0 then (s, -1)
  else
    ({ s with allFile := setAt s.allFile fd.toNat { s.allFile fd.toNat with isOpen := 0 } }, 0)

/-- The function `cart_open`. -/
def cart_open {D : Type} (s : Driver D) (path : String) : Driver D × Int :=
  match firstIdx (fun i => decide ((s.allFile i).fName = path)) s.fileCount with
  | some i =>
    if (s.allFile i).isOpen = 1 then (s, -1)
    else
      ({ s with allFile := setAt s.allFile i { s.allFile i with pos := 0, isOpen := 1 } },
        (s.allFile i).fHandle)
  | none =>
    let f : cartFile :=
      { s.allFile s.fileCount with
        fName := path, fHandle := s.fileCount, fLength := 0, pos := 0, isOpen := 1 }
    let cf1 := s.currentFrame + 1
    ({ s with
        allFile := setAt s.allFile s.fileCount f
        fileCount := s.fileCount + 1
        currentFrame := if cf1 = 1024 then 0 else cf1
        currentCart := if cf1 = 1024 then s.currentCart + 1 else s.currentCart },
      f.fHandle)

/-- The loop over the cartridges in `cart_poweron` and `cart_poweroff`:
LOAD_CARTRIDGE `i` then ZERO_FRAME, for `n` more cartridges starting at `i`. -/
def zeroLoop {D : Type} (K : CartHeader) (bus : BusFn D) :
    Nat → Nat → D → List Nat → Bool × D × List Nat
  | 0, _, dev, sent => (true, dev, sent)
  | n + 1, i, dev, sent =>
    let x := bus_xfer bus dev sent K.CART_OP_LDCART i 0 zeroBlock
    if x.ok = false then (false, x.dev, x.sent)
    else
      let y := bus_xfer bus x.dev x.sent K.CART_OP_BZERO 0 0 zeroBlock
      if y.ok = false then (false, y.dev, y.sent)
      else zeroLoop K bus n (i + 1) y.dev y.sent

/-- The function `cart_poweron`. -/
def cart_poweron {D : Type} (K : CartHeader) (bus : BusFn D) (s : Driver D) : Driver D × Int :=
  let x := bus_xfer bus s.dev s.sent K.CART_OP_INITMS 0 0 zeroBlock
  if x.ok = false then ({ s with dev := x.dev, sent := x.sent }, -1)
  else
    let z := zeroLoop K bus K.CART_MAX_CARTRIDGES 0 x.dev x.sent
    if z.1 = false then ({ s with dev := z.2.1, sent := z.2.2 }, -1)
    else ({ s with cc := init_cart_cache s.cc, dev := z.2.1, sent := z.2.2 }, 0)

/-- The loop `for (i = 0; i < fileCount; i++) if (allFile[i].isOpen == 1)
cart_close(allFile[i].fHandle);` of `cart_poweroff`: `n` more rounds starting
at index `i`. -/
def closeLoop {D : Type} : Nat → Nat → Driver D → Driver D
  | 0, _, s => s
  | n + 1, i, s =>
    closeLoop n (i + 1)
      (if (s.allFile i).isOpen = 1 then (cart_close s (s.allFile i).fHandle).1 else s)

/-- The function `cart_poweroff`. -/
def cart_poweroff {D : Type} (K : CartHeader) (bus : BusFn D) (s : Driver D) : Driver D × Int :=
  let z := zeroLoop K bus K.CART_MAX_CARTRIDGES 0 s.dev s.sent
  if z.1 = false then ({ s with dev := z.2.1, sent := z.2.2 }, -1)
  else
    let s1 := closeLoop s.fileCount 0 { s with dev := z.2.1, sent := z.2.2 }
    let x := bus_xfer bus s1.dev s1.sent K.CART_OP_POWOFF 0 0 zeroBlock
    if x.ok = false then ({ s1 with dev := x.dev, sent := x.sent }, -1)
    else ({ s1 with cc := close_cart_cache K s1.cc, dev := x.dev, sent := x.sent }, 0)

/-- The program state before the first call: zero-initialised file table,
`fileCount = 0`, `currentFrame = -1`, `currentCart = 0`, the cache globals with
the configured `cacheSize`, nothing sent yet. -/
def initDriver {D : Type} (cacheSize : Nat) (dev : D) : Driver D :=
  { allFile := fun _ =>
      { fName := "", fLength := 0, isOpen := 0, fHandle := 0, pos := 0,
        fCart := fun _ => 0, fFrame := fun _ => 0 }
    fileCount := 0
    currentFrame := -1
    currentCart := 0
    cc := { cacheSize := cacheSize, current := 0,
            cache := fun _ => { memCart := 0, memFrm := 0, time := 0, memContent := zeroBlock } }
    dev := dev
    sent := [] }

/-! ## The far end of the bus used in the scenarios -/

/-- State of a CART device that stores frames: the cartridge selected by the
last LOAD_CARTRIDGE and the content of every frame of every cartridge. -/
structure Device where
  loaded : Nat
  mem : Nat → Nat → Block

/-- A device that stores and returns frames faithfully and answers every
request with the fields of the request register and the status flag clear:
LOAD_CARTRIDGE selects the cartridge named in the register, READ_FRAME returns
the named frame of the selected cartridge, WRITE_FRAME stores the frame sent
into the named frame of the selected cartridge, ZERO_FRAME clears the selected
cartridge. -/
def memBus (K : CartHeader) : BusFn Device := fun d reg buf =>
  let r := (extract_cart_opcode reg).2
  let resp := create_cart_opcode r.ky1 r.ky2 0 r.ct1 r.fm1
  if r.ky1 = K.CART_OP_LDCART then (resp, buf, { d with loaded := r.ct1 })
  else if r.ky1 = K.CART_OP_RDFRME then (resp, d.mem d.loaded r.fm1, d)
  else if r.ky1 = K.CART_OP_WRFRME then
    (resp, buf,
      { d with
        mem := setAt d.mem d.loaded
          (setAt (d.mem d.loaded) r.fm1
            (memcpy (d.mem d.loaded r.fm1) 0 buf 0 K.CART_FRAME_SIZE)) })
  else if r.ky1 = K.CART_OP_BZERO then
    (resp, buf, { d with mem := setAt d.mem d.loaded (fun _ => zeroBlock) })
  else (resp, buf, d)

/-- A device whose memory is all zero, with cartridge 0 selected. -/
def blankDevice : Device := { loaded := 0, mem := fun _ _ => zeroBlock }

/-! ## Invariants and reachable states of the cache -/

/-- Well-formedness of the cache globals: the slots below `current` hold
pairwise different keys with non-negative components, the allocated slots from
`current` on are empty with age zero. -/
structure CacheInv (c : Cache) : Prop where
  cur_le : c.current ≤ c.cacheSize
  empty_hi : ∀ i, c.current ≤ i → i < c.cacheSize →
    (c.cache i).memCart = -1 ∧ (c.cache i).memFrm = -1 ∧ (c.cache i).time = 0
  key_lo : ∀ i, i < c.current → 0 ≤ (c.cache i).memCart ∧ 0 ≤ (c.cache i).memFrm
  uniq : ∀ i j, i < c.current → j < c.current →
    (c.cache i).memCart = (c.cache j).memCart → (c.cache i).memFrm = (c.cache j).memFrm → i = j

/-- The cache states that `init_cart_cache` (with capacity `C`), followed by
any number of `put_cart_cache` and `get_cart_cache` calls, can produce. -/
inductive CacheReach (K : CartHeader) (C : Nat) : Cache → Prop
  | init (c : Cache) (h : c.cacheSize = C) : CacheReach K C (init_cart_cache c)
  | put {s : Cache} (cart frm : Nat) (buf : Block) (h : CacheReach K C s) :
      CacheReach K C (put_cart_cache K s cart frm buf)
  | get {s : Cache} (cart frm : Nat) (h : CacheReach K C s) :
      CacheReach K C (get_cart_cache s cart frm).1

/-- A slot holds a key when it differs from the empty marker `(-1, -1)`. -/
def holdsKey (e : elem) : Prop := e.memCart ≠ -1 ∨ e.memFrm ≠ -1

instance (e : elem) : Decidable (holdsKey e) := by unfold holdsKey; infer_instance

/-- Number of allocated slots that hold a key. -/
def keyCount (c : Cache) : Nat :=
  ((Finset.range c.cacheSize).filter (fun i => holdsKey (c.cache i))).card

/-- The cache after `put_cart_cache` has been called for the keys `keys 0`,
..., `keys (n - 1)` with the buffers `data 0`, ..., `data (n - 1)`, in this
order and with no other call in between. -/
def putMany (K : CartHeader) (c : Cache) (keys : Nat → Nat × Nat) (data : Nat → Block) :
    Nat → Cache
  | 0 => c
  | n + 1 => put_cart_cache K (putMany K c keys data n) (keys n).1 (keys n).2 (data n)

/-! ## Assumptions on the far end of the bus -/

/-- The far end answers every request with the status flag clear. -/
def BusOk {D : Type} (bus : BusFn D) : Prop :=
  ∀ (d : D) (reg : Nat) (buf : Block), (extract_cart_opcode (bus d reg buf).1).2.rt1 = 0

/-! ## Scenarios -/

/-- Seek to the start of frame `k` of the file and read one whole frame. -/
def readFrame {D : Type} (K : CartHeader) (bus : BusFn D) (s : Driver D) (fd : Int) (k : Nat)
    (buf : Block) : Driver D × Block × Int :=
  cart_read K bus (cart_seek s fd (K.CART_FRAME_SIZE * k)).1 fd buf (K.CART_FRAME_SIZE : Int)

/-- Every byte of the device memory is zero. -/
def ZeroMem (d : Device) : Prop := ∀ c fr o, d.mem c fr o = 0

/-- Every byte held in a cache slot is zero. -/
def ZeroCache (c : Cache) : Prop := ∀ i o, (c.cache i).memContent o = 0

/-! ## Reachable driver states and the scenarios of the claims -/

/-- The driver states that can be reached from `cart_poweron` (cache capacity
`C`, against the storing device with blank memory) by the file operations.
The frame maps being total maps here, a write of any length is a step; the
limits of the embedding are listed at the head of the file. -/
inductive Reach (K : CartHeader) (C : Nat) : Driver Device → Prop
  | poweron : Reach K C (cart_poweron K (memBus K) (initDriver C blankDevice)).1
  | open {s : Driver Device} (path : String) (h : Reach K C s) : Reach K C (cart_open s path).1
  | close {s : Driver Device} (fd : Int) (h : Reach K C s) : Reach K C (cart_close s fd).1
  | seek {s : Driver Device} (fd : Int) (loc : Nat) (h : Reach K C s) :
      Reach K C (cart_seek s fd loc).1
  | read {s : Driver Device} (fd : Int) (buf : Block) (count : Int) (h : Reach K C s) :
      Reach K C (cart_read K (memBus K) s fd buf count).1
  | write {s : Driver Device} (fd : Int) (buf : Block) (count : Int) (h : Reach K C s) :
      Reach K C (cart_write K (memBus K) s fd buf count).1

/-- Every cache slot that holds a key holds, in its `CART_FRAME_SIZE` bytes,
what the device stores for the frame the key names. -/
def CacheConsistent (K : CartHeader) (s : Driver Device) : Prop :=
  ∀ i, i < s.cc.cacheSize → holdsKey (s.cc.cache i) → ∀ o, o < K.CART_FRAME_SIZE →
    (s.cc.cache i).memContent o
      = s.dev.mem (s.cc.cache i).memCart.toNat (s.cc.cache i).memFrm.toNat o

/-- A buffer of bytes 7. -/
def sevens : Block := fun _ => 7

/-- A buffer of bytes 9. -/
def nines : Block := fun _ => 9

/-! ## The stages of the scenario that reaches the second cartridge -/

/-- The state right after power-on with a cache of capacity 1, as far as the
scenarios depend on it: the zero-initialised file table, no file, the
allocator cursor before the first frame, a well-formed cache of capacity 1,
and only zero bytes in the cache and on the device. -/
def Fresh (s : Driver Device) : Prop :=
  s.allFile = (initDriver 1 blankDevice : Driver Device).allFile ∧
  s.fileCount = 0 ∧ s.currentFrame = -1 ∧ s.currentCart = 0 ∧
  CacheInv s.cc ∧ s.cc.cacheSize = 1 ∧ ZeroCache s.cc ∧ ZeroMem s.dev

/-- One open, empty file "a" with handle 0; the allocator cursor is at
cartridge 0, frame 0. -/
def OneFile (s : Driver Device) : Prop :=
  s.fileCount = 1 ∧ (s.allFile 0).fName = "a" ∧ (s.allFile 0).isOpen = 1 ∧
  (s.allFile 0).pos = 0 ∧ (s.allFile 0).fLength = 0 ∧
  s.allFile 1 = (initDriver 1 blankDevice : Driver Device).allFile 1 ∧
  s.currentFrame = 0 ∧ s.currentCart = 0 ∧
  CacheInv s.cc ∧ s.cc.cacheSize = 1 ∧ ZeroCache s.cc ∧ ZeroMem s.dev

/-- File "a" has taken every frame of cartridge 0: the allocator cursor is at
cartridge 0, frame 1023. -/
def CartFull (s : Driver Device) : Prop :=
  s.fileCount = 1 ∧ (s.allFile 0).fName = "a" ∧
  s.allFile 1 = (initDriver 1 blankDevice : Driver Device).allFile 1 ∧
  s.currentFrame = 1023 ∧ s.currentCart = 0 ∧
  CacheInv s.cc ∧ s.cc.cacheSize = 1 ∧ ZeroCache s.cc ∧ ZeroMem s.dev

/-- A second file with handle 1 is open and empty, its frame map is still the
zero-initialised one, and the allocator cursor is at cartridge 1, frame 0. -/
def TwoFiles (s : Driver Device) : Prop :=
  s.fileCount = 2 ∧ (s.allFile 1).isOpen = 1 ∧ (s.allFile 1).pos = 0 ∧
  (s.allFile 1).fLength = 0 ∧ (s.allFile 1).fCart 1 = 0 ∧ (s.allFile 1).fFrame 1 = 0 ∧
  s.currentFrame = 0 ∧ s.currentCart = 1 ∧
  CacheInv s.cc ∧ s.cc.cacheSize = 1 ∧ ZeroCache s.cc ∧ ZeroMem s.dev

/-! ## Invariants of the file table -/

/-- Well-formedness of the file table: the entries from `fileCount` on are
untouched (not open), the entry with index `i` below `fileCount` carries the
handle `i`, the names of the entries below `fileCount` are pairwise different,
and every open flag is 0 or 1. -/
structure TableInv {D : Type} (s : Driver D) : Prop where
  free : ∀ i, s.fileCount ≤ i → (s.allFile i).isOpen = 0
  handle : ∀ i, i < s.fileCount → (s.allFile i).fHandle = (i : Int)
  names : ∀ i j, i < s.fileCount → j < s.fileCount →
    (s.allFile i).fName = (s.allFile j).fName → i = j
  flag : ∀ i, (s.allFile i).isOpen = 0 ∨ (s.allFile i).isOpen = 1

/-- The state `t` has the same number of files as `s`, and every entry has
the same name, handle and open flag. -/
def SameFiles {D : Type} (s t : Driver D) : Prop :=
  t.fileCount = s.fileCount ∧
  ∀ i, (t.allFile i).fName = (s.allFile i).fName ∧
    (t.allFile i).fHandle = (s.allFile i).fHandle ∧
    (t.allFile i).isOpen = (s.allFile i).isOpen

/-! ## Invariants of positions and of the allocator cursor -/

/-- Well-formedness of positions and of the allocator cursor: every entry of
the file table has its position at most its length; the allocator frame lies
in [-1, 1023] and the allocator cartridge is not negative; the cursor is at
its initial value (-1, 0) as long as no file has been created and its frame is
not negative afterwards. -/
structure StateInv {D : Type} (s : Driver D) : Prop where
  pos_le : ∀ i, (s.allFile i).pos ≤ (s.allFile i).fLength
  frame_lo : -1 ≤ s.currentFrame
  frame_hi : s.currentFrame < 1024
  cart_lo : 0 ≤ s.currentCart
  fresh : s.fileCount = 0 → s.currentFrame = -1 ∧ s.currentCart = 0
  started : 0 < s.fileCount → 0 ≤ s.currentFrame

/-- The linear index `cartridge * 1024 + frame` of the allocator cursor. -/
def cursorIndex {D : Type} (s : Driver D) : Int := s.currentCart * 1024 + s.currentFrame

/-! ## The request sequence of power-on and power-off -/

/-- The requests of the loop over the cartridges, in the order sent: for each
cartridge `i` from 0 to `CART_MAX_CARTRIDGES - 1`, LOAD_CARTRIDGE carrying `i`
and then ZERO_FRAME. -/
def zeroRequests (K : CartHeader) : List Nat :=
  (List.range K.CART_MAX_CARTRIDGES).flatMap
    (fun i => [create_cart_opcode K.CART_OP_LDCART 0 0 i 0,
               create_cart_opcode K.CART_OP_BZERO 0 0 0 0])

/-! ## Concrete states used to instantiate the theorems -/

/-- The state after `cart_poweron` (cache capacity 1, blank storing device)
and `cart_open("a")`. -/
def opened : Driver Device :=
  (cart_open (cart_poweron stdHeader (memBus stdHeader) (initDriver 1 blankDevice)).1 "a").1

/-- The state after 1024 bytes 7 have been written to file "a" (handle 0) of
`opened` and the position has been moved back to offset 10. -/
def written : Driver Device :=
  (cart_seek (cart_write stdHeader (memBus stdHeader) opened 0 sevens 1024).1 0 10).1

/-- The cache in `cartCacheUnitTest` before the last insertion:
`set_cart_cache_size(50)`, `init_cart_cache()`, then insert and look up the
key (0, 0), then insert and look up the key (0, 1). -/
def unitTestCache : Cache :=
  (get_cart_cache
    (put_cart_cache stdHeader
      (get_cart_cache
        (put_cart_cache stdHeader
          (init_cart_cache
            (set_cart_cache_size (initDriver 0 blankDevice : Driver Device).cc 50).1)
          0 0 sevens)
        0 0).1
      0 1 nines)
    0 1).1

/-- A full cache of capacity 2: `set_cart_cache_size(2)`, `init_cart_cache()`,
then the keys (0, 0) and (0, 1) inserted. -/
def fullCache : Cache :=
  putMany stdHeader
    (init_cart_cache (set_cart_cache_size (initDriver 0 blankDevice : Driver Device).cc 2).1)
    (fun i => (0, i)) (fun _ => sevens) 2

/-- One call of the cache interface after `init_cart_cache`. -/
inductive CacheOp where
  | put (cart frm : Nat) (buf : Block)
  | get (cart frm : Nat)

/-- The cache after the call `op`. -/
def applyOp (K : CartHeader) (c : Cache) : CacheOp → Cache
  | CacheOp.put cart frm buf => put_cart_cache K c cart frm buf
  | CacheOp.get cart frm => (get_cart_cache c cart frm).1

/-- The cache after `init_cart_cache` and the calls of the history `h`, which
lists the calls latest first. -/
def cacheAfter (K : CartHeader) (c0 : Cache) : List CacheOp → Cache
  | [] => init_cart_cache c0
  | op :: h => applyOp K (cacheAfter K c0 h) op

/-- The slot that the call `op`, made in the cache `c`, inserts into or hits:
the occupied slot that holds the key of the call when the call returns; `none`
for a lookup that misses. -/
def touched (K : CartHeader) (c : Cache) : CacheOp → Option Nat
  | CacheOp.put cart frm buf =>
    firstIdx (keyMatch (put_cart_cache K c cart frm buf).cache cart frm)
      (put_cart_cache K c cart frm buf).current
  | CacheOp.get cart frm => firstIdx (keyMatch c.cache cart frm) c.current

/-- The number of calls of the history `h` (latest first) made since slot `i`
was last inserted into or hit. -/
def sinceTouched (K : CartHeader) (c0 : Cache) : List CacheOp → Nat → Nat
  | [], _ => 0
  | op :: h, i =>
    if touched K (cacheAfter K c0 h) op = some i then 0 else sinceTouched K c0 h i + 1

/-! ## The ages of the cache slots -/

/-- A history of three calls on a cache of capacity two, latest call first:
put (0, 0), put (0, 1), then a hit on (0, 0). -/
def lruHistory : List CacheOp :=
  [CacheOp.get 0 0, CacheOp.put 0 1 nines, CacheOp.put 0 0 sevens]

/-- The cache record of a freshly initialised driver, resized to capacity two. -/
def lruCache0 : Cache :=
  (set_cart_cache_size (initDriver 0 blankDevice : Driver Device).cc 2).1

/-- The far end `bus` together with a log of the response registers it has
returned, oldest first. -/
def logBus {D : Type} (bus : BusFn D) : BusFn (D × List Nat) := fun d reg buf =>
  ((bus d.1 reg buf).1, (bus d.1 reg buf).2.1,
    ((bus d.1 reg buf).2.2, d.2 ++ [(bus d.1 reg buf).1]))

/-- The test `if (rt1)` that the driver applies to a decoded response register. -/
def failed (resp : Nat) : Bool := decide ((extract_cart_opcode resp).2.rt1 ≠ 0)

/-- An exchange or fetch took the response log from `l0` to `l1` and the number
of requests sent from `n0` to `n1`, one response per request; it succeeded
(`ok`) when no response had the status flag set, and it gave up when the
last response, and no earlier one, had it set. -/
def Track (l0 : List Nat) (n0 : Nat) (l1 : List Nat) (n1 : Nat) (ok : Bool) : Prop :=
  ∃ ext, l1 = l0 ++ ext ∧ n1 = n0 + ext.length ∧
    ((ok = true ∧ ∀ r, r ∈ ext → failed r = false) ∨
     (ok = false ∧ ∃ l r, ext = l ++ [r] ∧ (∀ q, q ∈ l → failed q = false) ∧ failed r = true))

/-- A call took the response log from `l0` to `l1` and the number of requests
sent from `n0` to `n1`, one response per request: either no response had the
status flag set, or the last response, and no earlier one, had it set and the
call returned -1. -/
def Run (l0 : List Nat) (n0 : Nat) (l1 : List Nat) (n1 : Nat) (ret : Int) : Prop :=
  ∃ ext, l1 = l0 ++ ext ∧ n1 = n0 + ext.length ∧
    ((∀ r, r ∈ ext → failed r = false) ∨
     (ret = -1 ∧ ∃ l r, ext = l ++ [r] ∧ (∀ q, q ∈ l → failed q = false) ∧ failed r = true))

/-- The call that took the state `s` to the state `t` and returned `ret`
received the responses `ext` to exactly as many requests, and whenever a
response `r` in `ext` has the status flag set, no response follows it (no
further request was sent) and the call returned -1. -/
def Aborts {D : Type} (s t : Driver (D × List Nat)) (ret : Int) : Prop :=
  ∃ ext, t.dev.2 = s.dev.2 ++ ext ∧ t.sent.length = s.sent.length + ext.length ∧
    ∀ l r l2, ext = l ++ r :: l2 → failed r = true → l2 = [] ∧ ret = -1

/-- A far end that counts the requests and answers request number `k` (from 0)
with the all-ones register that `client_cart_bus_request` returns on a
transport error, and every other request with the register 0. -/
def failAt (k : Nat) : BusFn Nat := fun d _ buf =>
  (if d = k then 18446744073709551615 else 0, buf, d + 1)

/-- The driver state after the caller has overwritten, with the string
`name`, the buffer whose address it passed to `cart_open` when the table entry
`i` was created: the entry holds that address (`fName = path`), so the name
`strcmp` reads from it is now `name`. Nothing else changes. -/
def callerOverwrites {D : Type} (s : Driver D) (i : Nat) (name : String) : Driver D :=
  { s with allFile := setAt s.allFile i { s.allFile i with fName := name } }

/-! # Theorems -/

/-! ## Lemmas on the frame cache -/

theorem firstIdx_none {p : Nat → Bool} {n : Nat} :
    firstIdx p n = none ↔ ∀ j, j < n → p j = false := by
  induction n with
  | zero => simp [firstIdx]
  | succ n ih =>
    unfold firstIdx
    cases hf : firstIdx p n with
    | some a =>
      simp only [false_iff, reduceCtorEq]
      intro hall
      have := ih.mpr (fun j hj => hall j (by omega))
      rw [hf] at this
      exact absurd this (by simp)
    | none =>
      have h1 := ih.mp hf
      by_cases hp : p n = true
      · simp only [hp, if_true, false_iff, reduceCtorEq]
        intro hall
        have := hall n (by omega)
        rw [hp] at this
        exact absurd this (by simp)
      · simp only [hp, if_false, true_iff, Bool.false_eq_true]
        intro j hj
        rcases Nat.lt_succ_iff_lt_or_eq.mp hj with h' | h'
        · exact h1 j h'
        · subst h'; simpa using hp

theorem firstIdx_some {p : Nat → Bool} {n i : Nat} (h : firstIdx p n = some i) :
    i < n ∧ p i = true ∧ ∀ j, j < i → p j = false := by
  induction n with
  | zero => simp [firstIdx] at h
  | succ n ih =>
    unfold firstIdx at h
    cases hf : firstIdx p n with
    | some a =>
      rw [hf] at h
      simp only [Option.some.injEq] at h
      subst h
      obtain ⟨h1, h2, h3⟩ := ih hf
      exact ⟨by omega, h2, h3⟩
    | none =>
      rw [hf] at h
      by_cases hp : p n = true
      · simp only [hp, if_true, Option.some.injEq] at h
        subst h
        exact ⟨by omega, hp, firstIdx_none.mp hf⟩
      · simp [hp] at h

theorem firstIdx_of_least {p : Nat → Bool} {n i : Nat} (hi : i < n) (hp : p i = true)
    (hl : ∀ j, j < i → p j = false) : firstIdx p n = some i := by
  cases hf : firstIdx p n with
  | none =>
    have := firstIdx_none.mp hf i hi
    rw [hp] at this
    exact absurd this (by simp)
  | some a =>
    obtain ⟨h1, h2, h3⟩ := firstIdx_some hf
    have : a = i := by
      rcases Nat.lt_trichotomy a i with h | h | h
      · have := hl a h; rw [h2] at this; exact absurd this (by simp)
      · exact h
      · have := h3 i h; rw [hp] at this; exact absurd this (by simp)
    rw [this]

theorem maxIndex_le (slots : Nat → elem) (n : Nat) : maxIndex slots n ≤ n := by
  induction n with
  | zero => simp [maxIndex]
  | succ n ih =>
    unfold maxIndex
    simp only
    split
    · exact Nat.le_refl _
    · omega

theorem maxIndex_eq_zero (slots : Nat → elem) (n : Nat)
    (h : ∀ i, 1 ≤ i → i ≤ n → (slots i).time ≤ (slots 0).time) : maxIndex slots n = 0 := by
  induction n with
  | zero => simp [maxIndex]
  | succ n ih =>
    unfold maxIndex
    simp only
    rw [ih (fun i h1 h2 => h i h1 (by omega))]
    have := h (n + 1) (by omega) (Nat.le_refl _)
    rw [if_neg (by omega)]

@[simp] theorem setAt_same {α : Type} (a : Nat → α) (i : Nat) (v : α) : setAt a i v i = v := by
  simp [setAt]

theorem setAt_other {α : Type} (a : Nat → α) (i k : Nat) (v : α) (h : k ≠ i) :
    setAt a i v k = a k := by
  simp [setAt, h]

theorem keyMatch_iff (slots : Nat → elem) (cart frm i : Nat) :
    keyMatch slots cart frm i = true ↔
      (slots i).memCart = (cart : Int) ∧ (slots i).memFrm = (frm : Int) := by
  simp [keyMatch]

theorem keyMatch_false_iff (slots : Nat → elem) (cart frm i : Nat) :
    keyMatch slots cart frm i = false ↔
      ¬ ((slots i).memCart = (cart : Int) ∧ (slots i).memFrm = (frm : Int)) := by
  rw [← keyMatch_iff]; simp

@[simp] theorem ageAll_memCart (c : Cache) (i : Nat) :
    (ageAll c i).memCart = (c.cache i).memCart := by
  unfold ageAll; split <;> rfl

@[simp] theorem ageAll_memFrm (c : Cache) (i : Nat) :
    (ageAll c i).memFrm = (c.cache i).memFrm := by
  unfold ageAll; split <;> rfl

@[simp] theorem ageAll_memContent (c : Cache) (i : Nat) :
    (ageAll c i).memContent = (c.cache i).memContent := by
  unfold ageAll; split <;> rfl

theorem ageAll_time (c : Cache) (i : Nat) :
    (ageAll c i).time = if i < c.current then (c.cache i).time + 1 else (c.cache i).time := by
  unfold ageAll; split <;> rfl

theorem keyMatch_ageAll (c : Cache) (cart frm : Nat) :
    keyMatch (ageAll c) cart frm = keyMatch c.cache cart frm := by
  funext i; simp [keyMatch]

theorem CacheInv_init (c : Cache) : CacheInv (init_cart_cache c) := by
  constructor
  · simp [init_cart_cache]
  · intro i _ hi
    simp [init_cart_cache] at hi ⊢
    simp [hi]
  · intro i hi; simp [init_cart_cache] at hi
  · intro i j hi; simp [init_cart_cache] at hi

/-- A slot that matches a key lies below `current`. -/
theorem match_lt_current {c : Cache} (h : CacheInv c) {cart frm i : Nat} (hi : i < c.cacheSize)
    (hm : keyMatch c.cache cart frm i = true) : i < c.current := by
  by_contra hc
  have := h.empty_hi i (by omega) hi
  rw [keyMatch_iff] at hm
  omega

theorem CacheInv_get {c : Cache} (h : CacheInv c) (cart frm : Nat) :
    CacheInv (get_cart_cache c cart frm).1 := by
  unfold get_cart_cache
  simp only
  cases hf : firstIdx (keyMatch (ageAll c) cart frm) c.current with
  | none =>
    simp only
    refine ⟨?_, ?_, ?_, ?_⟩ <;> dsimp only
    · exact h.cur_le
    · intro i h1 h2
      have := h.empty_hi i h1 h2
      simp only [ageAll_memCart, ageAll_memFrm, ageAll_time]
      rw [if_neg (by omega)]
      exact this
    · intro i hi; simpa using h.key_lo i hi
    · intro i j hi hj; simpa using h.uniq i j hi hj
  | some m =>
    simp only
    obtain ⟨hm1, -, -⟩ := firstIdx_some hf
    have key : ∀ i, (setAt (ageAll c) m { ageAll c m with time := 0 } i).memCart = (c.cache i).memCart
        ∧ (setAt (ageAll c) m { ageAll c m with time := 0 } i).memFrm = (c.cache i).memFrm := by
      intro i
      by_cases him : i = m
      · subst him; simp
      · simp [setAt_other _ _ _ _ him]
    refine ⟨?_, ?_, ?_, ?_⟩ <;> dsimp only
    · exact h.cur_le
    · intro i h1 h2
      have := h.empty_hi i h1 h2
      have him : i ≠ m := by omega
      simp only [setAt_other _ _ _ _ him, ageAll_memCart, ageAll_memFrm, ageAll_time]
      rw [if_neg (by omega)]
      exact this
    · intro i hi
      rw [(key i).1, (key i).2]; exact h.key_lo i hi
    · intro i j hi hj
      rw [(key i).1, (key i).2, (key j).1, (key j).2]; exact h.uniq i j hi hj

theorem CacheInv_put (K : CartHeader) {c : Cache} (h : CacheInv c) (cart frm : Nat) (buf : Block) :
    CacheInv (put_cart_cache K c cart frm buf) := by
  unfold put_cart_cache
  simp only
  cases hf : firstIdx (keyMatch (ageAll c) cart frm) c.cacheSize with
  | some m =>
    simp only
    obtain ⟨hm1, hm2, -⟩ := firstIdx_some hf
    rw [keyMatch_ageAll] at hm2
    have hmc := match_lt_current h hm1 hm2
    have key : ∀ i, (setAt (ageAll c) m { ageAll c m with
          memContent := memcpy (ageAll c m).memContent 0 buf 0 K.CART_FRAME_SIZE, time := 0 } i).memCart
          = (c.cache i).memCart
        ∧ (setAt (ageAll c) m { ageAll c m with
          memContent := memcpy (ageAll c m).memContent 0 buf 0 K.CART_FRAME_SIZE, time := 0 } i).memFrm
          = (c.cache i).memFrm := by
      intro i
      by_cases him : i = m
      · subst him; simp
      · simp [setAt_other _ _ _ _ him]
    refine ⟨?_, ?_, ?_, ?_⟩ <;> dsimp only
    · exact h.cur_le
    · intro i h1 h2
      have := h.empty_hi i h1 h2
      have him : i ≠ m := by omega
      simp only [setAt_other _ _ _ _ him, ageAll_memCart, ageAll_memFrm, ageAll_time]
      rw [if_neg (by omega)]
      exact this
    · intro i hi
      rw [(key i).1, (key i).2]; exact h.key_lo i hi
    · intro i j hi hj
      rw [(key i).1, (key i).2, (key j).1, (key j).2]; exact h.uniq i j hi hj
  | none =>
    simp only
    have hno := firstIdx_none.mp hf
    rw [keyMatch_ageAll] at hno
    by_cases hfull : c.current = c.cacheSize
    · rw [if_pos hfull]
      have hml := maxIndex_le (ageAll c) (c.cacheSize - 1)
      refine ⟨?_, ?_, ?_, ?_⟩ <;> dsimp only
      · exact h.cur_le
      · intro i h1 h2
        omega
      · intro i hi
        by_cases him : i = maxIndex (ageAll c) (c.cacheSize - 1)
        · rw [him]; simp
        · simp only [setAt_other _ _ _ _ him, ageAll_memCart, ageAll_memFrm]
          exact h.key_lo i hi
      · intro i j hi hj
        by_cases him : i = maxIndex (ageAll c) (c.cacheSize - 1)
        · by_cases hjm : j = maxIndex (ageAll c) (c.cacheSize - 1)
          · intro _ _; omega
          · rw [him]
            simp only [setAt_same, setAt_other _ _ _ _ hjm, ageAll_memCart, ageAll_memFrm]
            intro e1 e2
            have := (keyMatch_false_iff _ _ _ _).mp (hno j (by omega))
            exact absurd ⟨e1.symm, e2.symm⟩ this
        · by_cases hjm : j = maxIndex (ageAll c) (c.cacheSize - 1)
          · rw [hjm]
            simp only [setAt_same, setAt_other _ _ _ _ him, ageAll_memCart, ageAll_memFrm]
            intro e1 e2
            have := (keyMatch_false_iff _ _ _ _).mp (hno i (by omega))
            exact absurd ⟨e1, e2⟩ this
          · simp only [setAt_other _ _ _ _ him, setAt_other _ _ _ _ hjm, ageAll_memCart,
              ageAll_memFrm]
            exact h.uniq i j hi hj
    · rw [if_neg hfull]
      have hlt : c.current < c.cacheSize := lt_of_le_of_ne h.cur_le hfull
      refine ⟨?_, ?_, ?_, ?_⟩ <;> dsimp only
      · omega
      · intro i h1 h2
        have him : i ≠ c.current := by omega
        have := h.empty_hi i (by omega) h2
        simp only [setAt_other _ _ _ _ him, ageAll_memCart, ageAll_memFrm, ageAll_time]
        rw [if_neg (by omega)]
        exact this
      · intro i hi
        by_cases him : i = c.current
        · rw [him]; simp
        · simp only [setAt_other _ _ _ _ him, ageAll_memCart, ageAll_memFrm]
          exact h.key_lo i (by omega)
      · intro i j hi hj
        by_cases him : i = c.current
        · by_cases hjm : j = c.current
          · intro _ _; omega
          · rw [him]
            simp only [setAt_same, setAt_other _ _ _ _ hjm, ageAll_memCart, ageAll_memFrm]
            intro e1 e2
            have := (keyMatch_false_iff _ _ _ _).mp (hno j (by omega))
            exact absurd ⟨e1.symm, e2.symm⟩ this
        · by_cases hjm : j = c.current
          · rw [hjm]
            simp only [setAt_same, setAt_other _ _ _ _ him, ageAll_memCart, ageAll_memFrm]
            intro e1 e2
            have := (keyMatch_false_iff _ _ _ _).mp (hno i (by omega))
            exact absurd ⟨e1, e2⟩ this
          · simp only [setAt_other _ _ _ _ him, setAt_other _ _ _ _ hjm, ageAll_memCart,
              ageAll_memFrm]
            exact h.uniq i j (by omega) (by omega)

@[simp] theorem put_cacheSize (K : CartHeader) (c : Cache) (cart frm : Nat) (buf : Block) :
    (put_cart_cache K c cart frm buf).cacheSize = c.cacheSize := by
  unfold put_cart_cache
  simp only
  split
  · rfl
  · split <;> rfl

@[simp] theorem get_cacheSize (c : Cache) (cart frm : Nat) :
    (get_cart_cache c cart frm).1.cacheSize = c.cacheSize := by
  unfold get_cart_cache
  simp only
  split <;> rfl

@[simp] theorem get_current (c : Cache) (cart frm : Nat) :
    (get_cart_cache c cart frm).1.current = c.current := by
  unfold get_cart_cache
  simp only
  split <;> rfl

/-- After `put_cart_cache` some slot below `current` holds the key and, in its
first `CART_FRAME_SIZE` bytes, the buffer. -/
theorem put_slot (K : CartHeader) {c : Cache} (h : CacheInv c) (hC : 1 ≤ c.cacheSize)
    (cart frm : Nat) (buf : Block) :
    ∃ p old, p < (put_cart_cache K c cart frm buf).current ∧
      ((put_cart_cache K c cart frm buf).cache p).memCart = (cart : Int) ∧
      ((put_cart_cache K c cart frm buf).cache p).memFrm = (frm : Int) ∧
      ((put_cart_cache K c cart frm buf).cache p).memContent
        = memcpy old 0 buf 0 K.CART_FRAME_SIZE := by
  unfold put_cart_cache
  simp only
  cases hf : firstIdx (keyMatch (ageAll c) cart frm) c.cacheSize with
  | some m =>
    obtain ⟨hm1, hm2, -⟩ := firstIdx_some hf
    have hm3 := (keyMatch_iff _ _ _ _).mp hm2
    rw [keyMatch_ageAll] at hm2
    have hmc := match_lt_current h hm1 hm2
    exact ⟨m, (ageAll c m).memContent, hmc, by simpa using hm3.1, by simpa using hm3.2, by simp⟩
  | none =>
    by_cases hfull : c.current = c.cacheSize
    · simp only [if_pos hfull]
      have hml := maxIndex_le (ageAll c) (c.cacheSize - 1)
      exact ⟨maxIndex (ageAll c) (c.cacheSize - 1), (ageAll c (maxIndex (ageAll c) (c.cacheSize - 1))).memContent,
        by omega, by simp, by simp, by simp⟩
    · simp only [if_neg hfull]
      exact ⟨c.current, (ageAll c c.current).memContent, by omega, by simp, by simp, by simp⟩

/-- A lookup of the key held by a slot below `current` returns that slot. -/
theorem get_of_slot {c : Cache} (h : CacheInv c) {cart frm p : Nat} (hp : p < c.current)
    (h1 : (c.cache p).memCart = (cart : Int)) (h2 : (c.cache p).memFrm = (frm : Int)) :
    (get_cart_cache c cart frm).2 = some (c.cache p).memContent := by
  have hf : firstIdx (keyMatch (ageAll c) cart frm) c.current = some p := by
    apply firstIdx_of_least hp
    · rw [keyMatch_ageAll, keyMatch_iff]; exact ⟨h1, h2⟩
    · intro j hj
      rw [keyMatch_ageAll, keyMatch_false_iff]
      rintro ⟨e1, e2⟩
      have := h.uniq j p (by omega) hp (by rw [e1, h1]) (by rw [e2, h2])
      omega
  unfold get_cart_cache
  simp only [hf, ageAll_memContent]

/-- A lookup misses when no slot below `current` holds the key. -/
theorem get_none_of {c : Cache} {cart frm : Nat}
    (h : ∀ j, j < c.current →
      ¬ ((c.cache j).memCart = (cart : Int) ∧ (c.cache j).memFrm = (frm : Int))) :
    (get_cart_cache c cart frm).2 = none := by
  have hf : firstIdx (keyMatch (ageAll c) cart frm) c.current = none := by
    rw [firstIdx_none]
    intro j hj
    rw [keyMatch_ageAll, keyMatch_false_iff]
    exact h j hj
  unfold get_cart_cache
  simp only [hf]

theorem CacheReach_inv {K : CartHeader} {C : Nat} {s : Cache} (h : CacheReach K C s) :
    CacheInv s ∧ s.cacheSize = C := by
  induction h with
  | init c h => exact ⟨CacheInv_init c, by simpa [init_cart_cache] using h⟩
  | put cart frm buf _ ih => exact ⟨CacheInv_put K ih.1 cart frm buf, by simpa using ih.2⟩
  | get cart frm _ ih => exact ⟨CacheInv_get ih.1 cart frm, by simpa using ih.2⟩

theorem memcpy_whole (old buf : Block) (n k : Nat) (hk : k < n) : memcpy old 0 buf 0 n k = buf k := by
  simp [memcpy, hk]

/-- Claim C7 (cache insert then lookup): in every cache state reachable from
`init_cart_cache` with capacity `C ≥ 1` by `put_cart_cache` and
`get_cart_cache` calls, for every key `(cart, frm)` and every block `b`,
`put_cart_cache(cart, frm, b)` immediately followed by
`get_cart_cache(cart, frm)` is a hit, and the block returned equals `b` on all
`CART_FRAME_SIZE` bytes. The three cases of the claim (key absent, key already
present, key inserted by eviction) are the three branches of `put_cart_cache`
and are all covered, since the state and the key are arbitrary. -/
theorem put_then_get_returns_block (K : CartHeader) (C : Nat) (hC : 1 ≤ C) (s : Cache)
    (hs : CacheReach K C s) (cart frm : Nat) (b : Block) :
    ∃ r, (get_cart_cache (put_cart_cache K s cart frm b) cart frm).2 = some r ∧
      ∀ k, k < K.CART_FRAME_SIZE → r k = b k := by
  obtain ⟨hinv, hsz⟩ := CacheReach_inv hs
  obtain ⟨p, old, hp, h1, h2, h3⟩ := put_slot K hinv (by omega) cart frm b
  refine ⟨_, get_of_slot (CacheInv_put K hinv cart frm b) hp h1 h2, ?_⟩
  intro k hk
  rw [h3]
  exact memcpy_whole _ _ _ _ hk

theorem holdsKey_iff_lt {c : Cache} (h : CacheInv c) {i : Nat} (hi : i < c.cacheSize) :
    holdsKey (c.cache i) ↔ i < c.current := by
  unfold holdsKey
  constructor
  · intro hk
    by_contra hc
    have := h.empty_hi i (by omega) hi
    omega
  · intro hlt
    have := h.key_lo i hlt
    omega

theorem keyCount_eq_current {c : Cache} (h : CacheInv c) : keyCount c = c.current := by
  unfold keyCount
  have : (Finset.range c.cacheSize).filter (fun i => holdsKey (c.cache i))
      = Finset.range c.current := by
    ext i
    simp only [Finset.mem_filter, Finset.mem_range]
    constructor
    · rintro ⟨h1, h2⟩; exact (holdsKey_iff_lt h h1).mp h2
    · intro h1
      have := h.cur_le
      exact ⟨by omega, (holdsKey_iff_lt h (by omega)).mpr h1⟩
  rw [this, Finset.card_range]

/-- Claim C8 (cache capacity bound): in every cache state reachable from
`init_cart_cache` with capacity `C ≥ 1` by any sequence of `put_cart_cache`
and `get_cart_cache` calls, the occupancy counter `current` is at most `C` and
at most `C` slots hold a key; the number of slots that hold a key is exactly
`current`. -/
theorem cache_capacity_bound (K : CartHeader) (C : Nat) (_hC : 1 ≤ C) (s : Cache)
    (hs : CacheReach K C s) :
    s.current ≤ C ∧ keyCount s ≤ C ∧ keyCount s = s.current := by
  obtain ⟨hinv, hsz⟩ := CacheReach_inv hs
  have := hinv.cur_le
  have hk := keyCount_eq_current hinv
  omega

/-- Claim C9 (cache key uniqueness): in every cache state reachable from
`init_cart_cache` by `put_cart_cache` and `get_cart_cache` calls, two different
slots that both hold a key never hold the same (cartridge, frame) pair. -/
theorem cache_keys_unique (K : CartHeader) (C : Nat) (s : Cache) (hs : CacheReach K C s)
    (i j : Nat) (hi : i < s.cacheSize) (hj : j < s.cacheSize) (hij : i ≠ j)
    (ki : holdsKey (s.cache i)) (kj : holdsKey (s.cache j)) :
    ¬ ((s.cache i).memCart = (s.cache j).memCart ∧ (s.cache i).memFrm = (s.cache j).memFrm) := by
  obtain ⟨hinv, -⟩ := CacheReach_inv hs
  rintro ⟨e1, e2⟩
  exact hij (hinv.uniq i j ((holdsKey_iff_lt hinv hi).mp ki) ((holdsKey_iff_lt hinv hj).mp kj) e1 e2)

theorem putMany_reach (K : CartHeader) (c : Cache) (keys : Nat → Nat × Nat) (data : Nat → Block)
    (n : Nat) : CacheReach K c.cacheSize (putMany K (init_cart_cache c) keys data n) := by
  induction n with
  | zero => exact CacheReach.init c rfl
  | succ n ih => exact CacheReach.put _ _ _ ih

theorem pair_ne_of_ne {a b : Nat × Nat} (h : a ≠ b) :
    ¬ (((a.1 : Nat) : Int) = (b.1 : Int) ∧ ((a.2 : Nat) : Int) = (b.2 : Int)) := by
  rintro ⟨h1, h2⟩
  apply h
  have e1 : a.1 = b.1 := by exact_mod_cast h1
  have e2 : a.2 = b.2 := by exact_mod_cast h2
  exact Prod.ext e1 e2

/-- State of the cache after the first `n` of the inserts, while it is not yet full. -/
theorem putMany_fill (K : CartHeader) (c : Cache) (keys : Nat → Nat × Nat) (data : Nat → Block)
    (hinj : ∀ i j, i ≤ c.cacheSize → j ≤ c.cacheSize → keys i = keys j → i = j)
    (n : Nat) (hn : n ≤ c.cacheSize) :
    (putMany K (init_cart_cache c) keys data n).current = n ∧
    ∀ i, i < n →
      ((putMany K (init_cart_cache c) keys data n).cache i).memCart = ((keys i).1 : Int) ∧
      ((putMany K (init_cart_cache c) keys data n).cache i).memFrm = ((keys i).2 : Int) ∧
      ((putMany K (init_cart_cache c) keys data n).cache i).time = n - 1 - i ∧
      ∀ k, k < K.CART_FRAME_SIZE →
        ((putMany K (init_cart_cache c) keys data n).cache i).memContent k = data i k := by
  induction n with
  | zero => exact ⟨rfl, fun i hi => absurd hi (by omega)⟩
  | succ n ih =>
    obtain ⟨hcur, hsl⟩ := ih (by omega)
    obtain ⟨hinv, hsz⟩ := CacheReach_inv (putMany_reach K c keys data n)
    generalize hs : putMany K (init_cart_cache c) keys data n = s at hcur hsl hinv hsz
    have hno : firstIdx (keyMatch (ageAll s) (keys n).1 (keys n).2) s.cacheSize = none := by
      rw [firstIdx_none]
      intro j hj
      rw [keyMatch_ageAll, keyMatch_false_iff]
      by_cases hjn : j < n
      · obtain ⟨e1, e2, -, -⟩ := hsl j hjn
        rw [e1, e2]
        apply pair_ne_of_ne
        intro he
        have := hinj j n (by omega) (by omega) he
        omega
      · have := hinv.empty_hi j (by omega) hj
        omega
    have hput : putMany K (init_cart_cache c) keys data (n + 1)
        = put_cart_cache K s (keys n).1 (keys n).2 (data n) := by
      rw [← hs]; rfl
    rw [hput]
    unfold put_cart_cache
    simp only [hno, if_neg (show ¬ s.current = s.cacheSize by omega)]
    refine ⟨by omega, ?_⟩
    intro i hi
    by_cases hin : i = n
    · subst hin
      rw [hcur]
      simp only [setAt_same, true_and]
      refine ⟨?_, fun k hk => memcpy_whole _ _ _ _ hk⟩
      rw [ageAll_time, if_neg (by omega)]
      have := hinv.empty_hi i (by omega) (by omega)
      omega
    · have hne : i ≠ s.current := by omega
      obtain ⟨e1, e2, e3, e4⟩ := hsl i (by omega)
      simp only [setAt_other _ _ _ _ hne, ageAll_memCart, ageAll_memFrm, ageAll_memContent]
      refine ⟨e1, e2, ?_, e4⟩
      rw [ageAll_time, if_pos (by omega), e3]
      omega

/-- Claim C10 (cache eviction sequence): for every capacity `C ≥ 1`, after
`init_cart_cache` and the insertion of `C + 1` pairwise distinct keys
`keys 0`, ..., `keys C` with no lookup in between, a lookup of the
first-inserted key `keys 0` misses, and a lookup of each of the other keys
`keys 1`, ..., `keys C` hits and returns the bytes that key was inserted with:
exactly the first-inserted key has been evicted. -/
theorem evicts_first_inserted (K : CartHeader) (C : Nat) (hC : 1 ≤ C) (c : Cache)
    (hc : c.cacheSize = C) (keys : Nat → Nat × Nat) (data : Nat → Block)
    (hinj : ∀ i j, i ≤ C → j ≤ C → keys i = keys j → i = j) :
    (get_cart_cache (putMany K (init_cart_cache c) keys data (C + 1)) (keys 0).1 (keys 0).2).2
        = none ∧
    ∀ i, 1 ≤ i → i ≤ C →
      ∃ r, (get_cart_cache (putMany K (init_cart_cache c) keys data (C + 1))
              (keys i).1 (keys i).2).2 = some r ∧
        ∀ k, k < K.CART_FRAME_SIZE → r k = data i k := by
  subst hc
  obtain ⟨hcur, hsl⟩ := putMany_fill K c keys data hinj c.cacheSize (Nat.le_refl _)
  obtain ⟨hinv, hsz⟩ := CacheReach_inv (putMany_reach K c keys data c.cacheSize)
  have hinv' := (CacheReach_inv (putMany_reach K c keys data (c.cacheSize + 1))).1
  have hput : putMany K (init_cart_cache c) keys data (c.cacheSize + 1)
      = put_cart_cache K (putMany K (init_cart_cache c) keys data c.cacheSize)
          (keys c.cacheSize).1 (keys c.cacheSize).2 (data c.cacheSize) := rfl
  generalize hs : putMany K (init_cart_cache c) keys data c.cacheSize = s at *
  generalize hs' : putMany K (init_cart_cache c) keys data (c.cacheSize + 1) = s' at *
  have hno : firstIdx (keyMatch (ageAll s) (keys c.cacheSize).1 (keys c.cacheSize).2) s.cacheSize
      = none := by
    rw [firstIdx_none]
    intro j hj
    rw [keyMatch_ageAll, keyMatch_false_iff]
    obtain ⟨e1, e2, -, -⟩ := hsl j (by omega)
    rw [e1, e2]
    apply pair_ne_of_ne
    intro he
    have := hinj j c.cacheSize (by omega) (by omega) he
    omega
  have hmax : maxIndex (ageAll s) (s.cacheSize - 1) = 0 := by
    apply maxIndex_eq_zero
    intro i h1 h2
    rw [ageAll_time, ageAll_time, if_pos (by omega), if_pos (by omega),
      (hsl i (by omega)).2.2.1, (hsl 0 (by omega)).2.2.1]
    omega
  have hs'eq : s' = { s with
      cache := setAt (ageAll s) 0
        { memCart := ((keys c.cacheSize).1 : Int), memFrm := ((keys c.cacheSize).2 : Int),
          time := 0,
          memContent := memcpy (ageAll s 0).memContent 0 (data c.cacheSize) 0
            K.CART_FRAME_SIZE } } := by
    rw [hput]
    unfold put_cart_cache
    simp only [hno, if_pos (show s.current = s.cacheSize by omega), hmax]
  have hcur' : s'.current = c.cacheSize := by rw [hs'eq]; exact hcur
  have hslot0 : (s'.cache 0).memCart = ((keys c.cacheSize).1 : Int) ∧
      (s'.cache 0).memFrm = ((keys c.cacheSize).2 : Int) ∧
      ∀ k, k < K.CART_FRAME_SIZE → (s'.cache 0).memContent k = data c.cacheSize k := by
    rw [hs'eq]
    simp only [setAt_same, true_and]
    exact fun k hk => memcpy_whole _ _ _ _ hk
  have hslot : ∀ i, 1 ≤ i → i < c.cacheSize →
      (s'.cache i).memCart = ((keys i).1 : Int) ∧ (s'.cache i).memFrm = ((keys i).2 : Int) ∧
      ∀ k, k < K.CART_FRAME_SIZE → (s'.cache i).memContent k = data i k := by
    intro i h1 h2
    rw [hs'eq]
    have hne : i ≠ 0 := by omega
    obtain ⟨e1, e2, -, e4⟩ := hsl i h2
    simp only [setAt_other _ _ _ _ hne, ageAll_memCart, ageAll_memFrm, ageAll_memContent]
    exact ⟨e1, e2, e4⟩
  constructor
  · apply get_none_of
    intro j hj
    by_cases hj0 : j = 0
    · subst hj0
      rw [hslot0.1, hslot0.2.1]
      apply pair_ne_of_ne
      intro he
      have := hinj c.cacheSize 0 (by omega) (by omega) he
      omega
    · obtain ⟨e1, e2, -⟩ := hslot j (by omega) (by omega)
      rw [e1, e2]
      apply pair_ne_of_ne
      intro he
      have := hinj j 0 (by omega) (by omega) he
      omega
  · intro i h1 h2
    by_cases hiC : i = c.cacheSize
    · subst hiC
      refine ⟨_, get_of_slot hinv' (p := 0) (by omega) hslot0.1 hslot0.2.1, hslot0.2.2⟩
    · obtain ⟨e1, e2, e3⟩ := hslot i h1 (by omega)
      exact ⟨_, get_of_slot hinv' (p := i) (by omega) e1 e2, e3⟩

/-! ## The loops of `cart_write` and `cart_read` -/

theorem create_ne_allones (a b c d e : Nat) :
    create_cart_opcode a b c d e ≠ 18446744073709551615 := by
  intro h
  have h0 := congrArg (fun x => Nat.testBit x 0) h
  simp [create_cart_opcode, Nat.testBit_lor, Nat.testBit_shiftLeft] at h0

theorem bus_xfer_eq {D : Type} {bus : BusFn D} (hb : BusOk bus) (dev : D) (sent : List Nat)
    (op ct fm : Nat) (buf : Block) :
    bus_xfer bus dev sent op ct fm buf =
      { ok := true, dev := (bus dev (create_cart_opcode op 0 0 ct fm) buf).2.2,
        sent := sent ++ [create_cart_opcode op 0 0 ct fm],
        payload := (bus dev (create_cart_opcode op 0 0 ct fm) buf).2.1 } := by
  unfold bus_xfer
  simp only [if_neg (create_ne_allones _ _ _ _ _)]
  have h1 : (extract_cart_opcode (bus dev (create_cart_opcode op 0 0 ct fm) buf).1).1 = 0 := rfl
  have h2 := hb dev (create_cart_opcode op 0 0 ct fm) buf
  simp only [h1, h2, ne_eq, not_true_eq_false, if_false]

theorem bus_xfer_ok {D : Type} {bus : BusFn D} (hb : BusOk bus) (dev : D) (sent : List Nat)
    (op ct fm : Nat) (buf : Block) : (bus_xfer bus dev sent op ct fm buf).ok = true := by
  rw [bus_xfer_eq hb]

theorem fetch_ok {D : Type} (K : CartHeader) {bus : BusFn D} (hb : BusOk bus) (p : Bool)
    (cc : Cache) (dev : D) (sent : List Nat) (tmp : Block) (cart frm : Int) :
    (fetch_frame K bus p cc dev sent tmp cart frm).ok = true := by
  unfold fetch_frame
  simp only
  split
  · rfl
  · simp only [bus_xfer_ok hb, Bool.true_eq_false, if_false]

theorem writeSplice_mid (K : CartHeader) (P N lf : Nat) (buf : Block) (i : Nat) (j : Int)
    (f : cartFile) (cf ct : Int) (tmp : Block)
    (h1 : ¬ i = P / K.CART_FRAME_SIZE) (h2 : ¬ i = (P + N) / K.CART_FRAME_SIZE) :
    (writeSplice K P N lf buf i j f cf ct tmp).1.pos = f.pos + K.CART_FRAME_SIZE ∧
    (writeSplice K P N lf buf i j f cf ct tmp).1.fLength = f.fLength ∧
    (-1 ≤ cf → cf < 1024 →
      (writeSplice K P N lf buf i j f cf ct tmp).2.2.1 * 1024
          + (writeSplice K P N lf buf i j f cf ct tmp).2.1
        = ct * 1024 + cf + (if i ≤ lf then 0 else 1) ∧
      -1 ≤ (writeSplice K P N lf buf i j f cf ct tmp).2.1 ∧
      (writeSplice K P N lf buf i j f cf ct tmp).2.1 < 1024) := by
  unfold writeSplice
  simp only [h1, h2, if_false, ne_eq, not_false_eq_true, if_true]
  by_cases hle : i ≤ lf
  · simp only [if_pos hle]
    exact ⟨trivial, trivial, fun hcf1 hcf2 => ⟨by omega, hcf1, hcf2⟩⟩
  · simp only [if_neg hle]
    refine ⟨trivial, trivial, fun hcf1 hcf2 => ⟨?_, ?_, ?_⟩⟩ <;> split <;> omega

theorem writeLoop_rest {D : Type} (K : CartHeader) {bus : BusFn D} (hb : BusOk bus)
    (hFS : 0 < K.CART_FRAME_SIZE) (P N lf : Nat) (buf : Block) (n : Nat) :
    ∀ (i : Nat) (j : Int) (f : cartFile) (cf ct : Int) (cc : Cache) (dev : D)
      (sent : List Nat) (tmp : Block),
      n + i = (P + N) / K.CART_FRAME_SIZE →
      P / K.CART_FRAME_SIZE < i →
      f.pos = K.CART_FRAME_SIZE * i →
      lf = f.fLength / K.CART_FRAME_SIZE →
      (writeLoop K bus P N lf buf (n + 1) i j f cf ct cc dev sent tmp).ret = (N : Int) ∧
      (writeLoop K bus P N lf buf (n + 1) i j f cf ct cc dev sent tmp).f.pos = P + N ∧
      (writeLoop K bus P N lf buf (n + 1) i j f cf ct cc dev sent tmp).f.fLength
        = max f.fLength (P + N) ∧
      (-1 ≤ cf → cf < 1024 →
        (writeLoop K bus P N lf buf (n + 1) i j f cf ct cc dev sent tmp).currentCart * 1024
            + (writeLoop K bus P N lf buf (n + 1) i j f cf ct cc dev sent tmp).currentFrame
          = ct * 1024 + cf + (((P + N) / K.CART_FRAME_SIZE + 1 - max i (lf + 1) : Nat) : Int) ∧
        -1 ≤ (writeLoop K bus P N lf buf (n + 1) i j f cf ct cc dev sent tmp).currentFrame ∧
        (writeLoop K bus P N lf buf (n + 1) i j f cf ct cc dev sent tmp).currentFrame < 1024) := by
  induction n with
  | zero =>
    intro i j f cf ct cc dev sent tmp hn hi hpos hlf
    have hdm := Nat.div_add_mod (P + N) K.CART_FRAME_SIZE
    have hdl : K.CART_FRAME_SIZE * lf + f.fLength % K.CART_FRAME_SIZE = f.fLength := by
      rw [hlf]; exact Nat.div_add_mod _ _
    have hml := Nat.mod_lt f.fLength hFS
    have hcomm : (N + P) % K.CART_FRAME_SIZE = (P + N) % K.CART_FRAME_SIZE := by
      rw [Nat.add_comm]
    have hi' : i = (P + N) / K.CART_FRAME_SIZE := by omega
    have hne : ¬ i = P / K.CART_FRAME_SIZE := by omega
    simp only [writeLoop, fetch_ok K hb, bus_xfer_ok hb, Bool.true_eq_false, if_false]
    unfold writeSplice
    simp only [hne, if_false, ← hi', if_true, ne_eq, not_true_eq_false]
    by_cases hle : i ≤ lf
    · have hmul : K.CART_FRAME_SIZE * i ≤ K.CART_FRAME_SIZE * lf := Nat.mul_le_mul_left _ hle
      simp only [if_pos hle, hcomm]
      refine ⟨trivial, by rw [hpos, hi']; omega, ?_, fun hcf1 hcf2 => ⟨?_, hcf1, hcf2⟩⟩
      · split <;> omega
      · have : (P + N) / K.CART_FRAME_SIZE + 1 - max i (lf + 1) = 0 := by omega
        rw [← hi'] at this
        omega
    · have hmul : K.CART_FRAME_SIZE * (lf + 1) ≤ K.CART_FRAME_SIZE * i :=
        Nat.mul_le_mul_left _ (by omega)
      rw [Nat.mul_succ] at hmul
      simp only [if_neg hle, hcomm]
      refine ⟨trivial, by rw [hpos, hi']; omega, ?_, fun hcf1 hcf2 => ⟨?_, ?_, ?_⟩⟩
      · rw [hi'] at hmul; omega
      · have : i + 1 - max i (lf + 1) = 1 := by omega
        rw [this]
        split <;> omega
      · split <;> omega
      · split <;> omega
  | succ n ih =>
    intro i j f cf ct cc dev sent tmp hn hi hpos hlf
    have hne : ¬ i = P / K.CART_FRAME_SIZE := by omega
    have hne2 : ¬ i = (P + N) / K.CART_FRAME_SIZE := by omega
    rw [writeLoop]
    simp only [fetch_ok K hb, bus_xfer_ok hb, Bool.true_eq_false, if_false]
    obtain ⟨s1, s2, s3⟩ := writeSplice_mid K P N lf buf i j f cf ct
      (fetch_frame K bus false cc dev sent tmp (f.fCart i) (f.fFrame i)).tmp hne hne2
    obtain ⟨r1, r2, r3, r4⟩ := ih (i + 1) _ _ _ _
      (put_cart_cache K (fetch_frame K bus false cc dev sent tmp (f.fCart i) (f.fFrame i)).cc
        (toU16 ((writeSplice K P N lf buf i j f cf ct
          (fetch_frame K bus false cc dev sent tmp (f.fCart i) (f.fFrame i)).tmp).1.fCart i))
        (toU16 ((writeSplice K P N lf buf i j f cf ct
          (fetch_frame K bus false cc dev sent tmp (f.fCart i) (f.fFrame i)).tmp).1.fFrame i))
        (writeSplice K P N lf buf i j f cf ct
          (fetch_frame K bus false cc dev sent tmp (f.fCart i) (f.fFrame i)).tmp).2.2.2.1)
      _ _ _ (by omega) (by omega) (by rw [s1, hpos, Nat.mul_succ]) (by rw [s2]; exact hlf)
    refine ⟨r1, r2, by rw [r3, s2], fun hcf1 hcf2 => ?_⟩
    obtain ⟨s3, s4, s5⟩ := s3 hcf1 hcf2
    obtain ⟨r4, r5, r6⟩ := r4 s4 s5
    refine ⟨?_, r5, r6⟩
    rw [r4, s3]
    split <;> omega

theorem writeLoop_all {D : Type} (K : CartHeader) {bus : BusFn D} (hb : BusOk bus)
    (hFS : 0 < K.CART_FRAME_SIZE) (N : Nat) (buf : Block) (f : cartFile) (cf ct : Int)
    (cc : Cache) (dev : D) (sent : List Nat) (tmp : Block)
    (hPL : f.pos ≤ f.fLength) :
    (writeLoop K bus f.pos N (f.fLength / K.CART_FRAME_SIZE) buf
        ((f.pos + N) / K.CART_FRAME_SIZE + 1 - f.pos / K.CART_FRAME_SIZE)
        (f.pos / K.CART_FRAME_SIZE) 0 f cf ct cc dev sent tmp).ret = (N : Int) ∧
    (writeLoop K bus f.pos N (f.fLength / K.CART_FRAME_SIZE) buf
        ((f.pos + N) / K.CART_FRAME_SIZE + 1 - f.pos / K.CART_FRAME_SIZE)
        (f.pos / K.CART_FRAME_SIZE) 0 f cf ct cc dev sent tmp).f.pos = f.pos + N ∧
    (writeLoop K bus f.pos N (f.fLength / K.CART_FRAME_SIZE) buf
        ((f.pos + N) / K.CART_FRAME_SIZE + 1 - f.pos / K.CART_FRAME_SIZE)
        (f.pos / K.CART_FRAME_SIZE) 0 f cf ct cc dev sent tmp).f.fLength
      = max f.fLength (f.pos + N) ∧
    (-1 ≤ cf → cf < 1024 →
    (writeLoop K bus f.pos N (f.fLength / K.CART_FRAME_SIZE) buf
        ((f.pos + N) / K.CART_FRAME_SIZE + 1 - f.pos / K.CART_FRAME_SIZE)
        (f.pos / K.CART_FRAME_SIZE) 0 f cf ct cc dev sent tmp).currentCart * 1024
      + (writeLoop K bus f.pos N (f.fLength / K.CART_FRAME_SIZE) buf
        ((f.pos + N) / K.CART_FRAME_SIZE + 1 - f.pos / K.CART_FRAME_SIZE)
        (f.pos / K.CART_FRAME_SIZE) 0 f cf ct cc dev sent tmp).currentFrame
      = ct * 1024 + cf
        + (((f.pos + N) / K.CART_FRAME_SIZE - f.fLength / K.CART_FRAME_SIZE : Nat) : Int) ∧
    -1 ≤ (writeLoop K bus f.pos N (f.fLength / K.CART_FRAME_SIZE) buf
        ((f.pos + N) / K.CART_FRAME_SIZE + 1 - f.pos / K.CART_FRAME_SIZE)
        (f.pos / K.CART_FRAME_SIZE) 0 f cf ct cc dev sent tmp).currentFrame ∧
    (writeLoop K bus f.pos N (f.fLength / K.CART_FRAME_SIZE) buf
        ((f.pos + N) / K.CART_FRAME_SIZE + 1 - f.pos / K.CART_FRAME_SIZE)
        (f.pos / K.CART_FRAME_SIZE) 0 f cf ct cc dev sent tmp).currentFrame < 1024) := by
  have hpf : f.pos / K.CART_FRAME_SIZE ≤ f.fLength / K.CART_FRAME_SIZE :=
    Nat.div_le_div_right hPL
  have hpc : f.pos / K.CART_FRAME_SIZE ≤ (f.pos + N) / K.CART_FRAME_SIZE :=
    Nat.div_le_div_right (Nat.le_add_right _ _)
  have hdp := Nat.div_add_mod f.pos K.CART_FRAME_SIZE
  have hmp := Nat.mod_lt f.pos hFS
  by_cases hsame : f.pos / K.CART_FRAME_SIZE = (f.pos + N) / K.CART_FRAME_SIZE
  · have hn : (f.pos + N) / K.CART_FRAME_SIZE + 1 - f.pos / K.CART_FRAME_SIZE = 0 + 1 := by
      omega
    rw [hn, writeLoop]
    simp only [fetch_ok K hb, bus_xfer_ok hb, Bool.true_eq_false, if_false, writeLoop]
    unfold writeSplice
    simp only [if_pos hpf, if_true, if_pos hsame]
    refine ⟨trivial, trivial, ?_, fun hcf1 hcf2 => ⟨?_, hcf1, hcf2⟩⟩
    · split <;> omega
    · have : (f.pos + N) / K.CART_FRAME_SIZE - f.fLength / K.CART_FRAME_SIZE = 0 := by omega
      rw [this]; omega
  · obtain ⟨n, hn⟩ : ∃ n, (f.pos + N) / K.CART_FRAME_SIZE + 1 - f.pos / K.CART_FRAME_SIZE
        = (n + 1) + 1 := ⟨(f.pos + N) / K.CART_FRAME_SIZE - f.pos / K.CART_FRAME_SIZE - 1, by omega⟩
    rw [hn, writeLoop]
    simp only [fetch_ok K hb, bus_xfer_ok hb, Bool.true_eq_false, if_false]
    have hsp : writeSplice K f.pos N (f.fLength / K.CART_FRAME_SIZE) buf
        (f.pos / K.CART_FRAME_SIZE) 0 f cf ct
        (fetch_frame K bus false cc dev sent tmp (f.fCart (f.pos / K.CART_FRAME_SIZE))
          (f.fFrame (f.pos / K.CART_FRAME_SIZE))).tmp
        = ({ f with pos := f.pos + (K.CART_FRAME_SIZE - f.pos % K.CART_FRAME_SIZE) }, cf, ct,
            memcpy (fetch_frame K bus false cc dev sent tmp (f.fCart (f.pos / K.CART_FRAME_SIZE))
              (f.fFrame (f.pos / K.CART_FRAME_SIZE))).tmp (f.pos % K.CART_FRAME_SIZE) buf 0
              (K.CART_FRAME_SIZE - f.pos % K.CART_FRAME_SIZE), 0 - 1) := by
      unfold writeSplice
      simp only [if_pos hpf, if_true, if_neg hsame]
    rw [hsp]
    simp only
    obtain ⟨r1, r2, r3, r4⟩ := writeLoop_rest K hb hFS f.pos N
      (f.fLength / K.CART_FRAME_SIZE) buf n (f.pos / K.CART_FRAME_SIZE + 1) (0 - 1 + 1)
      { f with pos := f.pos + (K.CART_FRAME_SIZE - f.pos % K.CART_FRAME_SIZE) } cf ct
      (put_cart_cache K
        (fetch_frame K bus false cc dev sent tmp (f.fCart (f.pos / K.CART_FRAME_SIZE))
          (f.fFrame (f.pos / K.CART_FRAME_SIZE))).cc
        (toU16 (f.fCart (f.pos / K.CART_FRAME_SIZE)))
        (toU16 (f.fFrame (f.pos / K.CART_FRAME_SIZE)))
        (memcpy (fetch_frame K bus false cc dev sent tmp (f.fCart (f.pos / K.CART_FRAME_SIZE))
              (f.fFrame (f.pos / K.CART_FRAME_SIZE))).tmp (f.pos % K.CART_FRAME_SIZE) buf 0
              (K.CART_FRAME_SIZE - f.pos % K.CART_FRAME_SIZE)))
      _ _ _ (by omega) (by omega) (by simp only; rw [Nat.mul_succ]; omega) rfl
    refine ⟨r1, r2, r3, fun hcf1 hcf2 => ?_⟩
    obtain ⟨r4, r5, r6⟩ := r4 hcf1 hcf2
    refine ⟨?_, r5, r6⟩
    rw [r4]
    have : (f.pos + N) / K.CART_FRAME_SIZE + 1
          - max (f.pos / K.CART_FRAME_SIZE + 1) (f.fLength / K.CART_FRAME_SIZE + 1)
        = (f.pos + N) / K.CART_FRAME_SIZE - f.fLength / K.CART_FRAME_SIZE := by omega
    rw [this]

/-- The entry `cart_write` runs its loop on: the first frame is bound to the
allocator cursor when the file is empty and positioned at 0. -/
theorem write_entry_fields {D : Type} (s : Driver D) (f : cartFile) :
    (if f.pos = 0 ∧ f.fLength = 0 then
        { f with fFrame := setAt f.fFrame 0 s.currentFrame,
                 fCart := setAt f.fCart 0 s.currentCart }
      else f).pos = f.pos ∧
    (if f.pos = 0 ∧ f.fLength = 0 then
        { f with fFrame := setAt f.fFrame 0 s.currentFrame,
                 fCart := setAt f.fCart 0 s.currentCart }
      else f).fLength = f.fLength := by
  split <;> exact ⟨rfl, rfl⟩

theorem bufOff_zero (K : CartHeader) (P : Nat) :
    bufOff K P 0 = K.CART_FRAME_SIZE - P % K.CART_FRAME_SIZE := by
  unfold bufOff
  simp

theorem bufOff_succ (K : CartHeader) (P : Nat) (j : Int) (hj : 0 ≤ j) :
    bufOff K P (j + 1) = bufOff K P j + K.CART_FRAME_SIZE := by
  unfold bufOff
  have h1 : (0 : Int) ≤ (K.CART_FRAME_SIZE : Int) * j :=
    Int.mul_nonneg (Int.ofNat_nonneg _) hj
  rw [mul_add, mul_one]
  omega

theorem memcpy_apply (dst : Block) (d : Nat) (src : Block) (s n k : Nat) :
    memcpy dst d src s n k = if d ≤ k ∧ k < d + n then src (k - d + s) else dst k := rfl

theorem readLoop_rest {D : Type} (K : CartHeader) {bus : BusFn D} (hb : BusOk bus)
    (hFS : 0 < K.CART_FRAME_SIZE) (f : cartFile) (P N : Nat) (hPL : P ≤ f.fLength) (n : Nat) :
    ∀ (i : Nat) (j : Int) (pos : Nat) (cc : Cache) (dev : D) (sent : List Nat)
      (tmp : Block) (lo : Nat),
      n + i = f.fLength / K.CART_FRAME_SIZE →
      P / K.CART_FRAME_SIZE < i →
      i ≤ (P + N) / K.CART_FRAME_SIZE →
      0 ≤ j → bufOff K P j = lo → lo + P = K.CART_FRAME_SIZE * i →
      pos = K.CART_FRAME_SIZE * i →
      ∃ data : Block, ∀ buf : Block,
        (readLoop K bus f P N (n + 1) i j pos cc dev sent tmp buf).ret
          = ((min N (f.fLength - P) : Nat) : Int) ∧
        (readLoop K bus f P N (n + 1) i j pos cc dev sent tmp buf).pos
          = P + min N (f.fLength - P) ∧
        ∀ k, (readLoop K bus f P N (n + 1) i j pos cc dev sent tmp buf).buf k
          = if lo ≤ k ∧ k < min N (f.fLength - P) then data k else buf k := by
  have hdm := Nat.div_add_mod (P + N) K.CART_FRAME_SIZE
  have hdl := Nat.div_add_mod f.fLength K.CART_FRAME_SIZE
  have hdp := Nat.div_add_mod P K.CART_FRAME_SIZE
  have hmm := Nat.mod_lt (P + N) hFS
  have hml := Nat.mod_lt f.fLength hFS
  have hcomm : (N + P) % K.CART_FRAME_SIZE = (P + N) % K.CART_FRAME_SIZE := by
    rw [Nat.add_comm]
  induction n with
  | zero =>
    intro i j pos cc dev sent tmp lo hn hi hic hj hlo hlP hpos
    have hil : i = f.fLength / K.CART_FRAME_SIZE := by omega
    have hne : ¬ i = P / K.CART_FRAME_SIZE := by omega
    have hnlt : ¬ i < f.fLength / K.CART_FRAME_SIZE := by omega
    have hmc : K.CART_FRAME_SIZE * i ≤ K.CART_FRAME_SIZE * ((P + N) / K.CART_FRAME_SIZE) :=
      Nat.mul_le_mul_left _ hic
    rw [← hil] at hdl
    refine ⟨fun k =>
      (fetch_frame K bus true cc dev sent tmp (f.fCart i) (f.fFrame i)).tmp (k - lo + 0), ?_⟩
    intro buf
    rw [readLoop]
    simp only [fetch_ok K hb, Bool.true_eq_false, if_false, if_neg hnlt, if_neg hne, hlo, hcomm]
    by_cases hov : P + N > f.fLength
    · simp only [if_pos hov]
      have hR : min N (f.fLength - P) = f.fLength - P := by omega
      rw [hR]
      refine ⟨by omega, by omega, ?_⟩
      intro k
      rw [memcpy_apply]
      by_cases hk : lo ≤ k ∧ k < f.fLength - P
      · rw [if_pos hk, if_pos (by omega)]
      · rw [if_neg hk, if_neg (by omega)]
    · simp only [if_neg hov]
      have hR : min N (f.fLength - P) = N := by omega
      have hic' : i = (P + N) / K.CART_FRAME_SIZE := by
        have : (P + N) / K.CART_FRAME_SIZE ≤ f.fLength / K.CART_FRAME_SIZE :=
          Nat.div_le_div_right (by omega)
        omega
      rw [← hic'] at hdm
      rw [hR]
      refine ⟨rfl, by omega, ?_⟩
      intro k
      rw [memcpy_apply]
      by_cases hk : lo ≤ k ∧ k < N
      · rw [if_pos hk, if_pos (by omega)]
      · rw [if_neg hk, if_neg (by omega)]
  | succ n ih =>
    intro i j pos cc dev sent tmp lo hn hi hic hj hlo hlP hpos
    have hne : ¬ i = P / K.CART_FRAME_SIZE := by omega
    have hlt : i < f.fLength / K.CART_FRAME_SIZE := by omega
    have hml2 : K.CART_FRAME_SIZE * (i + 1) ≤ K.CART_FRAME_SIZE * (f.fLength / K.CART_FRAME_SIZE) :=
      Nat.mul_le_mul_left _ hlt
    rw [Nat.mul_succ] at hml2
    by_cases hc : i = (P + N) / K.CART_FRAME_SIZE
    · refine ⟨fun k =>
        (fetch_frame K bus true cc dev sent tmp (f.fCart i) (f.fFrame i)).tmp (k - lo + 0), ?_⟩
      intro buf
      rw [readLoop]
      simp only [fetch_ok K hb, Bool.true_eq_false, if_false, if_pos hlt, if_neg hne, hlo, hcomm,
        if_pos hc]
      rw [← hc] at hdm
      have hR : min N (f.fLength - P) = N := by omega
      rw [hR]
      refine ⟨rfl, by omega, ?_⟩
      intro k
      rw [memcpy_apply]
      by_cases hk : lo ≤ k ∧ k < N
      · rw [if_pos hk, if_pos (by omega)]
      · rw [if_neg hk, if_neg (by omega)]
    · have hmc : K.CART_FRAME_SIZE * (i + 1)
          ≤ K.CART_FRAME_SIZE * ((P + N) / K.CART_FRAME_SIZE) :=
        Nat.mul_le_mul_left _ (by omega)
      rw [Nat.mul_succ] at hmc
      obtain ⟨data, hdata⟩ := ih (i + 1) (j + 1) (pos + K.CART_FRAME_SIZE)
        (fetch_frame K bus true cc dev sent tmp (f.fCart i) (f.fFrame i)).cc
        (fetch_frame K bus true cc dev sent tmp (f.fCart i) (f.fFrame i)).dev
        (fetch_frame K bus true cc dev sent tmp (f.fCart i) (f.fFrame i)).sent
        (fetch_frame K bus true cc dev sent tmp (f.fCart i) (f.fFrame i)).tmp
        (lo + K.CART_FRAME_SIZE) (by omega) (by omega) (by omega) (by omega)
        (by rw [bufOff_succ K P j hj, hlo]) (by rw [Nat.mul_succ]; omega)
        (by rw [Nat.mul_succ]; omega)
      refine ⟨fun k => if k < lo + K.CART_FRAME_SIZE then
        (fetch_frame K bus true cc dev sent tmp (f.fCart i) (f.fFrame i)).tmp (k - lo + 0)
        else data k, ?_⟩
      intro buf
      rw [readLoop]
      simp only [fetch_ok K hb, Bool.true_eq_false, if_false, if_pos hlt, if_neg hne, hlo, hcomm,
        if_neg hc]
      obtain ⟨r1, r2, r3⟩ := hdata (memcpy buf lo
        (fetch_frame K bus true cc dev sent tmp (f.fCart i) (f.fFrame i)).tmp 0
        K.CART_FRAME_SIZE)
      refine ⟨r1, r2, ?_⟩
      intro k
      rw [r3 k, memcpy_apply]
      by_cases hk : lo + K.CART_FRAME_SIZE ≤ k ∧ k < min N (f.fLength - P)
      · rw [if_pos hk, if_pos (by omega), if_neg (by omega)]
      · rw [if_neg hk]
        by_cases hk2 : lo ≤ k ∧ k < lo + K.CART_FRAME_SIZE
        · rw [if_pos hk2, if_pos (by omega), if_pos (by omega)]
        · rw [if_neg hk2, if_neg (by omega)]

theorem readLoop_all {D : Type} (K : CartHeader) {bus : BusFn D} (hb : BusOk bus)
    (hFS : 0 < K.CART_FRAME_SIZE) (f : cartFile) (N : Nat) (hPL : f.pos ≤ f.fLength)
    (cc : Cache) (dev : D) (sent : List Nat) (tmp : Block) :
    ∃ data : Block, ∀ buf : Block,
      (readLoop K bus f f.pos N (f.fLength / K.CART_FRAME_SIZE + 1 - f.pos / K.CART_FRAME_SIZE)
          (f.pos / K.CART_FRAME_SIZE) 0 f.pos cc dev sent tmp buf).ret
        = ((min N (f.fLength - f.pos) : Nat) : Int) ∧
      (readLoop K bus f f.pos N (f.fLength / K.CART_FRAME_SIZE + 1 - f.pos / K.CART_FRAME_SIZE)
          (f.pos / K.CART_FRAME_SIZE) 0 f.pos cc dev sent tmp buf).pos
        = f.pos + min N (f.fLength - f.pos) ∧
      ∀ k, (readLoop K bus f f.pos N
          (f.fLength / K.CART_FRAME_SIZE + 1 - f.pos / K.CART_FRAME_SIZE)
          (f.pos / K.CART_FRAME_SIZE) 0 f.pos cc dev sent tmp buf).buf k
        = if k < min N (f.fLength - f.pos) then data k else buf k := by
  have hpf : f.pos / K.CART_FRAME_SIZE ≤ f.fLength / K.CART_FRAME_SIZE :=
    Nat.div_le_div_right hPL
  have hpc : f.pos / K.CART_FRAME_SIZE ≤ (f.pos + N) / K.CART_FRAME_SIZE :=
    Nat.div_le_div_right (Nat.le_add_right _ _)
  have hdm := Nat.div_add_mod (f.pos + N) K.CART_FRAME_SIZE
  have hdl := Nat.div_add_mod f.fLength K.CART_FRAME_SIZE
  have hdp := Nat.div_add_mod f.pos K.CART_FRAME_SIZE
  have hmm := Nat.mod_lt (f.pos + N) hFS
  have hml := Nat.mod_lt f.fLength hFS
  have hmp := Nat.mod_lt f.pos hFS
  by_cases hlt : f.pos / K.CART_FRAME_SIZE < f.fLength / K.CART_FRAME_SIZE
  · have hml2 : K.CART_FRAME_SIZE * (f.pos / K.CART_FRAME_SIZE + 1)
        ≤ K.CART_FRAME_SIZE * (f.fLength / K.CART_FRAME_SIZE) := Nat.mul_le_mul_left _ hlt
    rw [Nat.mul_succ] at hml2
    obtain ⟨n, hn⟩ : ∃ n, f.fLength / K.CART_FRAME_SIZE + 1 - f.pos / K.CART_FRAME_SIZE
        = (n + 1) + 1 :=
      ⟨f.fLength / K.CART_FRAME_SIZE - f.pos / K.CART_FRAME_SIZE - 1, by omega⟩
    rw [hn]
    by_cases hc : f.pos / K.CART_FRAME_SIZE = (f.pos + N) / K.CART_FRAME_SIZE
    · refine ⟨fun k => (fetch_frame K bus true cc dev sent tmp
          (f.fCart (f.pos / K.CART_FRAME_SIZE)) (f.fFrame (f.pos / K.CART_FRAME_SIZE))).tmp
          (k - 0 + f.pos % K.CART_FRAME_SIZE), ?_⟩
      intro buf
      rw [readLoop]
      simp only [fetch_ok K hb, Bool.true_eq_false, if_false, if_pos hlt, if_true, if_pos hc]
      rw [← hc] at hdm
      have hR : min N (f.fLength - f.pos) = N := by omega
      rw [hR]
      refine ⟨rfl, rfl, ?_⟩
      intro k
      rw [memcpy_apply]
      by_cases hk : k < N
      · rw [if_pos hk, if_pos (by omega)]
      · rw [if_neg hk, if_neg (by omega)]
    · have hmc : K.CART_FRAME_SIZE * (f.pos / K.CART_FRAME_SIZE + 1)
          ≤ K.CART_FRAME_SIZE * ((f.pos + N) / K.CART_FRAME_SIZE) :=
        Nat.mul_le_mul_left _ (by omega)
      rw [Nat.mul_succ] at hmc
      obtain ⟨data, hdata⟩ := readLoop_rest K hb hFS f f.pos N hPL n
        (f.pos / K.CART_FRAME_SIZE + 1) (0 - 1 + 1)
        (f.pos + (K.CART_FRAME_SIZE - f.pos % K.CART_FRAME_SIZE))
        (fetch_frame K bus true cc dev sent tmp
          (f.fCart (f.pos / K.CART_FRAME_SIZE)) (f.fFrame (f.pos / K.CART_FRAME_SIZE))).cc
        (fetch_frame K bus true cc dev sent tmp
          (f.fCart (f.pos / K.CART_FRAME_SIZE)) (f.fFrame (f.pos / K.CART_FRAME_SIZE))).dev
        (fetch_frame K bus true cc dev sent tmp
          (f.fCart (f.pos / K.CART_FRAME_SIZE)) (f.fFrame (f.pos / K.CART_FRAME_SIZE))).sent
        (fetch_frame K bus true cc dev sent tmp
          (f.fCart (f.pos / K.CART_FRAME_SIZE)) (f.fFrame (f.pos / K.CART_FRAME_SIZE))).tmp
        (K.CART_FRAME_SIZE - f.pos % K.CART_FRAME_SIZE)
        (by omega) (by omega) (by omega) (by omega)
        (by rw [show (0 : Int) - 1 + 1 = 0 by omega]; exact bufOff_zero K f.pos)
        (by rw [Nat.mul_succ]; omega) (by rw [Nat.mul_succ]; omega)
      refine ⟨fun k => if k < K.CART_FRAME_SIZE - f.pos % K.CART_FRAME_SIZE then
        (fetch_frame K bus true cc dev sent tmp
          (f.fCart (f.pos / K.CART_FRAME_SIZE)) (f.fFrame (f.pos / K.CART_FRAME_SIZE))).tmp
          (k - 0 + f.pos % K.CART_FRAME_SIZE)
        else data k, ?_⟩
      intro buf
      rw [readLoop]
      simp only [fetch_ok K hb, Bool.true_eq_false, if_false, if_pos hlt, if_true, if_neg hc]
      obtain ⟨r1, r2, r3⟩ := hdata (memcpy buf 0
        (fetch_frame K bus true cc dev sent tmp
          (f.fCart (f.pos / K.CART_FRAME_SIZE)) (f.fFrame (f.pos / K.CART_FRAME_SIZE))).tmp
        (f.pos % K.CART_FRAME_SIZE) (K.CART_FRAME_SIZE - f.pos % K.CART_FRAME_SIZE))
      refine ⟨r1, r2, ?_⟩
      intro k
      rw [r3 k, memcpy_apply]
      by_cases hk : K.CART_FRAME_SIZE - f.pos % K.CART_FRAME_SIZE ≤ k
          ∧ k < min N (f.fLength - f.pos)
      · rw [if_pos hk, if_pos (by omega), if_neg (by omega)]
      · rw [if_neg hk]
        by_cases hk2 : k < K.CART_FRAME_SIZE - f.pos % K.CART_FRAME_SIZE
        · rw [if_pos (by omega), if_pos (by omega), if_pos hk2]
        · rw [if_neg (by omega), if_neg (by omega)]
  · have hn : f.fLength / K.CART_FRAME_SIZE + 1 - f.pos / K.CART_FRAME_SIZE = 0 + 1 := by omega
    have heq : f.pos / K.CART_FRAME_SIZE = f.fLength / K.CART_FRAME_SIZE := by omega
    rw [hn]
    refine ⟨fun k => (fetch_frame K bus true cc dev sent tmp
          (f.fCart (f.pos / K.CART_FRAME_SIZE)) (f.fFrame (f.pos / K.CART_FRAME_SIZE))).tmp
          (k - 0 + f.pos % K.CART_FRAME_SIZE), ?_⟩
    intro buf
    rw [readLoop]
    simp only [fetch_ok K hb, Bool.true_eq_false, if_false, if_neg hlt, if_true]
    by_cases hov : f.pos + N > f.fLength
    · simp only [if_pos hov]
      have hR : min N (f.fLength - f.pos) = f.fLength - f.pos := by omega
      rw [hR]
      refine ⟨by omega, rfl, ?_⟩
      intro k
      rw [memcpy_apply]
      by_cases hk : k < f.fLength - f.pos
      · rw [if_pos hk, if_pos (by omega)]
      · rw [if_neg hk, if_neg (by omega)]
    · simp only [if_neg hov]
      have hR : min N (f.fLength - f.pos) = N := by omega
      rw [hR]
      refine ⟨rfl, rfl, ?_⟩
      intro k
      rw [memcpy_apply]
      by_cases hk : k < N
      · rw [if_pos hk, if_pos (by omega)]
      · rw [if_neg hk, if_neg (by omega)]

/-! ## Writing inside one frame -/

theorem get_cache_fields (c : Cache) (cart frm i : Nat) :
    ((get_cart_cache c cart frm).1.cache i).memCart = (c.cache i).memCart ∧
    ((get_cart_cache c cart frm).1.cache i).memFrm = (c.cache i).memFrm ∧
    ((get_cart_cache c cart frm).1.cache i).memContent = (c.cache i).memContent := by
  unfold get_cart_cache
  simp only
  split
  · rename_i m _
    by_cases him : i = m
    · subst him; simp
    · simp [setAt_other _ _ _ _ him]
  · simp

/-- The fetch leaves the cache well formed and its capacity unchanged. -/
theorem fetch_cache_inv {D : Type} (K : CartHeader) (bus : BusFn D) (p : Bool) {cc : Cache}
    (h : CacheInv cc) (dev : D) (sent : List Nat) (tmp : Block) (cart frm : Int) :
    CacheInv (fetch_frame K bus p cc dev sent tmp cart frm).cc ∧
    (fetch_frame K bus p cc dev sent tmp cart frm).cc.cacheSize = cc.cacheSize := by
  unfold fetch_frame
  simp only
  split
  · exact ⟨CacheInv_get (CacheInv_get h _ _) _ _, by simp⟩
  · split
    · exact ⟨CacheInv_get h _ _, by simp⟩
    · split
      · exact ⟨CacheInv_get h _ _, by simp⟩
      · cases p
        · exact ⟨CacheInv_get h _ _, by simp⟩
        · exact ⟨CacheInv_put K (CacheInv_get h _ _) _ _ _, by simp⟩

/-- What the fetch brings into `tmp` does not depend on whether a miss is
inserted into the cache afterwards. -/
theorem fetch_tmp_indep {D : Type} (K : CartHeader) (bus : BusFn D) (cc : Cache) (dev : D)
    (sent : List Nat) (tmp : Block) (cart frm : Int) :
    (fetch_frame K bus true cc dev sent tmp cart frm).tmp
      = (fetch_frame K bus false cc dev sent tmp cart frm).tmp := by
  unfold fetch_frame
  simp only
  split
  · rfl
  · split
    · rfl
    · split <;> rfl

/-- A fetch right after the frame was inserted is a cache hit bringing the
inserted bytes. -/
theorem fetch_after_put {D : Type} (K : CartHeader) (bus : BusFn D) (p : Bool) {cc : Cache}
    (h : CacheInv cc) (hC : 1 ≤ cc.cacheSize) (dev : D) (sent : List Nat) (tmp b : Block)
    (cart frm : Int) (o : Nat) (ho : o < K.CART_FRAME_SIZE) :
    (fetch_frame K bus p (put_cart_cache K cc (toU16 cart) (toU16 frm) b) dev sent tmp
      cart frm).tmp o = b o := by
  obtain ⟨q, old, hq, h1, h2, h3⟩ := put_slot K h hC (toU16 cart) (toU16 frm) b
  have hinv := CacheInv_put K h (toU16 cart) (toU16 frm) b
  generalize put_cart_cache K cc (toU16 cart) (toU16 frm) b = c1 at hq h1 h2 h3 hinv
  have g1 := get_of_slot hinv hq h1 h2
  have hinv2 := CacheInv_get hinv (toU16 cart) (toU16 frm)
  obtain ⟨f1, f2, f3⟩ := get_cache_fields c1 (toU16 cart) (toU16 frm) q
  have g2 := get_of_slot hinv2 (p := q) (by simpa using hq) (by rw [f1, h1]) (by rw [f2, h2])
  unfold fetch_frame
  simp only [g1, g2, f3, h3]
  rw [memcpy_apply, if_pos (by omega), memcpy_apply, if_pos (by omega)]
  simp

theorem readLoop_frame {D : Type} (K : CartHeader) {bus : BusFn D} (hb : BusOk bus)
    (hFS : 0 < K.CART_FRAME_SIZE) (f : cartFile) (k : Nat)
    (hpos : f.pos = K.CART_FRAME_SIZE * k) (hlen : K.CART_FRAME_SIZE * (k + 1) ≤ f.fLength)
    (cc : Cache) (dev : D) (sent : List Nat) (tmp buf : Block) :
    (readLoop K bus f f.pos K.CART_FRAME_SIZE
        (f.fLength / K.CART_FRAME_SIZE + 1 - f.pos / K.CART_FRAME_SIZE)
        (f.pos / K.CART_FRAME_SIZE) 0 f.pos cc dev sent tmp buf).ret
      = (K.CART_FRAME_SIZE : Int) ∧
    ∀ o, o < K.CART_FRAME_SIZE →
      (readLoop K bus f f.pos K.CART_FRAME_SIZE
        (f.fLength / K.CART_FRAME_SIZE + 1 - f.pos / K.CART_FRAME_SIZE)
        (f.pos / K.CART_FRAME_SIZE) 0 f.pos cc dev sent tmp buf).buf o
      = (fetch_frame K bus true cc dev sent tmp (f.fCart k) (f.fFrame k)).tmp o := by
  have hpf : f.pos / K.CART_FRAME_SIZE = k := by
    rw [hpos]; exact Nat.mul_div_cancel_left k hFS
  have hpm : f.pos % K.CART_FRAME_SIZE = 0 := by
    rw [hpos]; exact Nat.mul_mod_right _ _
  have hcf : (f.pos + K.CART_FRAME_SIZE) / K.CART_FRAME_SIZE = k + 1 := by
    rw [hpos, ← Nat.mul_succ]; exact Nat.mul_div_cancel_left _ hFS
  have hlf : k + 1 ≤ f.fLength / K.CART_FRAME_SIZE := by
    rw [Nat.le_div_iff_mul_le hFS, Nat.mul_comm]; exact hlen
  rw [Nat.mul_succ] at hlen
  obtain ⟨n, hn⟩ : ∃ n, f.fLength / K.CART_FRAME_SIZE + 1 - f.pos / K.CART_FRAME_SIZE
      = (n + 1) + 1 := ⟨f.fLength / K.CART_FRAME_SIZE - k - 1, by omega⟩
  rw [hn, readLoop]
  simp only [fetch_ok K hb, Bool.true_eq_false, if_false, hpf, hcf, hpm,
    if_pos (show k < f.fLength / K.CART_FRAME_SIZE by omega), if_true,
    if_neg (show ¬ k = k + 1 by omega), Nat.sub_zero]
  obtain ⟨data, hdata⟩ := readLoop_rest K hb hFS f f.pos K.CART_FRAME_SIZE (by omega) n
    (k + 1) (0 - 1 + 1) (f.pos + K.CART_FRAME_SIZE)
    (fetch_frame K bus true cc dev sent tmp (f.fCart k) (f.fFrame k)).cc
    (fetch_frame K bus true cc dev sent tmp (f.fCart k) (f.fFrame k)).dev
    (fetch_frame K bus true cc dev sent tmp (f.fCart k) (f.fFrame k)).sent
    (fetch_frame K bus true cc dev sent tmp (f.fCart k) (f.fFrame k)).tmp
    K.CART_FRAME_SIZE
    (by omega) (by omega) (by omega) (by omega)
    (by rw [show (0 : Int) - 1 + 1 = 0 by omega, bufOff_zero, hpm]; rfl)
    (by rw [Nat.mul_succ]; omega) (by rw [Nat.mul_succ]; omega)
  obtain ⟨r1, -, r3⟩ := hdata (memcpy buf 0
    (fetch_frame K bus true cc dev sent tmp (f.fCart k) (f.fFrame k)).tmp 0 K.CART_FRAME_SIZE)
  have hR : min K.CART_FRAME_SIZE (f.fLength - f.pos) = K.CART_FRAME_SIZE := by omega
  rw [hR] at r1 r3
  refine ⟨r1, ?_⟩
  intro o ho
  rw [r3 o, if_neg (by omega), memcpy_apply, if_pos (by omega)]
  simp

theorem readFrame_eq {D : Type} (K : CartHeader) {bus : BusFn D} (hb : BusOk bus)
    (hFS : 0 < K.CART_FRAME_SIZE) (s : Driver D) (fd : Int) (k : Nat) (buf : Block)
    (hfd0 : 0 ≤ fd) (hfd1 : fd < s.fileCount) (hopen : (s.allFile fd.toNat).isOpen ≠ 0)
    (hlen : K.CART_FRAME_SIZE * (k + 1) ≤ (s.allFile fd.toNat).fLength) :
    (cart_seek s fd (K.CART_FRAME_SIZE * k)).2 = 0 ∧
    (readFrame K bus s fd k buf).2.2 = (K.CART_FRAME_SIZE : Int) ∧
    ∀ o, o < K.CART_FRAME_SIZE →
      (readFrame K bus s fd k buf).2.1 o
        = (fetch_frame K bus true s.cc s.dev s.sent zeroBlock
            ((s.allFile fd.toNat).fCart k) ((s.allFile fd.toNat).fFrame k)).tmp o := by
  have h1 : ¬ (fd > (s.fileCount : Int) ∨ fd < 0) := by omega
  have h2 : ¬ K.CART_FRAME_SIZE * k > (s.allFile fd.toNat).fLength := by
    rw [Nat.mul_succ] at hlen; omega
  have h3 : ¬ (K.CART_FRAME_SIZE : Int) < 0 := by omega
  have hseek : cart_seek s fd (K.CART_FRAME_SIZE * k)
      = ({ s with
            allFile := setAt s.allFile fd.toNat
              ({ s.allFile fd.toNat with pos := K.CART_FRAME_SIZE * k }) }, 0) := by
    unfold cart_seek
    simp only [if_neg h1, if_neg h2, if_neg hopen]
  refine ⟨by rw [hseek], ?_⟩
  unfold readFrame
  rw [hseek]
  unfold cart_read
  simp only [if_neg h1, setAt_same, if_neg hopen, if_neg h3, Int.toNat_ofNat]
  exact readLoop_frame K hb hFS { s.allFile fd.toNat with pos := K.CART_FRAME_SIZE * k } k rfl
    hlen s.cc s.dev s.sent zeroBlock buf

/-- A write that stays inside one frame that already exists. -/
theorem cart_write_single {D : Type} (K : CartHeader) {bus : BusFn D} (hb : BusOk bus)
    (hFS : 0 < K.CART_FRAME_SIZE) (s : Driver D) (fd : Int) (k : Nat) (B : Block) (M : Int)
    (hfd0 : 0 ≤ fd) (hfd1 : fd < s.fileCount) (hopen : (s.allFile fd.toNat).isOpen ≠ 0)
    (hM : 0 ≤ M)
    (hlen : K.CART_FRAME_SIZE * (k + 1) ≤ (s.allFile fd.toNat).fLength)
    (hstart : K.CART_FRAME_SIZE * k ≤ (s.allFile fd.toNat).pos)
    (hend : (s.allFile fd.toNat).pos + M.toNat < K.CART_FRAME_SIZE * (k + 1)) :
    (cart_write K bus s fd B M).2 = M ∧
    (cart_write K bus s fd B M).1.fileCount = s.fileCount ∧
    ((cart_write K bus s fd B M).1.allFile fd.toNat).isOpen = (s.allFile fd.toNat).isOpen ∧
    ((cart_write K bus s fd B M).1.allFile fd.toNat).fLength = (s.allFile fd.toNat).fLength ∧
    ((cart_write K bus s fd B M).1.allFile fd.toNat).fCart = (s.allFile fd.toNat).fCart ∧
    ((cart_write K bus s fd B M).1.allFile fd.toNat).fFrame = (s.allFile fd.toNat).fFrame ∧
    (cart_write K bus s fd B M).1.cc
      = put_cart_cache K
          (fetch_frame K bus false s.cc s.dev s.sent zeroBlock
            ((s.allFile fd.toNat).fCart k) ((s.allFile fd.toNat).fFrame k)).cc
          (toU16 ((s.allFile fd.toNat).fCart k)) (toU16 ((s.allFile fd.toNat).fFrame k))
          (memcpy
            (fetch_frame K bus false s.cc s.dev s.sent zeroBlock
              ((s.allFile fd.toNat).fCart k) ((s.allFile fd.toNat).fFrame k)).tmp
            ((s.allFile fd.toNat).pos - K.CART_FRAME_SIZE * k) B 0 M.toNat) := by
  have h1 : ¬ (fd > (s.fileCount : Int) ∨ fd < 0) := by omega
  have h3 : ¬ M < 0 := by omega
  have hlen' := hlen
  rw [Nat.mul_succ] at hlen' hend
  have hpf : (s.allFile fd.toNat).pos / K.CART_FRAME_SIZE = k :=
    Nat.div_eq_of_lt_le (by rw [Nat.mul_comm]; exact hstart)
      (by rw [Nat.succ_mul, Nat.mul_comm]; omega)
  have hcf : ((s.allFile fd.toNat).pos + M.toNat) / K.CART_FRAME_SIZE = k :=
    Nat.div_eq_of_lt_le (by rw [Nat.mul_comm]; omega)
      (by rw [Nat.succ_mul, Nat.mul_comm]; omega)
  have hlf : k ≤ (s.allFile fd.toNat).fLength / K.CART_FRAME_SIZE := by
    rw [Nat.le_div_iff_mul_le hFS, Nat.mul_comm]; omega
  have hpm : (s.allFile fd.toNat).pos % K.CART_FRAME_SIZE
      = (s.allFile fd.toNat).pos - K.CART_FRAME_SIZE * k := by
    have := Nat.div_add_mod (s.allFile fd.toNat).pos K.CART_FRAME_SIZE
    rw [hpf] at this
    omega
  have hnz : ¬ ((s.allFile fd.toNat).pos = 0 ∧ (s.allFile fd.toNat).fLength = 0) := by omega
  unfold cart_write
  simp only [if_neg h1, if_neg hopen, if_neg h3, if_neg hnz, hpf, hcf,
    show k + 1 - k = 0 + 1 by omega, setAt_same]
  rw [writeLoop]
  simp only [fetch_ok K hb, bus_xfer_ok hb, Bool.true_eq_false, if_false, writeLoop]
  unfold writeSplice
  simp only [hpf, hcf, if_pos hlf, if_true, hpm]
  refine ⟨by omega, trivial, trivial, ?_, trivial, trivial, trivial⟩
  rw [if_neg (by omega)]

/-- Claim C2 (partial write preserves neighbours): take an open file whose
frame `k` lies wholly within the file length, a well-formed cache of capacity
at least 1, and a device that answers every request with the status flag
clear. A `cart_write` of `M ≥ 0` bytes `B` that starts at the current position
inside frame `k` and ends strictly inside frame `k` returns `M`, and a read of
the whole frame `k` afterwards returns, at every offset `o` of the frame, the
byte `B (o - start)` if `o` lies in the written range and otherwise the byte
that a read of the whole frame `k` returned before the write. -/
theorem partial_write_preserves_neighbours {D : Type} (K : CartHeader) (bus : BusFn D)
    (s : Driver D) (fd : Int) (k : Nat) (B : Block) (M : Int) (buf0 buf1 : Block)
    (hFS : 0 < K.CART_FRAME_SIZE) (hb : BusOk bus)
    (hinv : CacheInv s.cc) (hC : 1 ≤ s.cc.cacheSize)
    (hfd0 : 0 ≤ fd) (hfd1 : fd < s.fileCount) (hopen : (s.allFile fd.toNat).isOpen ≠ 0)
    (hM : 0 ≤ M)
    (hlen : K.CART_FRAME_SIZE * (k + 1) ≤ (s.allFile fd.toNat).fLength)
    (hstart : K.CART_FRAME_SIZE * k ≤ (s.allFile fd.toNat).pos)
    (hend : (s.allFile fd.toNat).pos + M.toNat < K.CART_FRAME_SIZE * (k + 1)) :
    (readFrame K bus s fd k buf0).2.2 = (K.CART_FRAME_SIZE : Int) ∧
    (cart_write K bus s fd B M).2 = M ∧
    (readFrame K bus (cart_write K bus s fd B M).1 fd k buf1).2.2 = (K.CART_FRAME_SIZE : Int) ∧
    ∀ o, o < K.CART_FRAME_SIZE →
      (readFrame K bus (cart_write K bus s fd B M).1 fd k buf1).2.1 o
        = if (s.allFile fd.toNat).pos - K.CART_FRAME_SIZE * k ≤ o
              ∧ o < (s.allFile fd.toNat).pos - K.CART_FRAME_SIZE * k + M.toNat
          then B (o - ((s.allFile fd.toNat).pos - K.CART_FRAME_SIZE * k))
          else (readFrame K bus s fd k buf0).2.1 o := by
  obtain ⟨-, a2, a3⟩ := readFrame_eq K hb hFS s fd k buf0 hfd0 hfd1 hopen hlen
  obtain ⟨w1, w2, w3, w4, w5, w6, w7⟩ :=
    cart_write_single K hb hFS s fd k B M hfd0 hfd1 hopen hM hlen hstart hend
  obtain ⟨-, b2, b3⟩ := readFrame_eq K hb hFS (cart_write K bus s fd B M).1 fd k buf1 hfd0
    (by rw [w2]; exact hfd1) (by rw [w3]; exact hopen) (by rw [w4]; exact hlen)
  refine ⟨a2, w1, b2, ?_⟩
  intro o ho
  obtain ⟨hci, hcs⟩ := fetch_cache_inv K bus false hinv s.dev s.sent zeroBlock
    ((s.allFile fd.toNat).fCart k) ((s.allFile fd.toNat).fFrame k)
  rw [b3 o ho, a3 o ho, w5, w6, w7,
    fetch_after_put K bus true hci (by rw [hcs]; exact hC) _ _ _ _ _ _ o ho,
    memcpy_apply, fetch_tmp_indep]
  simp only [Nat.add_zero]

/-! ## The opcode codec -/

theorem create_eq_sum (op k2 rt ct fm : Nat) :
    create_cart_opcode op k2 rt ct fm
      = (op % 256) * 2 ^ 56 + (k2 % 256) * 2 ^ 48 + (rt % 2) * 2 ^ 47
        + (ct % 65536) * 2 ^ 31 + (fm % 65536) * 2 ^ 15 := by
  unfold create_cart_opcode
  have e1 : op &&& 0xff = op % 256 := Nat.and_pow_two_sub_one_eq_mod op 8
  have e2 : k2 &&& 0xff = k2 % 256 := Nat.and_pow_two_sub_one_eq_mod k2 8
  have e3 : rt &&& 1 = rt % 2 := Nat.and_pow_two_sub_one_eq_mod rt 1
  have e4 : ct &&& 0xffff = ct % 65536 := Nat.and_pow_two_sub_one_eq_mod ct 16
  have e5 : fm &&& 0xffff = fm % 65536 := Nat.and_pow_two_sub_one_eq_mod fm 16
  rw [e1, e2, e3, e4, e5]
  simp only [Nat.shiftLeft_eq]
  have b1 := Nat.mod_lt op (show 0 < 256 by decide)
  have b2 := Nat.mod_lt k2 (show 0 < 256 by decide)
  have b3 := Nat.mod_lt rt (show 0 < 2 by decide)
  have b4 := Nat.mod_lt ct (show 0 < 65536 by decide)
  have b5 := Nat.mod_lt fm (show 0 < 65536 by decide)
  generalize op % 256 = a at *
  generalize k2 % 256 = b at *
  generalize rt % 2 = c at *
  generalize ct % 65536 = d at *
  generalize fm % 65536 = e at *
  have s1 : a * 2 ^ 56 ||| b * 2 ^ 48 = a * 2 ^ 56 + b * 2 ^ 48 := by
    have := Nat.mul_add_lt_is_or (show b * 2 ^ 48 < 2 ^ 56 by omega) a
    rw [Nat.mul_comm a]; exact this.symm
  have s2 : (a * 2 ^ 56 + b * 2 ^ 48) ||| c * 2 ^ 47 = a * 2 ^ 56 + b * 2 ^ 48 + c * 2 ^ 47 := by
    have := Nat.mul_add_lt_is_or (show c * 2 ^ 47 < 2 ^ 48 by omega) (a * 2 ^ 8 + b)
    have e : 2 ^ 48 * (a * 2 ^ 8 + b) = a * 2 ^ 56 + b * 2 ^ 48 := by omega
    rw [e] at this; exact this.symm
  have s3 : (a * 2 ^ 56 + b * 2 ^ 48 + c * 2 ^ 47) ||| d * 2 ^ 31
      = a * 2 ^ 56 + b * 2 ^ 48 + c * 2 ^ 47 + d * 2 ^ 31 := by
    have := Nat.mul_add_lt_is_or (show d * 2 ^ 31 < 2 ^ 47 by omega) (a * 2 ^ 9 + b * 2 + c)
    have e : 2 ^ 47 * (a * 2 ^ 9 + b * 2 + c) = a * 2 ^ 56 + b * 2 ^ 48 + c * 2 ^ 47 := by omega
    rw [e] at this; exact this.symm
  have s4 : (a * 2 ^ 56 + b * 2 ^ 48 + c * 2 ^ 47 + d * 2 ^ 31) ||| e * 2 ^ 15
      = a * 2 ^ 56 + b * 2 ^ 48 + c * 2 ^ 47 + d * 2 ^ 31 + e * 2 ^ 15 := by
    have := Nat.mul_add_lt_is_or (show e * 2 ^ 15 < 2 ^ 31 by omega)
      (a * 2 ^ 25 + b * 2 ^ 17 + c * 2 ^ 16 + d)
    have e' : 2 ^ 31 * (a * 2 ^ 25 + b * 2 ^ 17 + c * 2 ^ 16 + d)
        = a * 2 ^ 56 + b * 2 ^ 48 + c * 2 ^ 47 + d * 2 ^ 31 := by omega
    rw [e'] at this; exact this.symm
  rw [s1, s2, s3, s4]

theorem extract_create (op k2 rt ct fm : Nat) :
    (extract_cart_opcode (create_cart_opcode op k2 rt ct fm)).2
      = { ky1 := op % 256, ky2 := k2 % 256, rt1 := rt % 2, ct1 := ct % 65536,
          fm1 := fm % 65536 } := by
  rw [create_eq_sum]
  unfold extract_cart_opcode
  have e1 : ∀ x, x &&& 0xff = x % 256 := fun x => Nat.and_pow_two_sub_one_eq_mod x 8
  have e3 : ∀ x, x &&& 1 = x % 2 := fun x => Nat.and_pow_two_sub_one_eq_mod x 1
  have e4 : ∀ x, x &&& 0xffff = x % 65536 := fun x => Nat.and_pow_two_sub_one_eq_mod x 16
  simp only [e1, e3, e4, Nat.shiftRight_eq_div_pow]
  have b1 := Nat.mod_lt op (show 0 < 256 by decide)
  have b2 := Nat.mod_lt k2 (show 0 < 256 by decide)
  have b3 := Nat.mod_lt rt (show 0 < 2 by decide)
  have b4 := Nat.mod_lt ct (show 0 < 65536 by decide)
  have b5 := Nat.mod_lt fm (show 0 < 65536 by decide)
  generalize op % 256 = a at *
  generalize k2 % 256 = b at *
  generalize rt % 2 = c at *
  generalize ct % 65536 = d at *
  generalize fm % 65536 = e at *
  congr 1 <;> omega

/-! ## What `cart_write` leaves alone -/

/-- The splice changes neither name, open flag nor handle of the entry, and a
non-negative allocator frame stays non-negative. -/
theorem writeSplice_keeps (K : CartHeader) (P N lf : Nat) (buf : Block) (i : Nat) (j : Int)
    (f : cartFile) (cf ct : Int) (tmp : Block) :
    (writeSplice K P N lf buf i j f cf ct tmp).1.fName = f.fName ∧
    (writeSplice K P N lf buf i j f cf ct tmp).1.isOpen = f.isOpen ∧
    (writeSplice K P N lf buf i j f cf ct tmp).1.fHandle = f.fHandle ∧
    (0 ≤ cf → 0 ≤ (writeSplice K P N lf buf i j f cf ct tmp).2.1) := by
  unfold writeSplice
  simp only
  split_ifs <;> refine ⟨rfl, rfl, rfl, fun h => ?_⟩ <;> simp only <;> omega

theorem writeLoop_keeps {D : Type} (K : CartHeader) (bus : BusFn D) (P N lf : Nat) (buf : Block)
    (n : Nat) :
    ∀ (i : Nat) (j : Int) (f : cartFile) (cf ct : Int) (cc : Cache) (dev : D)
      (sent : List Nat) (tmp : Block),
      (writeLoop K bus P N lf buf n i j f cf ct cc dev sent tmp).f.fName = f.fName ∧
      (writeLoop K bus P N lf buf n i j f cf ct cc dev sent tmp).f.isOpen = f.isOpen ∧
      (writeLoop K bus P N lf buf n i j f cf ct cc dev sent tmp).f.fHandle = f.fHandle ∧
      (0 ≤ cf → 0 ≤ (writeLoop K bus P N lf buf n i j f cf ct cc dev sent tmp).currentFrame) ∧
      (CacheInv cc →
        CacheInv (writeLoop K bus P N lf buf n i j f cf ct cc dev sent tmp).cc) ∧
      (writeLoop K bus P N lf buf n i j f cf ct cc dev sent tmp).cc.cacheSize = cc.cacheSize := by
  induction n with
  | zero =>
    intro i j f cf ct cc dev sent tmp
    simp only [writeLoop]
    exact ⟨trivial, trivial, trivial, fun h => h, fun h => h, trivial⟩
  | succ n ih =>
    intro i j f cf ct cc dev sent tmp
    rw [writeLoop]
    simp only
    obtain ⟨k1, k2, k3, k4⟩ := writeSplice_keeps K P N lf buf i j f cf ct
      (fetch_frame K bus false cc dev sent tmp (f.fCart i) (f.fFrame i)).tmp
    have hfi := fun (h : CacheInv cc) => fetch_cache_inv K bus false h dev sent tmp
      (f.fCart i) (f.fFrame i)
    have hfs : (fetch_frame K bus false cc dev sent tmp (f.fCart i) (f.fFrame i)).cc.cacheSize
        = cc.cacheSize := by
      unfold fetch_frame
      simp only
      split
      · simp
      · split
        · simp
        · split <;> simp
    split
    · exact ⟨rfl, rfl, rfl, fun h => h, fun h => (hfi h).1, hfs⟩
    · split
      · exact ⟨k1, k2, k3, k4, fun h => (hfi h).1, hfs⟩
      · obtain ⟨r1, r2, r3, r4, r5, r6⟩ := ih (i + 1)
          ((writeSplice K P N lf buf i j f cf ct
            (fetch_frame K bus false cc dev sent tmp (f.fCart i) (f.fFrame i)).tmp).2.2.2.2 + 1)
          (writeSplice K P N lf buf i j f cf ct
            (fetch_frame K bus false cc dev sent tmp (f.fCart i) (f.fFrame i)).tmp).1
          (writeSplice K P N lf buf i j f cf ct
            (fetch_frame K bus false cc dev sent tmp (f.fCart i) (f.fFrame i)).tmp).2.1
          (writeSplice K P N lf buf i j f cf ct
            (fetch_frame K bus false cc dev sent tmp (f.fCart i) (f.fFrame i)).tmp).2.2.1
          (put_cart_cache K
            (fetch_frame K bus false cc dev sent tmp (f.fCart i) (f.fFrame i)).cc
            (toU16 ((writeSplice K P N lf buf i j f cf ct
              (fetch_frame K bus false cc dev sent tmp (f.fCart i) (f.fFrame i)).tmp).1.fCart i))
            (toU16 ((writeSplice K P N lf buf i j f cf ct
              (fetch_frame K bus false cc dev sent tmp (f.fCart i) (f.fFrame i)).tmp).1.fFrame i))
            (writeSplice K P N lf buf i j f cf ct
              (fetch_frame K bus false cc dev sent tmp (f.fCart i) (f.fFrame i)).tmp).2.2.2.1)
          (bus_xfer bus (fetch_frame K bus false cc dev sent tmp (f.fCart i) (f.fFrame i)).dev
            (fetch_frame K bus false cc dev sent tmp (f.fCart i) (f.fFrame i)).sent
            K.CART_OP_WRFRME 0
            (toU64 ((writeSplice K P N lf buf i j f cf ct
              (fetch_frame K bus false cc dev sent tmp (f.fCart i) (f.fFrame i)).tmp).1.fFrame i))
            (writeSplice K P N lf buf i j f cf ct
              (fetch_frame K bus false cc dev sent tmp (f.fCart i) (f.fFrame i)).tmp).2.2.2.1).dev
          (bus_xfer bus (fetch_frame K bus false cc dev sent tmp (f.fCart i) (f.fFrame i)).dev
            (fetch_frame K bus false cc dev sent tmp (f.fCart i) (f.fFrame i)).sent
            K.CART_OP_WRFRME 0
            (toU64 ((writeSplice K P N lf buf i j f cf ct
              (fetch_frame K bus false cc dev sent tmp (f.fCart i) (f.fFrame i)).tmp).1.fFrame i))
            (writeSplice K P N lf buf i j f cf ct
              (fetch_frame K bus false cc dev sent tmp (f.fCart i) (f.fFrame i)).tmp).2.2.2.1).sent
          (writeSplice K P N lf buf i j f cf ct
            (fetch_frame K bus false cc dev sent tmp (f.fCart i) (f.fFrame i)).tmp).2.2.2.1
        refine ⟨r1.trans k1, r2.trans k2, r3.trans k3, fun h => r4 (k4 h),
          fun h => r5 (CacheInv_put K (hfi h).1 _ _ _), ?_⟩
        rw [r6, put_cacheSize, hfs]

/-! ## The storing device -/

theorem memBus_ok (K : CartHeader) : BusOk (memBus K) := by
  intro d reg buf
  have h : (memBus K d reg buf).1
      = create_cart_opcode (extract_cart_opcode reg).2.ky1 (extract_cart_opcode reg).2.ky2 0
          (extract_cart_opcode reg).2.ct1 (extract_cart_opcode reg).2.fm1 := by
    unfold memBus
    simp only
    split_ifs <;> rfl
  rw [h, extract_create]

theorem memBus_std_ld (d : Device) (ct fm : Nat) (buf : Block) :
    (memBus stdHeader d (create_cart_opcode 2 0 0 ct fm) buf).2
      = (buf, { d with loaded := ct % 65536 }) := by
  unfold memBus
  simp [extract_create, stdHeader]

theorem memBus_std_rd (d : Device) (ct fm : Nat) (buf : Block) :
    (memBus stdHeader d (create_cart_opcode 3 0 0 ct fm) buf).2
      = (d.mem d.loaded (fm % 65536), d) := by
  unfold memBus
  simp [extract_create, stdHeader]

theorem memBus_std_wr (d : Device) (ct fm : Nat) (buf : Block) :
    (memBus stdHeader d (create_cart_opcode 4 0 0 ct fm) buf).2
      = (buf, { d with
          mem := setAt d.mem d.loaded
            (setAt (d.mem d.loaded) (fm % 65536)
              (memcpy (d.mem d.loaded (fm % 65536)) 0 buf 0 1024)) }) := by
  unfold memBus
  simp [extract_create, stdHeader]

/-- Effect of a LOAD_CARTRIDGE exchange with the storing device. -/
theorem xfer_std_ld (d : Device) (sent : List Nat) (ct fm : Nat) (buf : Block) :
    (bus_xfer (memBus stdHeader) d sent 2 ct fm buf).dev = { d with loaded := ct % 65536 } := by
  rw [bus_xfer_eq (memBus_ok stdHeader), memBus_std_ld]

/-- Effect of a READ_FRAME exchange with the storing device. -/
theorem xfer_std_rd (d : Device) (sent : List Nat) (ct fm : Nat) (buf : Block) :
    (bus_xfer (memBus stdHeader) d sent 3 ct fm buf).dev = d ∧
    (bus_xfer (memBus stdHeader) d sent 3 ct fm buf).payload = d.mem d.loaded (fm % 65536) := by
  rw [bus_xfer_eq (memBus_ok stdHeader), memBus_std_rd]
  exact ⟨rfl, rfl⟩

/-- Effect of a WRITE_FRAME exchange with the storing device: only the named
frame of the selected cartridge changes. -/
theorem xfer_std_wr (d : Device) (sent : List Nat) (ct fm : Nat) (buf : Block) :
    (bus_xfer (memBus stdHeader) d sent 4 ct fm buf).dev.loaded = d.loaded ∧
    ∀ c fr, (c ≠ d.loaded ∨ fr ≠ fm % 65536) →
      (bus_xfer (memBus stdHeader) d sent 4 ct fm buf).dev.mem c fr = d.mem c fr := by
  rw [bus_xfer_eq (memBus_ok stdHeader), memBus_std_wr]
  refine ⟨rfl, ?_⟩
  intro c fr h
  by_cases hc : c = d.loaded
  · subst hc
    have hfr : fr ≠ fm % 65536 := by
      rcases h with h | h
      · exact absurd rfl h
      · exact h
    simp only [setAt_same, setAt_other _ _ _ _ hfr]
  · simp only [setAt_other _ _ _ _ hc]

/-- A fetch never changes the memory of the storing device. -/
theorem fetch_std_mem (p : Bool) (cc : Cache) (d : Device) (sent : List Nat) (tmp : Block)
    (cart frm : Int) :
    (fetch_frame stdHeader (memBus stdHeader) p cc d sent tmp cart frm).dev.mem = d.mem := by
  unfold fetch_frame
  simp only [bus_xfer_ok (memBus_ok stdHeader), Bool.true_eq_false, if_false]
  split
  · rfl
  · show (bus_xfer (memBus stdHeader) (bus_xfer (memBus stdHeader) d sent 2 (toU64 cart) 0
      zeroBlock).dev _ 3 0 (toU64 frm) tmp).dev.mem = d.mem
    rw [(xfer_std_rd _ _ _ _ _).1, xfer_std_ld]

/-- A fetch that misses the cache selects the cartridge and brings the frame
the device stores. -/
theorem fetch_std_miss (p : Bool) (cc : Cache) (d : Device) (sent : List Nat) (tmp : Block)
    (cart frm : Int) (hm : (get_cart_cache cc (toU16 cart) (toU16 frm)).2 = none) :
    (fetch_frame stdHeader (memBus stdHeader) p cc d sent tmp cart frm).dev.loaded
      = toU64 cart % 65536 ∧
    (fetch_frame stdHeader (memBus stdHeader) p cc d sent tmp cart frm).tmp
      = memcpy tmp 0 (d.mem (toU64 cart % 65536) (toU64 frm % 65536)) 0 1024 ∧
    (fetch_frame stdHeader (memBus stdHeader) p cc d sent tmp cart frm).cc
      = if p then
          put_cart_cache stdHeader (get_cart_cache cc (toU16 cart) (toU16 frm)).1 (toU16 cart)
            (toU16 frm) (memcpy tmp 0 (d.mem (toU64 cart % 65536) (toU64 frm % 65536)) 0 1024)
        else (get_cart_cache cc (toU16 cart) (toU16 frm)).1 := by
  unfold fetch_frame
  simp only [hm, bus_xfer_ok (memBus_ok stdHeader), Bool.true_eq_false, if_false]
  have e1 : stdHeader.CART_OP_LDCART = 2 := rfl
  have e2 : stdHeader.CART_OP_RDFRME = 3 := rfl
  have e3 : stdHeader.CART_FRAME_SIZE = 1024 := rfl
  simp only [e1, e2, e3, (xfer_std_rd _ _ _ _ _).1, (xfer_std_rd _ _ _ _ _).2, xfer_std_ld]
  exact ⟨trivial, trivial, trivial⟩

/-! ## A cache of capacity 1 -/

/-- Inserting into a well-formed cache of capacity 1 leaves the key in slot 0. -/
theorem put_cap1 (K : CartHeader) {c : Cache} (h : CacheInv c) (hsz : c.cacheSize = 1)
    (cart frm : Nat) (b : Block) :
    CacheInv (put_cart_cache K c cart frm b) ∧
    (put_cart_cache K c cart frm b).cacheSize = 1 ∧
    (put_cart_cache K c cart frm b).current = 1 ∧
    ((put_cart_cache K c cart frm b).cache 0).memCart = (cart : Int) ∧
    ((put_cart_cache K c cart frm b).cache 0).memFrm = (frm : Int) ∧
    ∀ o, o < K.CART_FRAME_SIZE → ((put_cart_cache K c cart frm b).cache 0).memContent o = b o := by
  have hinv := CacheInv_put K h cart frm b
  obtain ⟨p, old, hp, h1, h2, h3⟩ := put_slot K h (by omega) cart frm b
  have hs : (put_cart_cache K c cart frm b).cacheSize = 1 := by rw [put_cacheSize, hsz]
  have hle := hinv.cur_le
  have hp0 : p = 0 := by omega
  subst hp0
  refine ⟨hinv, hs, by omega, h1, h2, ?_⟩
  intro o ho
  rw [h3]
  exact memcpy_whole _ _ _ _ ho

/-- A lookup in a cache whose only occupied slot holds another key misses and
leaves the keys alone. -/
theorem get_cap1_miss {c : Cache} (h : CacheInv c) (hcur : c.current = 1)
    (cart frm : Nat)
    (hk : ¬ ((c.cache 0).memCart = (cart : Int) ∧ (c.cache 0).memFrm = (frm : Int))) :
    (get_cart_cache c cart frm).2 = none ∧
    CacheInv (get_cart_cache c cart frm).1 ∧
    (get_cart_cache c cart frm).1.cacheSize = c.cacheSize ∧
    (get_cart_cache c cart frm).1.current = 1 := by
  refine ⟨get_none_of ?_, CacheInv_get h _ _, get_cacheSize _ _ _, by rw [get_current, hcur]⟩
  intro j hj
  have : j = 0 := by omega
  subst this
  exact hk

theorem writeLoop_step {D : Type} (K : CartHeader) {bus : BusFn D} (hb : BusOk bus)
    (P N lf : Nat) (buf : Block) (n i : Nat) (j : Int) (f : cartFile) (cf ct : Int)
    (cc : Cache) (dev : D) (sent : List Nat) (tmp : Block) :
    writeLoop K bus P N lf buf (n + 1) i j f cf ct cc dev sent tmp
      = writeLoop K bus P N lf buf n (i + 1)
          ((writeSplice K P N lf buf i j f cf ct
            (fetch_frame K bus false cc dev sent tmp (f.fCart i) (f.fFrame i)).tmp).2.2.2.2 + 1)
          (writeSplice K P N lf buf i j f cf ct
            (fetch_frame K bus false cc dev sent tmp (f.fCart i) (f.fFrame i)).tmp).1
          (writeSplice K P N lf buf i j f cf ct
            (fetch_frame K bus false cc dev sent tmp (f.fCart i) (f.fFrame i)).tmp).2.1
          (writeSplice K P N lf buf i j f cf ct
            (fetch_frame K bus false cc dev sent tmp (f.fCart i) (f.fFrame i)).tmp).2.2.1
          (put_cart_cache K
            (fetch_frame K bus false cc dev sent tmp (f.fCart i) (f.fFrame i)).cc
            (toU16 ((writeSplice K P N lf buf i j f cf ct
              (fetch_frame K bus false cc dev sent tmp (f.fCart i) (f.fFrame i)).tmp).1.fCart i))
            (toU16 ((writeSplice K P N lf buf i j f cf ct
              (fetch_frame K bus false cc dev sent tmp (f.fCart i) (f.fFrame i)).tmp).1.fFrame i))
            (writeSplice K P N lf buf i j f cf ct
              (fetch_frame K bus false cc dev sent tmp (f.fCart i) (f.fFrame i)).tmp).2.2.2.1)
          (bus_xfer bus (fetch_frame K bus false cc dev sent tmp (f.fCart i) (f.fFrame i)).dev
            (fetch_frame K bus false cc dev sent tmp (f.fCart i) (f.fFrame i)).sent
            K.CART_OP_WRFRME 0
            (toU64 ((writeSplice K P N lf buf i j f cf ct
              (fetch_frame K bus false cc dev sent tmp (f.fCart i) (f.fFrame i)).tmp).1.fFrame i))
            (writeSplice K P N lf buf i j f cf ct
              (fetch_frame K bus false cc dev sent tmp (f.fCart i) (f.fFrame i)).tmp).2.2.2.1).dev
          (bus_xfer bus (fetch_frame K bus false cc dev sent tmp (f.fCart i) (f.fFrame i)).dev
            (fetch_frame K bus false cc dev sent tmp (f.fCart i) (f.fFrame i)).sent
            K.CART_OP_WRFRME 0
            (toU64 ((writeSplice K P N lf buf i j f cf ct
              (fetch_frame K bus false cc dev sent tmp (f.fCart i) (f.fFrame i)).tmp).1.fFrame i))
            (writeSplice K P N lf buf i j f cf ct
              (fetch_frame K bus false cc dev sent tmp (f.fCart i) (f.fFrame i)).tmp).2.2.2.1).sent
          (writeSplice K P N lf buf i j f cf ct
            (fetch_frame K bus false cc dev sent tmp (f.fCart i) (f.fFrame i)).tmp).2.2.2.1 := by
  rw [writeLoop]
  simp only [fetch_ok K hb, bus_xfer_ok hb, Bool.true_eq_false, if_false]

/-! ## Two frames in cartridge 1 -/

theorem toU16_zero : toU16 0 = 0 := by decide
theorem toU16_one : toU16 1 = 1 := by decide
theorem toU64_zero : toU64 0 = 0 := by decide
theorem toU64_one : toU64 1 = 1 := by decide

theorem splice_first_of_two (B : Block) (f : cartFile) (cf ct : Int) (tmp : Block) :
    writeSplice stdHeader 0 1025 0 B 0 0 f cf ct tmp
      = ({ f with pos := f.pos + 1024 }, cf, ct, memcpy tmp 0 B 0 1024, 0 - 1) := by
  unfold writeSplice
  have e : stdHeader.CART_FRAME_SIZE = 1024 := rfl
  simp only [e]
  norm_num

theorem splice_second_of_two (B : Block) (f : cartFile) (tmp : Block) :
    writeSplice stdHeader 0 1025 0 B 1 (0 - 1 + 1) f 0 1 tmp
      = ({ f with
            fFrame := setAt f.fFrame 1 1, fCart := setAt f.fCart 1 1,
            pos := f.pos + 1, fLength := 1025 }, 1, 1, memcpy tmp 0 B 1024 1, 0 - 1 + 1) := by
  unfold writeSplice bufOff
  have e : stdHeader.CART_FRAME_SIZE = 1024 := rfl
  have e2 : Int.toNat 1024 = 1024 := rfl
  simp only [e]
  norm_num [e2]

theorem writeLoop_round {D : Type} (K : CartHeader) {bus : BusFn D} (hb : BusOk bus)
    {P N L : Nat} {B : Block} {m : Nat} (n : Nat) (hm : m = n + 1) {i : Nat} {j : Int}
    {f : cartFile} {a b : Int} {c : Cache} {d : D} {s : List Nat} {t : Block}
    {x : Fetched D} {f1 : cartFile} {cf1 ct1 : Int} {tmp1 : Block} {j1 : Int} {u v w : Nat}
    {y : Xfer D}
    (hx : fetch_frame K bus false c d s t (f.fCart i) (f.fFrame i) = x)
    (hsp : writeSplice K P N L B i j f a b x.tmp = (f1, cf1, ct1, tmp1, j1))
    (hkc : toU16 (f1.fCart i) = u) (hkf : toU16 (f1.fFrame i) = v)
    (hwf : toU64 (f1.fFrame i) = w)
    (hy : bus_xfer bus x.dev x.sent K.CART_OP_WRFRME 0 w tmp1 = y) :
    writeLoop K bus P N L B m i j f a b c d s t
      = writeLoop K bus P N L B n (i + 1) (j1 + 1) f1 cf1 ct1
          (put_cart_cache K x.cc u v tmp1) y.dev y.sent tmp1 := by
  subst hm hx hkc hkf hwf hy
  rw [writeLoop_step K hb, hsp]

theorem writeLoop_zero {D : Type} (K : CartHeader) (bus : BusFn D) (P N lf : Nat) (buf : Block)
    (i : Nat) (j : Int) (f : cartFile) (cf ct : Int) (cc : Cache) (dev : D) (sent : List Nat)
    (tmp : Block) :
    writeLoop K bus P N lf buf 0 i j f cf ct cc dev sent tmp
      = { ret := N, f := f, currentFrame := cf, currentCart := ct, cc := cc, dev := dev,
          sent := sent } := by
  rw [writeLoop]

/-- Writing 1025 bytes into an empty file whose first frame is bound to
cartridge 1, frame 0, while the allocator cursor is at that pair and the cache
has capacity 1: the second frame is allocated as cartridge 1, frame 1, its
bytes end in the cache under that key, and the device memory of cartridge 1,
frame 1 is not touched. -/
theorem writeLoop_two_frames (B : Block) (f : cartFile) (cc : Cache) (dev : Device)
    (sent : List Nat) (tmp : Block)
    (hc0 : f.fCart 0 = 1) (hf0 : f.fFrame 0 = 0) (hc1 : f.fCart 1 = 0) (hf1 : f.fFrame 1 = 0)
    (hinv : CacheInv cc) (hsz : cc.cacheSize = 1) :
    ∃ r : WriteRes Device,
      writeLoop stdHeader (memBus stdHeader) 0 1025 0 B 2 0 0 f 0 1 cc dev sent tmp = r ∧
      r.ret = 1025 ∧ r.f.pos = f.pos + 1024 + 1 ∧ r.f.fLength = 1025 ∧
      r.f.isOpen = f.isOpen ∧
      r.f.fCart 0 = 1 ∧ r.f.fFrame 0 = 0 ∧ r.f.fCart 1 = 1 ∧ r.f.fFrame 1 = 1 ∧
      CacheInv r.cc ∧ r.cc.cacheSize = 1 ∧ r.cc.current = 1 ∧
      (r.cc.cache 0).memCart = 1 ∧ (r.cc.cache 0).memFrm = 1 ∧
      (r.cc.cache 0).memContent 0 = B 1024 ∧
      r.dev.mem 1 1 = dev.mem 1 1 := by
  have hb := memBus_ok stdHeader
  have eFS : stdHeader.CART_FRAME_SIZE = 1024 := rfl
  -- the first round
  obtain ⟨hx1i, hx1s⟩ := fetch_cache_inv stdHeader (memBus stdHeader) false hinv dev sent tmp
    (f.fCart 0) (f.fFrame 0)
  have hx1m := fetch_std_mem false cc dev sent tmp (f.fCart 0) (f.fFrame 0)
  obtain ⟨x1, hx1⟩ : ∃ x, fetch_frame stdHeader (memBus stdHeader) false cc dev sent tmp
    (f.fCart 0) (f.fFrame 0) = x := ⟨_, rfl⟩
  rw [hx1] at hx1i hx1s hx1m
  obtain ⟨p1, p2, p3, p4, p5, -⟩ := put_cap1 stdHeader hx1i (hx1s.trans hsz) 1 0
    (memcpy x1.tmp 0 B 0 1024)
  obtain ⟨-, hw1⟩ := xfer_std_wr x1.dev x1.sent 0 0 (memcpy x1.tmp 0 B 0 1024)
  obtain ⟨y1, hy1⟩ : ∃ y, bus_xfer (memBus stdHeader) x1.dev x1.sent stdHeader.CART_OP_WRFRME 0 0
    (memcpy x1.tmp 0 B 0 1024) = y := ⟨_, rfl⟩
  have hy1' : bus_xfer (memBus stdHeader) x1.dev x1.sent 4 0 0 (memcpy x1.tmp 0 B 0 1024) = y1 :=
    hy1
  rw [hy1'] at hw1
  have step1 := writeLoop_round stdHeader hb (P := 0) (N := 1025) (L := 0) (B := B) (m := 2)
    1 rfl (i := 0) (j := 0) (a := 0) (b := 1) (u := 1) (v := 0) (w := 0)
    hx1 (splice_first_of_two B f 0 1 x1.tmp)
    (by show toU16 (f.fCart 0) = 1; rw [hc0]; exact toU16_one)
    (by show toU16 (f.fFrame 0) = 0; rw [hf0]; exact toU16_zero)
    (by show toU64 (f.fFrame 0) = 0; rw [hf0]; exact toU64_zero) hy1
  generalize put_cart_cache stdHeader x1.cc 1 0 (memcpy x1.tmp 0 B 0 1024) = cc1
    at p1 p2 p3 p4 p5 step1
  -- the second round
  have hmiss := get_cap1_miss p1 p3 0 0 (by rw [p4]; simp)
  obtain ⟨m1, m2, m3⟩ := fetch_std_miss false cc1 y1.dev y1.sent (memcpy x1.tmp 0 B 0 1024) 0 0
    (by rw [toU16_zero]; exact hmiss.1)
  have hx2m := fetch_std_mem false cc1 y1.dev y1.sent (memcpy x1.tmp 0 B 0 1024) 0 0
  simp only [toU16_zero, toU64_zero, Bool.false_eq_true, if_false] at m1 m3
  obtain ⟨x2, hx2⟩ : ∃ x, fetch_frame stdHeader (memBus stdHeader) false cc1 y1.dev y1.sent
    (memcpy x1.tmp 0 B 0 1024) 0 0 = x := ⟨_, rfl⟩
  rw [hx2] at m1 m2 m3 hx2m
  obtain ⟨q1, q2, q3, q4, q5, q6⟩ := put_cap1 stdHeader (c := x2.cc)
    (by rw [m3]; exact hmiss.2.1) (by rw [m3, hmiss.2.2.1]; exact p2) 1 1
    (memcpy x2.tmp 0 B 1024 1)
  obtain ⟨-, hw2⟩ := xfer_std_wr x2.dev x2.sent 0 1 (memcpy x2.tmp 0 B 1024 1)
  obtain ⟨y2, hy2⟩ : ∃ y, bus_xfer (memBus stdHeader) x2.dev x2.sent stdHeader.CART_OP_WRFRME 0 1
    (memcpy x2.tmp 0 B 1024 1) = y := ⟨_, rfl⟩
  have hy2' : bus_xfer (memBus stdHeader) x2.dev x2.sent 4 0 1 (memcpy x2.tmp 0 B 1024 1) = y2 :=
    hy2
  rw [hy2'] at hw2
  have step2 := writeLoop_round stdHeader hb (P := 0) (N := 1025) (L := 0) (B := B) (m := 1)
    0 rfl (i := 1) (j := 0 - 1 + 1) (f := { f with pos := f.pos + 1024 }) (a := 0) (b := 1)
    (c := cc1) (d := y1.dev) (s := y1.sent) (t := memcpy x1.tmp 0 B 0 1024)
    (u := 1) (v := 1) (w := 1)
    (by show fetch_frame stdHeader (memBus stdHeader) false cc1 y1.dev y1.sent
          (memcpy x1.tmp 0 B 0 1024) (f.fCart 1) (f.fFrame 1) = x2
        rw [hc1, hf1]; exact hx2)
    (splice_second_of_two B _ x2.tmp)
    (by show toU16 (setAt f.fCart 1 1 1) = 1; rw [setAt_same]; exact toU16_one)
    (by show toU16 (setAt f.fFrame 1 1 1) = 1; rw [setAt_same]; exact toU16_one)
    (by show toU64 (setAt f.fFrame 1 1 1) = 1; rw [setAt_same]; exact toU64_one) hy2
  generalize put_cart_cache stdHeader x2.cc 1 1 (memcpy x2.tmp 0 B 1024 1) = cc2
    at q1 q2 q3 q4 q5 q6 step2
  refine ⟨_, (step1.trans step2).trans (writeLoop_zero _ _ _ _ _ _ _ _ _ _ _ _ _ _ _), ?_⟩
  refine ⟨by norm_num, rfl, rfl, rfl, ?_, ?_, ?_, ?_, q1, q2, q3, q4, q5, ?_, ?_⟩
  · show setAt f.fCart 1 1 0 = 1
    rw [setAt_other _ _ _ _ (by decide)]; exact hc0
  · show setAt f.fFrame 1 1 0 = 0
    rw [setAt_other _ _ _ _ (by decide)]; exact hf0
  · show setAt f.fCart 1 1 1 = 1
    rw [setAt_same]
  · show setAt f.fFrame 1 1 1 = 1
    rw [setAt_same]
  · rw [q6 0 (by rw [eFS]; decide), memcpy_apply, if_pos (by decide)]
  · show y2.dev.mem 1 1 = dev.mem 1 1
    rw [hw2 1 1 (Or.inl (by rw [m1]; decide)), hx2m, hw1 1 1 (Or.inr (by decide)), hx1m]

theorem readLoop_round_head {D : Type} (K : CartHeader) {bus : BusFn D} (hb : BusOk bus)
    {f : cartFile} {P N : Nat} {m : Nat} (n : Nat) (hm : m = n + 1) {i : Nat} {j : Int} {p : Nat}
    {cc : Cache} {dev : D} {sent : List Nat} {tmp b : Block} {x : Fetched D}
    (hx : fetch_frame K bus true cc dev sent tmp (f.fCart i) (f.fFrame i) = x)
    (h1 : i < f.fLength / K.CART_FRAME_SIZE) (h2 : i = P / K.CART_FRAME_SIZE)
    (h3 : ¬ i = (P + N) / K.CART_FRAME_SIZE) :
    readLoop K bus f P N m i j p cc dev sent tmp b
      = readLoop K bus f P N n (i + 1) (j - 1 + 1)
          (p + (K.CART_FRAME_SIZE - P % K.CART_FRAME_SIZE)) x.cc x.dev x.sent x.tmp
          (memcpy b 0 x.tmp (P % K.CART_FRAME_SIZE)
            (K.CART_FRAME_SIZE - P % K.CART_FRAME_SIZE)) := by
  subst hm hx
  rw [readLoop]
  simp only [fetch_ok K hb, Bool.true_eq_false, if_false, if_pos h1, if_neg h3]
  rw [if_pos h2]

theorem readLoop_round_tail {D : Type} (K : CartHeader) {bus : BusFn D} (hb : BusOk bus)
    {f : cartFile} {P N : Nat} {m : Nat} (n : Nat) (hm : m = n + 1) {i : Nat} {j : Int} {p : Nat}
    {cc : Cache} {dev : D} {sent : List Nat} {tmp b : Block} {x : Fetched D}
    (hx : fetch_frame K bus true cc dev sent tmp (f.fCart i) (f.fFrame i) = x)
    (h1 : ¬ i < f.fLength / K.CART_FRAME_SIZE) (h2 : ¬ i = P / K.CART_FRAME_SIZE)
    (h3 : ¬ P + N > f.fLength) :
    readLoop K bus f P N m i j p cc dev sent tmp b
      = { ret := (N : Int), pos := p + (N + P) % K.CART_FRAME_SIZE, cc := x.cc, dev := x.dev,
          sent := x.sent,
          buf := memcpy b (bufOff K P j) x.tmp 0 ((P + N) % K.CART_FRAME_SIZE) } := by
  subst hm hx
  rw [readLoop]
  simp only [fetch_ok K hb, Bool.true_eq_false, if_false, if_neg h1, if_neg h2, if_neg h3]

theorem bufOff_std_zero : bufOff stdHeader 0 (0 - 1 + 1) = 1024 := by decide

/-- Reading 1025 bytes from position 0 of a file of length 1025 whose frames
are bound to cartridge 1, frames 0 and 1, while the cache of capacity 1 holds
the second frame: both frames are fetched from the device, and the byte
returned at offset 1024 is the first byte the device stores for cartridge 1,
frame 1. -/
theorem readLoop_two_frames (f : cartFile) (cc : Cache) (dev : Device) (sent : List Nat)
    (tmp buf : Block)
    (hlen : f.fLength = 1025)
    (hc0 : f.fCart 0 = 1) (hf0 : f.fFrame 0 = 0) (hc1 : f.fCart 1 = 1) (hf1 : f.fFrame 1 = 1)
    (hinv : CacheInv cc) (hsz : cc.cacheSize = 1) (hcur : cc.current = 1)
    (hk2 : (cc.cache 0).memFrm = 1) :
    ∃ r : ReadRes Device,
      readLoop stdHeader (memBus stdHeader) f 0 1025 2 0 0 0 cc dev sent tmp buf = r ∧
      r.ret = 1025 ∧ r.buf 1024 = dev.mem 1 1 0 := by
  have hb := memBus_ok stdHeader
  have eFS : stdHeader.CART_FRAME_SIZE = 1024 := rfl
  -- the first round misses: the cache holds frame 1
  have hmiss1 := get_cap1_miss hinv hcur 1 0 (by rw [hk2]; simp)
  obtain ⟨a1, a2, a3⟩ := fetch_std_miss true cc dev sent tmp 1 0
    (by rw [toU16_one, toU16_zero]; exact hmiss1.1)
  have hx1m := fetch_std_mem true cc dev sent tmp 1 0
  simp only [toU16_zero, toU16_one, toU64_zero, toU64_one, if_true] at a1 a3
  obtain ⟨x1, hx1⟩ : ∃ x, fetch_frame stdHeader (memBus stdHeader) true cc dev sent tmp 1 0 = x :=
    ⟨_, rfl⟩
  rw [hx1] at a1 a2 a3 hx1m
  obtain ⟨p1, p2, p3, p4, p5, -⟩ := put_cap1 stdHeader (c := (get_cart_cache cc 1 0).1)
    hmiss1.2.1 (by rw [hmiss1.2.2.1]; exact hsz) 1 0
    (memcpy tmp 0 (dev.mem (1 % 65536) (0 % 65536)) 0 1024)
  rw [← a3] at p1 p2 p3 p4 p5
  have step1 := readLoop_round_head stdHeader hb (f := f) (P := 0) (N := 1025) (m := 2) 1 rfl
    (i := 0) (j := 0) (p := 0) (b := buf)
    (by show fetch_frame stdHeader (memBus stdHeader) true cc dev sent tmp (f.fCart 0)
          (f.fFrame 0) = x1
        rw [hc0, hf0]; exact hx1)
    (by rw [hlen, eFS]; decide) (by rw [eFS]) (by rw [eFS]; decide)
  -- the second round misses too: the cache now holds frame 0
  have hmiss2 := get_cap1_miss p1 p3 1 1 (by rw [p5]; simp)
  obtain ⟨b1, b2, -⟩ := fetch_std_miss true x1.cc x1.dev x1.sent x1.tmp 1 1
    (by rw [toU16_one]; exact hmiss2.1)
  simp only [toU64_one] at b1 b2
  obtain ⟨x2, hx2⟩ : ∃ x, fetch_frame stdHeader (memBus stdHeader) true x1.cc x1.dev x1.sent
    x1.tmp 1 1 = x := ⟨_, rfl⟩
  rw [hx2] at b1 b2
  have step2 := readLoop_round_tail stdHeader hb (f := f) (P := 0) (N := 1025) (m := 1) 0 rfl
    (i := 0 + 1) (j := 0 - 1 + 1)
    (p := 0 + (stdHeader.CART_FRAME_SIZE - 0 % stdHeader.CART_FRAME_SIZE))
    (b := memcpy buf 0 x1.tmp (0 % stdHeader.CART_FRAME_SIZE)
      (stdHeader.CART_FRAME_SIZE - 0 % stdHeader.CART_FRAME_SIZE))
    (by show fetch_frame stdHeader (memBus stdHeader) true x1.cc x1.dev x1.sent x1.tmp
          (f.fCart 1) (f.fFrame 1) = x2
        rw [hc1, hf1]; exact hx2)
    (by rw [hlen, eFS]; decide) (by rw [eFS]; decide) (by rw [hlen]; decide)
  refine ⟨_, step1.trans step2, by norm_num, ?_⟩
  have e1 : (1 : Nat) % 65536 = 1 := by decide
  rw [e1] at b2
  show (memcpy (memcpy buf 0 x1.tmp (0 % stdHeader.CART_FRAME_SIZE)
      (stdHeader.CART_FRAME_SIZE - 0 % stdHeader.CART_FRAME_SIZE))
    (bufOff stdHeader 0 (0 - 1 + 1)) x2.tmp 0 ((0 + 1025) % stdHeader.CART_FRAME_SIZE)) 1024
    = dev.mem 1 1 0
  rw [bufOff_std_zero, memcpy_apply, if_pos (by rw [eFS]; decide), b2, memcpy_apply,
    if_pos (by decide), hx1m]

/-! ## A device and a cache that hold only zero bytes -/

theorem memcpy_zero {dst src : Block} (hd : ∀ o, dst o = 0) (hs : ∀ o, src o = 0) (d s n : Nat) :
    ∀ o, memcpy dst d src s n o = 0 := by
  intro o
  rw [memcpy_apply]
  split
  · exact hs _
  · exact hd _

theorem memBus_zero (K : CartHeader) {d : Device} (hz : ZeroMem d) (reg : Nat) {buf : Block}
    (hb : ∀ o, buf o = 0) :
    ZeroMem (memBus K d reg buf).2.2 ∧ ∀ o, (memBus K d reg buf).2.1 o = 0 := by
  unfold memBus
  simp only
  split_ifs
  · exact ⟨hz, hb⟩
  · exact ⟨hz, fun o => hz _ _ o⟩
  · refine ⟨?_, hb⟩
    intro c fr o
    show setAt d.mem d.loaded _ c fr o = 0
    by_cases hc : c = d.loaded
    · subst hc
      rw [setAt_same]
      by_cases hf : fr = (extract_cart_opcode reg).2.fm1
      · subst hf
        rw [setAt_same]
        exact memcpy_zero (fun o => hz _ _ o) hb _ _ _ o
      · rw [setAt_other _ _ _ _ hf]
        exact hz _ _ o
    · rw [setAt_other _ _ _ _ hc]
      exact hz _ _ o
  · refine ⟨?_, hb⟩
    intro c fr o
    show setAt d.mem d.loaded _ c fr o = 0
    by_cases hc : c = d.loaded
    · subst hc
      rw [setAt_same]
      rfl
    · rw [setAt_other _ _ _ _ hc]
      exact hz _ _ o
  · exact ⟨hz, hb⟩

theorem bus_xfer_zero (K : CartHeader) {d : Device} (hz : ZeroMem d) (sent : List Nat)
    (op ct fm : Nat) {b : Block} (hb : ∀ o, b o = 0) :
    ZeroMem (bus_xfer (memBus K) d sent op ct fm b).dev ∧
    ∀ o, (bus_xfer (memBus K) d sent op ct fm b).payload o = 0 := by
  rw [bus_xfer_eq (memBus_ok K)]
  exact memBus_zero K hz _ hb

theorem get_zero {c : Cache} (hz : ZeroCache c) (cart frm : Nat) :
    ZeroCache (get_cart_cache c cart frm).1 ∧
    ∀ b, (get_cart_cache c cart frm).2 = some b → ∀ o, b o = 0 := by
  constructor
  · intro i o
    rw [(get_cache_fields c cart frm i).2.2]
    exact hz i o
  · unfold get_cart_cache
    simp only
    split
    · intro b hb o
      simp only [Option.some.injEq, ageAll_memContent] at hb
      rw [← hb]
      exact hz _ o
    · intro b hb
      simp at hb

theorem put_zero (K : CartHeader) {c : Cache} (hz : ZeroCache c) (cart frm : Nat) {buf : Block}
    (hb : ∀ o, buf o = 0) : ZeroCache (put_cart_cache K c cart frm buf) := by
  unfold put_cart_cache
  simp only
  split
  · intro i o
    simp only [setAt]
    split
    · exact memcpy_zero (fun o => by rw [ageAll_memContent]; exact hz _ o) hb _ _ _ o
    · rw [ageAll_memContent]; exact hz _ o
  · split
    · intro i o
      simp only [setAt]
      split
      · exact memcpy_zero (fun o => by rw [ageAll_memContent]; exact hz _ o) hb _ _ _ o
      · rw [ageAll_memContent]; exact hz _ o
    · intro i o
      simp only [setAt]
      split
      · exact memcpy_zero (fun o => by rw [ageAll_memContent]; exact hz _ o) hb _ _ _ o
      · rw [ageAll_memContent]; exact hz _ o

theorem fetch_zero (K : CartHeader) (p : Bool) {cc : Cache} {d : Device} (hc : ZeroCache cc)
    (hd : ZeroMem d) (sent : List Nat) {tmp : Block} (ht : ∀ o, tmp o = 0) (cart frm : Int) :
    ZeroCache (fetch_frame K (memBus K) p cc d sent tmp cart frm).cc ∧
    ZeroMem (fetch_frame K (memBus K) p cc d sent tmp cart frm).dev ∧
    ∀ o, (fetch_frame K (memBus K) p cc d sent tmp cart frm).tmp o = 0 := by
  unfold fetch_frame
  simp only [bus_xfer_ok (memBus_ok K), Bool.true_eq_false, if_false]
  obtain ⟨g1, g2⟩ := get_zero hc (toU16 cart) (toU16 frm)
  split
  · obtain ⟨g3, g4⟩ := get_zero g1 (toU16 cart) (toU16 frm)
    refine ⟨g3, hd, ?_⟩
    split
    · rename_i b hb
      exact memcpy_zero ht (g4 b hb) _ _ _
    · exact ht
  · obtain ⟨z1, -⟩ := bus_xfer_zero K hd sent K.CART_OP_LDCART (toU64 cart) 0
      (b := zeroBlock) (fun _ => rfl)
    obtain ⟨z2, z3⟩ := bus_xfer_zero K z1
      (bus_xfer (memBus K) d sent K.CART_OP_LDCART (toU64 cart) 0 zeroBlock).sent
      K.CART_OP_RDFRME 0 (toU64 frm) ht
    refine ⟨?_, z2, memcpy_zero ht z3 _ _ _⟩
    cases p
    · exact g1
    · exact put_zero K g1 _ _ (memcpy_zero ht z3 _ _ _)

theorem writeSplice_zero (K : CartHeader) (P N lf : Nat) {buf : Block} (hb : ∀ o, buf o = 0)
    (i : Nat) (j : Int) (f : cartFile) (cf ct : Int) {tmp : Block} (ht : ∀ o, tmp o = 0) :
    ∀ o, (writeSplice K P N lf buf i j f cf ct tmp).2.2.2.1 o = 0 := by
  unfold writeSplice
  simp only
  split_ifs <;> exact memcpy_zero ht hb _ _ _

theorem writeLoop_zero_data (K : CartHeader) (P N lf : Nat) {buf : Block} (hb : ∀ o, buf o = 0)
    (n : Nat) :
    ∀ (i : Nat) (j : Int) (f : cartFile) (cf ct : Int) (cc : Cache) (dev : Device)
      (sent : List Nat) (tmp : Block),
      ZeroCache cc → ZeroMem dev → (∀ o, tmp o = 0) →
      ZeroCache (writeLoop K (memBus K) P N lf buf n i j f cf ct cc dev sent tmp).cc ∧
      ZeroMem (writeLoop K (memBus K) P N lf buf n i j f cf ct cc dev sent tmp).dev := by
  induction n with
  | zero =>
    intro i j f cf ct cc dev sent tmp hc hd _
    rw [writeLoop_zero]
    exact ⟨hc, hd⟩
  | succ n ih =>
    intro i j f cf ct cc dev sent tmp hc hd ht
    rw [writeLoop_step K (memBus_ok K)]
    obtain ⟨f1, f2, f3⟩ := fetch_zero K false hc hd sent ht (f.fCart i) (f.fFrame i)
    have hs := writeSplice_zero K P N lf hb i j f cf ct f3
    obtain ⟨w1, -⟩ := bus_xfer_zero K f2
      (fetch_frame K (memBus K) false cc dev sent tmp (f.fCart i) (f.fFrame i)).sent
      K.CART_OP_WRFRME 0
      (toU64 ((writeSplice K P N lf buf i j f cf ct
        (fetch_frame K (memBus K) false cc dev sent tmp (f.fCart i) (f.fFrame i)).tmp).1.fFrame i))
      hs
    exact ih _ _ _ _ _ _ _ _ _ (put_zero K f1 _ _ hs) w1 hs

/-! ## Power-on, open and the body of `cart_write` -/

theorem zeroLoop_std (K : CartHeader) (n : Nat) :
    ∀ (i : Nat) (d : Device) (sent : List Nat), ZeroMem d →
      (zeroLoop K (memBus K) n i d sent).1 = true ∧
      ZeroMem (zeroLoop K (memBus K) n i d sent).2.1 := by
  induction n with
  | zero =>
    intro i d sent hz
    rw [zeroLoop]
    exact ⟨rfl, hz⟩
  | succ n ih =>
    intro i d sent hz
    rw [zeroLoop]
    simp only [bus_xfer_ok (memBus_ok K), Bool.true_eq_false, if_false]
    obtain ⟨z1, -⟩ := bus_xfer_zero K hz sent K.CART_OP_LDCART i 0 (b := zeroBlock)
      (fun _ => rfl)
    obtain ⟨z2, -⟩ := bus_xfer_zero K z1
      (bus_xfer (memBus K) d sent K.CART_OP_LDCART i 0 zeroBlock).sent K.CART_OP_BZERO 0 0
      (b := zeroBlock) (fun _ => rfl)
    exact ih _ _ _ z2

/-- Power-on against the storing device succeeds; it touches neither the file
table nor the allocator cursor and leaves a freshly initialised cache. -/
theorem cart_poweron_std (K : CartHeader) (s : Driver Device) (hz : ZeroMem s.dev) :
    (cart_poweron K (memBus K) s).2 = 0 ∧
    (cart_poweron K (memBus K) s).1.allFile = s.allFile ∧
    (cart_poweron K (memBus K) s).1.fileCount = s.fileCount ∧
    (cart_poweron K (memBus K) s).1.currentFrame = s.currentFrame ∧
    (cart_poweron K (memBus K) s).1.currentCart = s.currentCart ∧
    (cart_poweron K (memBus K) s).1.cc = init_cart_cache s.cc ∧
    ZeroMem (cart_poweron K (memBus K) s).1.dev := by
  unfold cart_poweron
  simp only [bus_xfer_ok (memBus_ok K), Bool.true_eq_false, if_false]
  obtain ⟨z1, -⟩ := bus_xfer_zero K hz s.sent K.CART_OP_INITMS 0 0 (b := zeroBlock)
    (fun _ => rfl)
  obtain ⟨l1, l2⟩ := zeroLoop_std K K.CART_MAX_CARTRIDGES 0 _
    (bus_xfer (memBus K) s.dev s.sent K.CART_OP_INITMS 0 0 zeroBlock).sent z1
  simp only [l1, Bool.true_eq_false, if_false]
  exact ⟨trivial, trivial, trivial, trivial, trivial, trivial, l2⟩

/-- Opening a name that is not in the file table. -/
theorem cart_open_new {D : Type} (s : Driver D) (path : String)
    (h : firstIdx (fun i => decide ((s.allFile i).fName = path)) s.fileCount = none) :
    cart_open s path
      = ({ s with
            allFile := setAt s.allFile s.fileCount
              ({ s.allFile s.fileCount with
                fName := path, fHandle := s.fileCount, fLength := 0, pos := 0, isOpen := 1 })
            fileCount := s.fileCount + 1
            currentFrame := if s.currentFrame + 1 = 1024 then 0 else s.currentFrame + 1
            currentCart := if s.currentFrame + 1 = 1024 then s.currentCart + 1
              else s.currentCart },
          (s.fileCount : Int)) := by
  unfold cart_open
  simp only [h]

/-- The body of `cart_write` once the argument checks have passed. -/
theorem cart_write_eq {D : Type} (K : CartHeader) (bus : BusFn D) (s : Driver D) (fd : Int)
    (buf : Block) (count : Int)
    (h1 : ¬ (fd > (s.fileCount : Int) ∨ fd < 0)) (h2 : (s.allFile fd.toNat).isOpen ≠ 0)
    (h3 : ¬ count < 0) {P N lf n pf : Nat} {f0 : cartFile} {r : WriteRes D}
    (hP : (s.allFile fd.toNat).pos = P) (hN : count.toNat = N)
    (hlf : (s.allFile fd.toNat).fLength / K.CART_FRAME_SIZE = lf)
    (hn : (P + N) / K.CART_FRAME_SIZE + 1 - P / K.CART_FRAME_SIZE = n)
    (hpf : P / K.CART_FRAME_SIZE = pf)
    (hf0 : (if (s.allFile fd.toNat).pos = 0 ∧ (s.allFile fd.toNat).fLength = 0 then
        { s.allFile fd.toNat with
          fFrame := setAt (s.allFile fd.toNat).fFrame 0 s.currentFrame,
          fCart := setAt (s.allFile fd.toNat).fCart 0 s.currentCart }
      else s.allFile fd.toNat) = f0)
    (hr : writeLoop K bus P N lf buf n pf 0 f0 s.currentFrame s.currentCart s.cc s.dev s.sent
      zeroBlock = r) :
    cart_write K bus s fd buf count
      = ({ s with
            allFile := setAt s.allFile fd.toNat r.f
            currentFrame := r.currentFrame, currentCart := r.currentCart
            cc := r.cc, dev := r.dev, sent := r.sent }, r.ret) := by
  subst hP hN hlf hn hpf hf0 hr
  unfold cart_write
  simp only [if_neg h1, if_neg h2, if_neg h3]

/-! ## What a whole `cart_write` does to the state -/

/-- What a `cart_write` that passes the argument checks leaves alone. -/
theorem cart_write_frame {D : Type} (K : CartHeader) (bus : BusFn D) (s : Driver D) (fd : Int)
    (buf : Block) (count : Int)
    (h1 : ¬ (fd > (s.fileCount : Int) ∨ fd < 0)) (h2 : (s.allFile fd.toNat).isOpen ≠ 0)
    (h3 : ¬ count < 0) :
    (cart_write K bus s fd buf count).1.fileCount = s.fileCount ∧
    (∀ k, k ≠ fd.toNat → (cart_write K bus s fd buf count).1.allFile k = s.allFile k) ∧
    ((cart_write K bus s fd buf count).1.allFile fd.toNat).fName = (s.allFile fd.toNat).fName ∧
    ((cart_write K bus s fd buf count).1.allFile fd.toNat).isOpen
      = (s.allFile fd.toNat).isOpen ∧
    (0 ≤ s.currentFrame → 0 ≤ (cart_write K bus s fd buf count).1.currentFrame) ∧
    (CacheInv s.cc → CacheInv (cart_write K bus s fd buf count).1.cc) ∧
    (cart_write K bus s fd buf count).1.cc.cacheSize = s.cc.cacheSize := by
  rw [cart_write_eq K bus s fd buf count h1 h2 h3 rfl rfl rfl rfl rfl rfl rfl]
  obtain ⟨k1, k2, -, k4, k5, k6⟩ := writeLoop_keeps K bus (s.allFile fd.toNat).pos count.toNat
    ((s.allFile fd.toNat).fLength / K.CART_FRAME_SIZE) buf
    (((s.allFile fd.toNat).pos + count.toNat) / K.CART_FRAME_SIZE + 1
      - (s.allFile fd.toNat).pos / K.CART_FRAME_SIZE)
    ((s.allFile fd.toNat).pos / K.CART_FRAME_SIZE) 0
    (if (s.allFile fd.toNat).pos = 0 ∧ (s.allFile fd.toNat).fLength = 0 then
        { s.allFile fd.toNat with
          fFrame := setAt (s.allFile fd.toNat).fFrame 0 s.currentFrame,
          fCart := setAt (s.allFile fd.toNat).fCart 0 s.currentCart }
      else s.allFile fd.toNat)
    s.currentFrame s.currentCart s.cc s.dev s.sent zeroBlock
  refine ⟨rfl, fun k hk => setAt_other _ _ _ _ hk, ?_, ?_, k4, k5, k6⟩
  · show (setAt s.allFile fd.toNat _ fd.toNat).fName = _
    rw [setAt_same, k1]
    split <;> rfl
  · show (setAt s.allFile fd.toNat _ fd.toNat).isOpen = _
    rw [setAt_same, k2]
    split <;> rfl

/-- The allocator cursor after a successful `cart_write`: it has advanced by
the number of frames the file has gained. -/
theorem cart_write_cursor {D : Type} (K : CartHeader) (bus : BusFn D) (s : Driver D) (fd : Int)
    (buf : Block) (count : Int) (hFS : 0 < K.CART_FRAME_SIZE) (hb : BusOk bus)
    (h1 : ¬ (fd > (s.fileCount : Int) ∨ fd < 0)) (h2 : (s.allFile fd.toNat).isOpen ≠ 0)
    (h3 : ¬ count < 0) (hpos : (s.allFile fd.toNat).pos ≤ (s.allFile fd.toNat).fLength)
    (hcf1 : -1 ≤ s.currentFrame) (hcf2 : s.currentFrame < 1024) :
    (cart_write K bus s fd buf count).1.currentCart * 1024
        + (cart_write K bus s fd buf count).1.currentFrame
      = s.currentCart * 1024 + s.currentFrame
        + ((((s.allFile fd.toNat).pos + count.toNat) / K.CART_FRAME_SIZE
            - (s.allFile fd.toNat).fLength / K.CART_FRAME_SIZE : Nat) : Int) ∧
    -1 ≤ (cart_write K bus s fd buf count).1.currentFrame ∧
    (cart_write K bus s fd buf count).1.currentFrame < 1024 := by
  obtain ⟨e1, e2⟩ := write_entry_fields s (s.allFile fd.toNat)
  rw [cart_write_eq K bus s fd buf count h1 h2 h3 rfl rfl rfl rfl rfl rfl rfl]
  generalize hf0 : (if (s.allFile fd.toNat).pos = 0 ∧ (s.allFile fd.toNat).fLength = 0 then
        { s.allFile fd.toNat with
          fFrame := setAt (s.allFile fd.toNat).fFrame 0 s.currentFrame,
          fCart := setAt (s.allFile fd.toNat).fCart 0 s.currentCart }
      else s.allFile fd.toNat) = f0 at e1 e2
  rw [← e1, ← e2]
  obtain ⟨-, -, -, r4⟩ := writeLoop_all K hb hFS count.toNat buf f0 s.currentFrame
    s.currentCart s.cc s.dev s.sent zeroBlock (by omega)
  exact r4 hcf1 hcf2

/-- A `cart_write` of zero bytes keeps a device and a cache that hold only
zero bytes that way. -/
theorem cart_write_zero_data (K : CartHeader) (s : Driver Device) (fd : Int) {buf : Block}
    (count : Int) (hbuf : ∀ o, buf o = 0)
    (h1 : ¬ (fd > (s.fileCount : Int) ∨ fd < 0)) (h2 : (s.allFile fd.toNat).isOpen ≠ 0)
    (h3 : ¬ count < 0) (hc : ZeroCache s.cc) (hd : ZeroMem s.dev) :
    ZeroCache (cart_write K (memBus K) s fd buf count).1.cc ∧
    ZeroMem (cart_write K (memBus K) s fd buf count).1.dev := by
  rw [cart_write_eq K (memBus K) s fd buf count h1 h2 h3 rfl rfl rfl rfl rfl rfl rfl]
  exact writeLoop_zero_data K _ _ _ hbuf _ _ _ _ _ _ _ _ _ _ hc hd (fun _ => rfl)

/-! ## The scenario that reaches the second cartridge -/

theorem fresh_poweron (s : Driver Device)
    (h1 : s.allFile = (initDriver 1 blankDevice : Driver Device).allFile)
    (h2 : s.fileCount = 0) (h3 : s.currentFrame = -1) (h4 : s.currentCart = 0)
    (h5 : s.cc.cacheSize = 1) (hz : ZeroMem s.dev) :
    Fresh (cart_poweron stdHeader (memBus stdHeader) s).1 := by
  obtain ⟨-, a2, a3, a4, a5, a6, a7⟩ := cart_poweron_std stdHeader s hz
  refine ⟨a2.trans h1, a3.trans h2, a4.trans h3, a5.trans h4, ?_, ?_, ?_, a7⟩
  · rw [a6]; exact CacheInv_init _
  · rw [a6]; exact h5
  · rw [a6]
    intro i o
    unfold init_cart_cache
    simp only
    split <;> rfl

theorem oneFile_open (s : Driver Device) (h : Fresh s) : OneFile (cart_open s "a").1 := by
  obtain ⟨a1, a2, a3, a4, a5, a6, a7, a8⟩ := h
  have hnone : firstIdx (fun i => decide ((s.allFile i).fName = "a")) s.fileCount = none := by
    rw [a2]; rfl
  rw [cart_open_new s "a" hnone]
  unfold OneFile
  simp only [a2, a3, a4, setAt_same]
  refine ⟨trivial, trivial, trivial, trivial, trivial, ?_, by decide, by decide, a5, a6, a7, a8⟩
  rw [setAt_other _ _ _ _ (by decide), a1]

theorem cartFull_write (s : Driver Device) (h : OneFile s) :
    CartFull (cart_write stdHeader (memBus stdHeader) s 0 zeroBlock 1047552).1 := by
  obtain ⟨b1, b2, b3, b4, b5, b6, b7, b8, p5, p6, p7, p8⟩ := h
  have e0 : (0 : Int).toNat = 0 := rfl
  have eN : (1047552 : Int).toNat = 1047552 := rfl
  have eFS : stdHeader.CART_FRAME_SIZE = 1024 := rfl
  have h1 : ¬ ((0 : Int) > (s.fileCount : Int) ∨ (0 : Int) < 0) := by
    rw [b1]; decide
  have h2 : (s.allFile (0 : Int).toNat).isOpen ≠ 0 := by
    rw [e0, b3]; decide
  have h3 : ¬ (1047552 : Int) < 0 := by decide
  obtain ⟨c1, c2, c3, -, c5, c6, c7⟩ := cart_write_frame stdHeader (memBus stdHeader)
    s 0 zeroBlock 1047552 h1 h2 h3
  obtain ⟨d1, d2, d3⟩ := cart_write_cursor stdHeader (memBus stdHeader)
    s 0 zeroBlock 1047552 (by decide) (memBus_ok stdHeader) h1 h2 h3
    (by rw [e0, b4, b5])
    (by rw [b7]; decide) (by rw [b7]; decide)
  obtain ⟨e1, e2⟩ := @cart_write_zero_data stdHeader s 0 zeroBlock 1047552 (fun _ => rfl)
    h1 h2 h3 p7 p8
  have hnn := c5 (by rw [b7])
  have hq : ((s.allFile (0 : Int).toNat).pos + (1047552 : Int).toNat)
      / stdHeader.CART_FRAME_SIZE
      - (s.allFile (0 : Int).toNat).fLength / stdHeader.CART_FRAME_SIZE
      = 1023 := by
    rw [e0, eN, eFS, b4, b5]
  rw [hq, b7, b8] at d1
  have hcur : (cart_write stdHeader (memBus stdHeader) s 0 zeroBlock 1047552).1.currentFrame
        = 1023 ∧
      (cart_write stdHeader (memBus stdHeader) s 0 zeroBlock 1047552).1.currentCart
        = 0 := by
    generalize (cart_write stdHeader (memBus stdHeader) s 0 zeroBlock
      1047552).1.currentFrame = cf at d1 d2 d3 hnn
    generalize (cart_write stdHeader (memBus stdHeader) s 0 zeroBlock
      1047552).1.currentCart = ct at d1
    omega
  refine ⟨c1.trans b1, ?_, ?_, hcur.1, hcur.2, c6 p5, c7.trans p6, e1, e2⟩
  · rw [e0] at c3; exact c3.trans b2
  · rw [c2 1 (by decide)]; exact b6

theorem twoFiles_open (s : Driver Device) (h : CartFull s) : TwoFiles (cart_open s "b").1 := by
  obtain ⟨a1, a2, a3, a4, a5, a6, a7, a8, a9⟩ := h
  have hnone : firstIdx (fun i => decide ((s.allFile i).fName = "b")) s.fileCount = none := by
    rw [a1, firstIdx_none]
    intro j hj
    have : j = 0 := by omega
    subst this
    rw [a2]
    decide
  rw [cart_open_new s "b" hnone]
  unfold TwoFiles
  simp only [a1, a4, a5, setAt_same, a3]
  exact ⟨trivial, trivial, trivial, trivial, rfl, rfl, by decide, by decide, a6, a7, a8, a9⟩

/-- The write of 1025 bytes 7 to the second file: the second frame of the file
is recorded as cartridge 1, frame 1 and cached under that key, while the
device memory of cartridge 1, frame 1 still holds zero bytes. -/
theorem sevens_write (s : Driver Device) (h : TwoFiles s) :
    ∃ r : WriteRes Device,
      cart_write stdHeader (memBus stdHeader) s 1 sevens 1025
        = ({ s with
              allFile := setAt s.allFile 1 r.f
              currentFrame := r.currentFrame, currentCart := r.currentCart
              cc := r.cc, dev := r.dev, sent := r.sent }, r.ret) ∧
      r.ret = 1025 ∧ r.f.fLength = 1025 ∧ r.f.isOpen = 1 ∧
      r.f.fCart 0 = 1 ∧ r.f.fFrame 0 = 0 ∧ r.f.fCart 1 = 1 ∧ r.f.fFrame 1 = 1 ∧
      CacheInv r.cc ∧ r.cc.cacheSize = 1 ∧ r.cc.current = 1 ∧
      (r.cc.cache 0).memCart = 1 ∧ (r.cc.cache 0).memFrm = 1 ∧
      (r.cc.cache 0).memContent 0 = 7 ∧ r.dev.mem 1 1 0 = 0 := by
  obtain ⟨a1, a2, a3, a4, a5, a6, a7, a8, a9, a10, -, a12⟩ := h
  have e1 : (1 : Int).toNat = 1 := rfl
  have eN : (1025 : Int).toNat = 1025 := rfl
  have eFS : stdHeader.CART_FRAME_SIZE = 1024 := rfl
  have h1 : ¬ ((1 : Int) > (s.fileCount : Int) ∨ (1 : Int) < 0) := by
    rw [a1]; decide
  have h2 : (s.allFile (1 : Int).toNat).isOpen ≠ 0 := by
    rw [e1, a2]; decide
  have h3 : ¬ (1025 : Int) < 0 := by decide
  obtain ⟨r, hr, r1, -, r3, r4, r5, r6, r7, r8, r9, r10, r11, r12, r13, r14, r15⟩ :=
    writeLoop_two_frames sevens
      { s.allFile 1 with
        fFrame := setAt (s.allFile 1).fFrame 0 s.currentFrame
        fCart := setAt (s.allFile 1).fCart 0 s.currentCart }
      s.cc s.dev s.sent zeroBlock
      (by show setAt (s.allFile 1).fCart 0 s.currentCart 0 = 1
          rw [setAt_same]; exact a8)
      (by show setAt (s.allFile 1).fFrame 0 s.currentFrame 0 = 0
          rw [setAt_same]; exact a7)
      (by show setAt (s.allFile 1).fCart 0 s.currentCart 1 = 0
          rw [setAt_other _ _ _ _ (by decide)]; exact a5)
      (by show setAt (s.allFile 1).fFrame 0 s.currentFrame 1 = 0
          rw [setAt_other _ _ _ _ (by decide)]; exact a6)
      a9 a10
  refine ⟨r, ?_, r1, r3, r4.trans a2, r5, r6, r7, r8, r9, r10, r11, r12, r13, r14, ?_⟩
  · have hw := cart_write_eq stdHeader (memBus stdHeader) s 1 sevens 1025 h1 h2 h3
      (P := 0) (N := 1025) (n := 2) (r := r)
      (by rw [e1]; exact a3) eN (by rw [e1, a4, eFS]) (by rw [eFS]) (by rw [eFS]) rfl
      (by rw [e1, a3, a4, a7, a8, if_pos ⟨rfl, rfl⟩]
          rw [a7, a8] at hr
          exact hr)
    rw [e1] at hw
    exact hw
  · rw [r15]; exact a12 1 1 0

/-- A `cart_seek` that passes the argument checks. -/
theorem cart_seek_eq {D : Type} (s : Driver D) (fd : Int) (loc : Nat)
    (h1 : ¬ (fd > (s.fileCount : Int) ∨ fd < 0))
    (h2 : ¬ loc > (s.allFile fd.toNat).fLength) (h3 : (s.allFile fd.toNat).isOpen ≠ 0) :
    cart_seek s fd loc
      = ({ s with
            allFile := setAt s.allFile fd.toNat { s.allFile fd.toNat with pos := loc } }, 0) := by
  unfold cart_seek
  simp only [if_neg h1, if_neg h2, if_neg h3]

/-- The body of `cart_read` once the argument checks have passed. -/
theorem cart_read_eq {D : Type} (K : CartHeader) (bus : BusFn D) (s : Driver D) (fd : Int)
    (buf : Block) (count : Int)
    (h1 : ¬ (fd > (s.fileCount : Int) ∨ fd < 0)) (h2 : (s.allFile fd.toNat).isOpen ≠ 0)
    (h3 : ¬ count < 0) {P N n p : Nat} {f : cartFile} {r : ReadRes D}
    (hf : s.allFile fd.toNat = f) (hP : f.pos = P) (hN : count.toNat = N)
    (hn : f.fLength / K.CART_FRAME_SIZE + 1 - P / K.CART_FRAME_SIZE = n)
    (hp : P / K.CART_FRAME_SIZE = p)
    (hr : readLoop K bus f P N n p 0 P s.cc s.dev s.sent zeroBlock buf = r) :
    cart_read K bus s fd buf count
      = ({ s with
            allFile := setAt s.allFile fd.toNat { f with pos := r.pos }
            cc := r.cc, dev := r.dev, sent := r.sent }, r.buf, r.ret) := by
  subst hf hP hN hn hp hr
  unfold cart_read
  simp only [if_neg h1, if_neg h2, if_neg h3]

/-- Seek to 0 and read 1025 bytes from a file of two frames bound to cartridge
1, frames 0 and 1, when the cache of capacity 1 holds the second frame: the
byte returned at offset 1024 is the one the device stores. -/
theorem seek_read_two_frames (t : Driver Device) (buf : Block)
    (h1 : t.fileCount = 2) (h2 : (t.allFile 1).isOpen = 1) (h3 : (t.allFile 1).fLength = 1025)
    (hc0 : (t.allFile 1).fCart 0 = 1) (hf0 : (t.allFile 1).fFrame 0 = 0)
    (hc1 : (t.allFile 1).fCart 1 = 1) (hf1 : (t.allFile 1).fFrame 1 = 1)
    (hinv : CacheInv t.cc) (hsz : t.cc.cacheSize = 1) (hcur : t.cc.current = 1)
    (hk : (t.cc.cache 0).memFrm = 1) :
    (cart_seek t 1 0).2 = 0 ∧
    (cart_read stdHeader (memBus stdHeader) (cart_seek t 1 0).1 1 buf 1025).2.2 = 1025 ∧
    (cart_read stdHeader (memBus stdHeader) (cart_seek t 1 0).1 1 buf 1025).2.1 1024
      = t.dev.mem 1 1 0 := by
  have e1 : (1 : Int).toNat = 1 := rfl
  have eN : (1025 : Int).toNat = 1025 := rfl
  have eFS : stdHeader.CART_FRAME_SIZE = 1024 := rfl
  have g1 : ¬ ((1 : Int) > (t.fileCount : Int) ∨ (1 : Int) < 0) := by
    rw [h1]; decide
  have g2 : (t.allFile (1 : Int).toNat).isOpen ≠ 0 := by
    rw [e1, h2]; decide
  have hs := cart_seek_eq t 1 0 g1 (Nat.not_lt_zero _) g2
  rw [e1] at hs
  rw [hs]
  obtain ⟨r, hr, r1, r2⟩ := readLoop_two_frames { t.allFile 1 with pos := 0 } t.cc t.dev t.sent
    zeroBlock buf h3 hc0 hf0 hc1 hf1 hinv hsz hcur hk
  have hrd := cart_read_eq stdHeader (memBus stdHeader)
    ({ t with allFile := setAt t.allFile 1 { t.allFile 1 with pos := 0 } } : Driver Device)
    1 buf 1025 (by show ¬ ((1 : Int) > (t.fileCount : Int) ∨ (1 : Int) < 0); exact g1)
    (by show (setAt t.allFile 1 { t.allFile 1 with pos := 0 } (1 : Int).toNat).isOpen ≠ 0
        rw [e1, setAt_same]; show (t.allFile 1).isOpen ≠ 0; rw [h2]; decide)
    (by decide) (P := 0) (N := 1025) (n := 2) (p := 0) (f := { t.allFile 1 with pos := 0 }) (r := r)
    (by show setAt t.allFile 1 { t.allFile 1 with pos := 0 } (1 : Int).toNat = _
        rw [e1, setAt_same])
    rfl eN
    (by show (t.allFile 1).fLength / stdHeader.CART_FRAME_SIZE + 1
          - 0 / stdHeader.CART_FRAME_SIZE = 2
        rw [h3, eFS])
    (by rw [eFS]) hr
  rw [hrd]
  exact ⟨rfl, r1, r2⟩

/-- Write 1025 bytes 7 to the second file, seek back and read them: the calls
return 1025, 0 and 1025, and the byte read at offset 1024 is 0. -/
theorem sevens_round_trip (s : Driver Device) (h : TwoFiles s) (buf : Block) :
    (cart_write stdHeader (memBus stdHeader) s 1 sevens 1025).2 = 1025 ∧
    (cart_seek (cart_write stdHeader (memBus stdHeader) s 1 sevens 1025).1 1 0).2 = 0 ∧
    (cart_read stdHeader (memBus stdHeader)
      (cart_seek (cart_write stdHeader (memBus stdHeader) s 1 sevens 1025).1 1 0).1
      1 buf 1025).2.2 = 1025 ∧
    (cart_read stdHeader (memBus stdHeader)
      (cart_seek (cart_write stdHeader (memBus stdHeader) s 1 sevens 1025).1 1 0).1
      1 buf 1025).2.1 1024 = 0 := by
  obtain ⟨r, hw, r1, r2, r3, r4, r5, r6, r7, r8, r9, r10, -, r12, -, r14⟩ := sevens_write s h
  obtain ⟨b1, b2, b3⟩ := seek_read_two_frames
    (cart_write stdHeader (memBus stdHeader) s 1 sevens 1025).1 buf
    (by rw [hw]; exact h.1)
    (by rw [hw]; show (setAt s.allFile 1 r.f 1).isOpen = 1; rw [setAt_same]; exact r3)
    (by rw [hw]; show (setAt s.allFile 1 r.f 1).fLength = 1025; rw [setAt_same]; exact r2)
    (by rw [hw]; show (setAt s.allFile 1 r.f 1).fCart 0 = 1; rw [setAt_same]; exact r4)
    (by rw [hw]; show (setAt s.allFile 1 r.f 1).fFrame 0 = 0; rw [setAt_same]; exact r5)
    (by rw [hw]; show (setAt s.allFile 1 r.f 1).fCart 1 = 1; rw [setAt_same]; exact r6)
    (by rw [hw]; show (setAt s.allFile 1 r.f 1).fFrame 1 = 1; rw [setAt_same]; exact r7)
    (by rw [hw]; exact r8) (by rw [hw]; exact r9) (by rw [hw]; exact r10)
    (by rw [hw]; exact r12)
  refine ⟨by rw [hw]; exact r1, b1, b2, b3.trans ?_⟩
  rw [hw]
  exact r14

/-- After the write of 1025 bytes 7 to the second file, the cache slot with
key (1, 1) differs from what the device stores for cartridge 1, frame 1. -/
theorem sevens_cache_differs (s : Driver Device) (h : TwoFiles s) :
    ((cart_write stdHeader (memBus stdHeader) s 1 sevens 1025).1.cc.cache 0).memCart = 1 ∧
    ((cart_write stdHeader (memBus stdHeader) s 1 sevens 1025).1.cc.cache 0).memFrm = 1 ∧
    ((cart_write stdHeader (memBus stdHeader) s 1 sevens 1025).1.cc.cache 0).memContent 0 = 7 ∧
    (cart_write stdHeader (memBus stdHeader) s 1 sevens 1025).1.dev.mem 1 1 0 = 0 ∧
    ¬ CacheConsistent stdHeader (cart_write stdHeader (memBus stdHeader) s 1 sevens 1025).1 := by
  obtain ⟨r, hw, -, -, -, -, -, -, -, -, r9, -, r11, r12, r13, r14⟩ := sevens_write s h
  rw [hw]
  refine ⟨r11, r12, r13, r14, ?_⟩
  intro hcon
  have hk : holdsKey (r.cc.cache 0) := Or.inl (by rw [r11]; decide)
  have := hcon 0 (by show 0 < r.cc.cacheSize; rw [r9]; decide) hk 0 (by decide)
  have e1 : (1 : Int).toNat = 1 := rfl
  have hd : (r.cc.cache 0).memContent 0 = r.dev.mem 1 1 0 := by
    have h2 : (r.cc.cache 0).memContent 0
        = r.dev.mem (r.cc.cache 0).memCart.toNat (r.cc.cache 0).memFrm.toNat 0 := this
    rw [r11, r12, e1] at h2
    exact h2
  rw [r13, r14] at hd
  exact absurd hd (by decide)

/-! ## The claims that the code does not meet -/

/-- Claim C1 (read/write round trip) fails once a file has frames in
cartridge 1. Cache capacity 1, storing device: power on, open "a", write
1023 * 1024 zero bytes to it (this takes the frames of cartridge 0 up to frame
1023), open "b" (the allocator cursor moves to cartridge 1, frame 0). File "b"
is open with position 0 and length 0, and the device answers every request
with the status flag clear. Then `cart_write` of 1025 bytes 7 returns 1025,
`cart_seek` to 0 returns 0 and `cart_read` of 1025 bytes returns 1025, but the
byte read at offset 1024 is 0 and not the 7 that was written: the second frame
of the file was sent to the device while cartridge 0 was loaded. -/
theorem round_trip_lost_across_cartridges :
    ∃ s0 s1 s2 s3 s4 s5 : Driver Device,
      s0 = (cart_poweron stdHeader (memBus stdHeader) (initDriver 1 blankDevice)).1 ∧
      s1 = (cart_open s0 "a").1 ∧
      s2 = (cart_write stdHeader (memBus stdHeader) s1 0 zeroBlock 1047552).1 ∧
      s3 = (cart_open s2 "b").1 ∧
      s4 = (cart_write stdHeader (memBus stdHeader) s3 1 sevens 1025).1 ∧
      s5 = (cart_seek s4 1 0).1 ∧
      Reach stdHeader 1 s3 ∧ BusOk (memBus stdHeader) ∧
      (s3.allFile 1).isOpen = 1 ∧ (s3.allFile 1).pos = 0 ∧ (s3.allFile 1).fLength = 0 ∧
      (cart_write stdHeader (memBus stdHeader) s3 1 sevens 1025).2 = 1025 ∧
      (cart_seek s4 1 0).2 = 0 ∧
      (cart_read stdHeader (memBus stdHeader) s5 1 zeroBlock 1025).2.2 = 1025 ∧
      (cart_read stdHeader (memBus stdHeader) s5 1 zeroBlock 1025).2.1 1024 = 0 ∧
      sevens 1024 = 7 := by
  have h3 := twoFiles_open _ (cartFull_write _ (oneFile_open _
    (fresh_poweron (initDriver 1 blankDevice) rfl rfl rfl rfl rfl (fun _ _ _ => rfl))))
  have h := sevens_round_trip _ h3 zeroBlock
  exact ⟨_, _, _, _, _, _, rfl, rfl, rfl, rfl, rfl, rfl,
    Reach.open _ (Reach.write _ _ _ (Reach.open _ Reach.poweron)), memBus_ok stdHeader,
    h3.2.1, h3.2.2.1, h3.2.2.2.1, h.1, h.2.1, h.2.2.1, h.2.2.2, rfl⟩

/-- Claim C5 (allocation never reuses a frame) fails for two files that are
opened before either is written. Power on, open "a", open "b", write one byte
7 to "a", write one byte 9 to "b": the state is reachable, both files have
length 1, and slot 0 of both frame maps is the physical pair (cartridge 0,
frame 1). Reading the byte of "a" back (seek 0, read 1) returns 1 byte, and it
is the 9 written to "b". -/
theorem first_frames_collide :
    ∃ s0 s1 s2 s3 s4 : Driver Device,
      s0 = (cart_poweron stdHeader (memBus stdHeader) (initDriver 1 blankDevice)).1 ∧
      s1 = (cart_open s0 "a").1 ∧
      s2 = (cart_open s1 "b").1 ∧
      s3 = (cart_write stdHeader (memBus stdHeader) s2 0 sevens 1).1 ∧
      s4 = (cart_write stdHeader (memBus stdHeader) s3 1 nines 1).1 ∧
      Reach stdHeader 1 s4 ∧
      (s4.allFile 0).fLength = 1 ∧ (s4.allFile 1).fLength = 1 ∧
      (s4.allFile 0).fCart 0 = 0 ∧ (s4.allFile 0).fFrame 0 = 1 ∧
      (s4.allFile 1).fCart 0 = 0 ∧ (s4.allFile 1).fFrame 0 = 1 ∧
      (cart_read stdHeader (memBus stdHeader) (cart_seek s4 0 0).1 0 zeroBlock 1).2.2 = 1 ∧
      (cart_read stdHeader (memBus stdHeader) (cart_seek s4 0 0).1 0 zeroBlock 1).2.1 0 = 9 := by
  refine ⟨_, _, _, _, _, rfl, rfl, rfl, rfl, rfl,
    Reach.write _ _ _ (Reach.write _ _ _ (Reach.open _ (Reach.open _ Reach.poweron))), ?_⟩
  decide!

/-- Claim C6 (cache/device consistency) fails in a reachable state. Cache
capacity 1, storing device: power on, open "a", write 1023 * 1024 zero bytes
to it, open "b", write 1025 bytes 7 to "b". In the state reached, cache slot 0
holds the key (cartridge 1, frame 1) and its first byte is 7, while the device
stores 0 in the first byte of cartridge 1, frame 1. -/
theorem cache_diverges_from_device :
    ∃ s0 s1 s2 s3 s4 : Driver Device,
      s0 = (cart_poweron stdHeader (memBus stdHeader) (initDriver 1 blankDevice)).1 ∧
      s1 = (cart_open s0 "a").1 ∧
      s2 = (cart_write stdHeader (memBus stdHeader) s1 0 zeroBlock 1047552).1 ∧
      s3 = (cart_open s2 "b").1 ∧
      s4 = (cart_write stdHeader (memBus stdHeader) s3 1 sevens 1025).1 ∧
      Reach stdHeader 1 s4 ∧
      (s4.cc.cache 0).memCart = 1 ∧ (s4.cc.cache 0).memFrm = 1 ∧
      (s4.cc.cache 0).memContent 0 = 7 ∧
      s4.dev.mem 1 1 0 = 0 ∧
      ¬ CacheConsistent stdHeader s4 := by
  refine ⟨_, _, _, _, _, rfl, rfl, rfl, rfl, rfl,
    Reach.write _ _ _ (Reach.open _ (Reach.write _ _ _ (Reach.open _ Reach.poweron))), ?_⟩
  exact sevens_cache_differs _ (twoFiles_open _ (cartFull_write _ (oneFile_open _
    (fresh_poweron _ rfl rfl rfl rfl rfl (fun _ _ _ => rfl)))))

/-! ## The theorems at concrete inputs -/

theorem unitTestCache_reach : CacheReach stdHeader 50 unitTestCache :=
  CacheReach.get 0 1 (CacheReach.put 0 1 nines (CacheReach.get 0 0 (CacheReach.put 0 0 sevens
    (CacheReach.init _ rfl))))

theorem put_then_get_returns_block_witness :
    1 ≤ 50 ∧ CacheReach stdHeader 50 unitTestCache ∧
    ∃ r, (get_cart_cache (put_cart_cache stdHeader unitTestCache 0 1 zeroBlock) 0 1).2 = some r ∧
      ∀ k, k < stdHeader.CART_FRAME_SIZE → r k = zeroBlock k :=
  ⟨by decide, unitTestCache_reach,
    put_then_get_returns_block stdHeader 50 (by decide) unitTestCache unitTestCache_reach 0 1
      zeroBlock⟩

theorem cache_capacity_bound_witness :
    1 ≤ 50 ∧ CacheReach stdHeader 50 unitTestCache ∧
    (unitTestCache.current ≤ 50 ∧ keyCount unitTestCache ≤ 50 ∧
      keyCount unitTestCache = unitTestCache.current) :=
  ⟨by decide, unitTestCache_reach,
    cache_capacity_bound stdHeader 50 (by decide) unitTestCache unitTestCache_reach⟩

theorem cache_keys_unique_witness :
    CacheReach stdHeader 50 unitTestCache ∧
    0 < unitTestCache.cacheSize ∧ 1 < unitTestCache.cacheSize ∧ 0 ≠ 1 ∧
    holdsKey (unitTestCache.cache 0) ∧ holdsKey (unitTestCache.cache 1) ∧
    ¬ ((unitTestCache.cache 0).memCart = (unitTestCache.cache 1).memCart ∧
        (unitTestCache.cache 0).memFrm = (unitTestCache.cache 1).memFrm) :=
  ⟨unitTestCache_reach, by decide, by decide, by decide, by decide, by decide,
    cache_keys_unique stdHeader 50 unitTestCache unitTestCache_reach 0 1 (by decide) (by decide)
      (by decide) (by decide) (by decide)⟩

theorem evicts_first_inserted_witness :
    1 ≤ 2 ∧
    (set_cart_cache_size (initDriver 0 blankDevice : Driver Device).cc 2).1.cacheSize = 2 ∧
    (∀ i j : Nat, i ≤ 2 → j ≤ 2 → ((0, i) : Nat × Nat) = (0, j) → i = j) ∧
    ((get_cart_cache
        (putMany stdHeader
          (init_cart_cache (set_cart_cache_size (initDriver 0 blankDevice : Driver Device).cc 2).1)
          (fun i => (0, i)) (fun i _ => i) (2 + 1)) 0 0).2 = none ∧
      ∀ i, 1 ≤ i → i ≤ 2 →
        ∃ r, (get_cart_cache
            (putMany stdHeader
              (init_cart_cache
                (set_cart_cache_size (initDriver 0 blankDevice : Driver Device).cc 2).1)
              (fun i => (0, i)) (fun i _ => i) (2 + 1)) 0 i).2 = some r ∧
          ∀ k, k < stdHeader.CART_FRAME_SIZE → r k = i) :=
  ⟨by decide, rfl, fun _ _ _ _ h => (Prod.mk.inj h).2,
    evicts_first_inserted stdHeader 2 (by decide)
      (set_cart_cache_size (initDriver 0 blankDevice : Driver Device).cc 2).1 rfl
      (fun i => (0, i)) (fun i _ => i) (fun _ _ _ _ h => (Prod.mk.inj h).2)⟩

theorem cart_seek_cc {D : Type} (s : Driver D) (fd : Int) (loc : Nat) :
    (cart_seek s fd loc).1.cc = s.cc := by
  unfold cart_seek
  split
  · rfl
  · split
    · rfl
    · split <;> rfl

theorem opened_oneFile : OneFile opened :=
  oneFile_open _ (fresh_poweron _ rfl rfl rfl rfl rfl (fun _ _ _ => rfl))

theorem written_cache : CacheInv written.cc ∧ 1 ≤ written.cc.cacheSize := by
  obtain ⟨-, -, -, -, -, -, -, -, h9, h10, -, -⟩ := opened_oneFile
  obtain ⟨-, -, -, -, -, c6, c7⟩ := cart_write_frame stdHeader (memBus stdHeader) opened 0 sevens
    1024 (by decide) (by decide) (by decide)
  have e : written.cc = (cart_write stdHeader (memBus stdHeader) opened 0 sevens 1024).1.cc :=
    cart_seek_cc _ 0 10
  rw [e, c7, h10]
  exact ⟨c6 h9, Nat.le_refl 1⟩

theorem partial_write_preserves_neighbours_witness :
    (0 < stdHeader.CART_FRAME_SIZE ∧ BusOk (memBus stdHeader) ∧
      CacheInv written.cc ∧ 1 ≤ written.cc.cacheSize ∧
      (0 : Int) ≤ 0 ∧ (0 : Int) < written.fileCount ∧
      (written.allFile (0 : Int).toNat).isOpen ≠ 0 ∧ (0 : Int) ≤ 5 ∧
      stdHeader.CART_FRAME_SIZE * (0 + 1) ≤ (written.allFile (0 : Int).toNat).fLength ∧
      stdHeader.CART_FRAME_SIZE * 0 ≤ (written.allFile (0 : Int).toNat).pos ∧
      (written.allFile (0 : Int).toNat).pos + (5 : Int).toNat
        < stdHeader.CART_FRAME_SIZE * (0 + 1)) ∧
    ((readFrame stdHeader (memBus stdHeader) written 0 0 zeroBlock).2.2
        = (stdHeader.CART_FRAME_SIZE : Int) ∧
      (cart_write stdHeader (memBus stdHeader) written 0 nines 5).2 = 5 ∧
      (readFrame stdHeader (memBus stdHeader)
          (cart_write stdHeader (memBus stdHeader) written 0 nines 5).1 0 0 zeroBlock).2.2
        = (stdHeader.CART_FRAME_SIZE : Int) ∧
      ∀ o, o < stdHeader.CART_FRAME_SIZE →
        (readFrame stdHeader (memBus stdHeader)
            (cart_write stdHeader (memBus stdHeader) written 0 nines 5).1 0 0 zeroBlock).2.1 o
          = if (written.allFile (0 : Int).toNat).pos - stdHeader.CART_FRAME_SIZE * 0 ≤ o
                ∧ o < (written.allFile (0 : Int).toNat).pos - stdHeader.CART_FRAME_SIZE * 0
                    + (5 : Int).toNat
            then nines (o - ((written.allFile (0 : Int).toNat).pos
                  - stdHeader.CART_FRAME_SIZE * 0))
            else (readFrame stdHeader (memBus stdHeader) written 0 0 zeroBlock).2.1 o) :=
  ⟨⟨by decide, memBus_ok stdHeader, written_cache.1, written_cache.2, by decide, by decide,
      by decide, by decide, by decide, by decide, by decide⟩,
    partial_write_preserves_neighbours stdHeader (memBus stdHeader) written 0 0 nines 5
      zeroBlock zeroBlock (by decide) (memBus_ok stdHeader) written_cache.1 written_cache.2
      (by decide) (by decide) (by decide) (by decide) (by decide) (by decide) (by decide)⟩

/-! ## One cache call at a time -/

/-- The slot found by the search for the least recently used slot has the
greatest age among the slots `0..n`, and every slot before it is strictly
younger. -/
theorem maxIndex_greatest (slots : Nat → elem) (n : Nat) :
    (∀ i, i ≤ n → (slots i).time ≤ (slots (maxIndex slots n)).time) ∧
    (∀ i, i < maxIndex slots n → (slots i).time < (slots (maxIndex slots n)).time) := by
  induction n with
  | zero =>
    refine ⟨fun i hi => ?_, fun i hi => ?_⟩
    · have : i = 0 := by omega
      subst this
      exact Nat.le_refl _
    · exact absurd hi (by simp [maxIndex])
  | succ n ih =>
    obtain ⟨h1, h2⟩ := ih
    have hle := maxIndex_le slots n
    rw [maxIndex]
    split
    · rename_i hlt
      refine ⟨fun i hi => ?_, fun i hi => ?_⟩
      · rcases Nat.lt_or_ge i (n + 1) with h | h
        · have := h1 i (by omega)
          omega
        · have : i = n + 1 := by omega
          subst this
          exact Nat.le_refl _
      · have := h1 i (by omega)
        omega
    · rename_i hlt
      refine ⟨fun i hi => ?_, h2⟩
      rcases Nat.lt_or_ge i (n + 1) with h | h
      · exact h1 i (by omega)
      · have : i = n + 1 := by omega
        subst this
        omega

/-- Claim C11 (insert of an absent key): in a cache state reachable from
`init_cart_cache` with capacity `C ≥ 1`, take a key that no allocated slot
holds. `put_cart_cache` keeps the capacity and adds one to the age of every
occupied slot. If the occupancy `current` is below the capacity, the key and
the bytes go into the slot with index `current`, that slot has age zero and
the occupancy grows by one. If the occupancy equals the capacity, the slot `m`
that is overwritten has the greatest age of all slots and every slot before it
is strictly younger (so `m` is the lowest index among the slots of greatest
age); it gets the key, the bytes and age zero, and the occupancy stays. In
both cases every other slot keeps its key and its bytes. -/
theorem put_absent_key (K : CartHeader) (C : Nat) (hC : 1 ≤ C) (c : Cache)
    (hc : CacheReach K C c) (cart frm : Nat) (buf : Block)
    (habs : ∀ i, i < c.cacheSize →
      ¬ ((c.cache i).memCart = (cart : Int) ∧ (c.cache i).memFrm = (frm : Int))) :
    (put_cart_cache K c cart frm buf).cacheSize = c.cacheSize ∧
    (c.current < c.cacheSize →
      (put_cart_cache K c cart frm buf).current = c.current + 1 ∧
      ((put_cart_cache K c cart frm buf).cache c.current).memCart = (cart : Int) ∧
      ((put_cart_cache K c cart frm buf).cache c.current).memFrm = (frm : Int) ∧
      ((put_cart_cache K c cart frm buf).cache c.current).time = 0 ∧
      (∀ k, k < K.CART_FRAME_SIZE →
        ((put_cart_cache K c cart frm buf).cache c.current).memContent k = buf k) ∧
      ∀ i, i ≠ c.current →
        ((put_cart_cache K c cart frm buf).cache i).memCart = (c.cache i).memCart ∧
        ((put_cart_cache K c cart frm buf).cache i).memFrm = (c.cache i).memFrm ∧
        ((put_cart_cache K c cart frm buf).cache i).memContent = (c.cache i).memContent ∧
        ((put_cart_cache K c cart frm buf).cache i).time
          = if i < c.current then (c.cache i).time + 1 else (c.cache i).time) ∧
    (c.current = c.cacheSize →
      ∃ m, m < c.cacheSize ∧
        (∀ i, i < c.cacheSize → (c.cache i).time ≤ (c.cache m).time) ∧
        (∀ i, i < m → (c.cache i).time < (c.cache m).time) ∧
        (put_cart_cache K c cart frm buf).current = c.current ∧
        ((put_cart_cache K c cart frm buf).cache m).memCart = (cart : Int) ∧
        ((put_cart_cache K c cart frm buf).cache m).memFrm = (frm : Int) ∧
        ((put_cart_cache K c cart frm buf).cache m).time = 0 ∧
        (∀ k, k < K.CART_FRAME_SIZE →
          ((put_cart_cache K c cart frm buf).cache m).memContent k = buf k) ∧
        ∀ i, i ≠ m →
          ((put_cart_cache K c cart frm buf).cache i).memCart = (c.cache i).memCart ∧
          ((put_cart_cache K c cart frm buf).cache i).memFrm = (c.cache i).memFrm ∧
          ((put_cart_cache K c cart frm buf).cache i).memContent = (c.cache i).memContent ∧
          ((put_cart_cache K c cart frm buf).cache i).time
            = if i < c.current then (c.cache i).time + 1 else (c.cache i).time) := by
  obtain ⟨hinv, hsz⟩ := CacheReach_inv hc
  have hnone : firstIdx (keyMatch (ageAll c) cart frm) c.cacheSize = none := by
    rw [keyMatch_ageAll, firstIdx_none]
    intro j hj
    exact (keyMatch_false_iff _ _ _ _).mpr (habs j hj)
  refine ⟨put_cacheSize K c cart frm buf, fun hlt => ?_, fun heq => ?_⟩
  · have hne : ¬ c.current = c.cacheSize := by omega
    have hput : put_cart_cache K c cart frm buf
        = { c with
            cache := setAt (ageAll c) c.current
              { ageAll c c.current with
                memCart := cart, memFrm := frm,
                memContent := memcpy (ageAll c c.current).memContent 0 buf 0 K.CART_FRAME_SIZE }
            current := c.current + 1 } := by
      unfold put_cart_cache
      simp only [hnone, if_neg hne]
    rw [hput]
    refine ⟨rfl, ?_, ?_, ?_, ?_, ?_⟩
    · show (setAt (ageAll c) c.current _ c.current).memCart = _
      rw [setAt_same]
    · show (setAt (ageAll c) c.current _ c.current).memFrm = _
      rw [setAt_same]
    · show (setAt (ageAll c) c.current _ c.current).time = _
      rw [setAt_same]
      show (ageAll c c.current).time = 0
      rw [ageAll_time, if_neg (Nat.lt_irrefl _)]
      exact (hinv.empty_hi c.current (Nat.le_refl _) hlt).2.2
    · intro k hk
      show (setAt (ageAll c) c.current _ c.current).memContent k = _
      rw [setAt_same]
      exact memcpy_whole _ _ _ _ hk
    · intro i hi
      show (setAt (ageAll c) c.current _ i).memCart = _ ∧ (setAt (ageAll c) c.current _ i).memFrm = _
        ∧ (setAt (ageAll c) c.current _ i).memContent = _
        ∧ (setAt (ageAll c) c.current _ i).time = _
      rw [setAt_other _ _ _ _ hi]
      exact ⟨ageAll_memCart c i, ageAll_memFrm c i, ageAll_memContent c i, ageAll_time c i⟩
  · have hput : put_cart_cache K c cart frm buf
        = { c with
            cache := setAt (ageAll c) (maxIndex (ageAll c) (c.cacheSize - 1))
              { memCart := cart, memFrm := frm, time := 0,
                memContent := memcpy (ageAll c (maxIndex (ageAll c) (c.cacheSize - 1))).memContent
                  0 buf 0 K.CART_FRAME_SIZE } } := by
      unfold put_cart_cache
      simp only [hnone, if_pos heq]
    obtain ⟨g1, g2⟩ := maxIndex_greatest (ageAll c) (c.cacheSize - 1)
    have hm := maxIndex_le (ageAll c) (c.cacheSize - 1)
    generalize maxIndex (ageAll c) (c.cacheSize - 1) = m at hput g1 g2 hm
    have hmlt : m < c.cacheSize := by omega
    have hage : ∀ i, i < c.cacheSize → (ageAll c i).time = (c.cache i).time + 1 := by
      intro i hi
      rw [ageAll_time, if_pos (by omega)]
    rw [hput]
    refine ⟨m, hmlt, ?_, ?_, rfl, ?_, ?_, ?_, ?_, ?_⟩
    · intro i hi
      have := g1 i (by omega)
      rw [hage i hi, hage m hmlt] at this
      omega
    · intro i hi
      have := g2 i hi
      rw [hage i (by omega), hage m hmlt] at this
      omega
    · show (setAt (ageAll c) m _ m).memCart = _
      rw [setAt_same]
    · show (setAt (ageAll c) m _ m).memFrm = _
      rw [setAt_same]
    · show (setAt (ageAll c) m _ m).time = _
      rw [setAt_same]
    · intro k hk
      show (setAt (ageAll c) m _ m).memContent k = _
      rw [setAt_same]
      exact memcpy_whole _ _ _ _ hk
    · intro i hi
      show (setAt (ageAll c) m _ i).memCart = _ ∧ (setAt (ageAll c) m _ i).memFrm = _
        ∧ (setAt (ageAll c) m _ i).memContent = _
        ∧ (setAt (ageAll c) m _ i).time = _
      rw [setAt_other _ _ _ _ hi]
      exact ⟨ageAll_memCart c i, ageAll_memFrm c i, ageAll_memContent c i, ageAll_time c i⟩

/-- Claim C12 (lookup aging): `get_cart_cache` changes neither the occupancy
nor the capacity nor the key or the bytes of any slot. On a hit (`p` is the
first occupied slot that holds the key) the bytes of slot `p` are returned,
the age of slot `p` is zero afterwards and the age of every other occupied
slot has grown by one. On a miss (no occupied slot holds the key) nothing is
returned and the age of every occupied slot has grown by one. The age of the
slots that are not occupied does not change. -/
theorem get_ages_every_slot (c : Cache) (cart frm : Nat) :
    (get_cart_cache c cart frm).1.current = c.current ∧
    (get_cart_cache c cart frm).1.cacheSize = c.cacheSize ∧
    (∀ i, ((get_cart_cache c cart frm).1.cache i).memCart = (c.cache i).memCart ∧
      ((get_cart_cache c cart frm).1.cache i).memFrm = (c.cache i).memFrm ∧
      ((get_cart_cache c cart frm).1.cache i).memContent = (c.cache i).memContent) ∧
    (∀ p, p < c.current →
      ((c.cache p).memCart = (cart : Int) ∧ (c.cache p).memFrm = (frm : Int)) →
      (∀ j, j < p → ¬ ((c.cache j).memCart = (cart : Int) ∧ (c.cache j).memFrm = (frm : Int))) →
      (get_cart_cache c cart frm).2 = some (c.cache p).memContent ∧
      ((get_cart_cache c cart frm).1.cache p).time = 0 ∧
      ∀ i, i ≠ p →
        ((get_cart_cache c cart frm).1.cache i).time
          = if i < c.current then (c.cache i).time + 1 else (c.cache i).time) ∧
    ((∀ j, j < c.current →
        ¬ ((c.cache j).memCart = (cart : Int) ∧ (c.cache j).memFrm = (frm : Int))) →
      (get_cart_cache c cart frm).2 = none ∧
      ∀ i, ((get_cart_cache c cart frm).1.cache i).time
          = if i < c.current then (c.cache i).time + 1 else (c.cache i).time) := by
  refine ⟨get_current c cart frm, get_cacheSize c cart frm, ?_, ?_, ?_⟩
  · intro i
    unfold get_cart_cache
    simp only
    split
    · rename_i p hp
      show (setAt (ageAll c) p _ i).memCart = _ ∧ (setAt (ageAll c) p _ i).memFrm = _
        ∧ (setAt (ageAll c) p _ i).memContent = _
      by_cases hip : i = p
      · subst hip
        rw [setAt_same]
        exact ⟨ageAll_memCart c i, ageAll_memFrm c i, ageAll_memContent c i⟩
      · rw [setAt_other _ _ _ _ hip]
        exact ⟨ageAll_memCart c i, ageAll_memFrm c i, ageAll_memContent c i⟩
    · exact ⟨ageAll_memCart c i, ageAll_memFrm c i, ageAll_memContent c i⟩
  · intro p hp hm hl
    have hsome : firstIdx (keyMatch (ageAll c) cart frm) c.current = some p := by
      rw [keyMatch_ageAll]
      exact firstIdx_of_least hp ((keyMatch_iff _ _ _ _).mpr hm)
        (fun j hj => (keyMatch_false_iff _ _ _ _).mpr (hl j hj))
    have hget : get_cart_cache c cart frm
        = ({ c with cache := setAt (ageAll c) p { ageAll c p with time := 0 } },
            some (ageAll c p).memContent) := by
      unfold get_cart_cache
      simp only [hsome]
    rw [hget]
    refine ⟨by rw [ageAll_memContent], ?_, ?_⟩
    · show (setAt (ageAll c) p _ p).time = 0
      rw [setAt_same]
    · intro i hi
      show (setAt (ageAll c) p _ i).time = _
      rw [setAt_other _ _ _ _ hi, ageAll_time]
  · intro hl
    have hnone : firstIdx (keyMatch (ageAll c) cart frm) c.current = none := by
      rw [keyMatch_ageAll, firstIdx_none]
      exact fun j hj => (keyMatch_false_iff _ _ _ _).mpr (hl j hj)
    have hget : get_cart_cache c cart frm = ({ c with cache := ageAll c }, none) := by
      unfold get_cart_cache
      simp only [hnone]
    rw [hget]
    exact ⟨rfl, fun i => ageAll_time c i⟩

/-! ## Cache configuration and the register codec -/

/-- Claim C13 (cache configure validation) is not met by the code:
`set_cart_cache_size(0)` returns 0, not -1, and records the capacity 0. After
`init_cart_cache` no slot is allocated (`cacheSize = 0`, `current = 0`), and
the first `put_cart_cache` takes the branch of the full cache
(`current == cacheSize`) and stores the key and the block into slot 0, which
is not an allocated slot. -/
theorem set_cart_cache_size_accepts_zero :
    (set_cart_cache_size (initDriver 50 blankDevice : Driver Device).cc 0).2 = 0 ∧
    (set_cart_cache_size (initDriver 50 blankDevice : Driver Device).cc 0).2 ≠ -1 ∧
    (set_cart_cache_size (initDriver 50 blankDevice : Driver Device).cc 0).1.cacheSize = 0 ∧
    (init_cart_cache
      (set_cart_cache_size (initDriver 50 blankDevice : Driver Device).cc 0).1).cacheSize = 0 ∧
    (init_cart_cache
      (set_cart_cache_size (initDriver 50 blankDevice : Driver Device).cc 0).1).current = 0 ∧
    ((put_cart_cache stdHeader
        (init_cart_cache
          (set_cart_cache_size (initDriver 50 blankDevice : Driver Device).cc 0).1)
        0 0 sevens).cache 0).memCart = 0 ∧
    ((put_cart_cache stdHeader
        (init_cart_cache
          (set_cart_cache_size (initDriver 50 blankDevice : Driver Device).cc 0).1)
        0 0 sevens).cache 0).memFrm = 0 ∧
    ((put_cart_cache stdHeader
        (init_cart_cache
          (set_cart_cache_size (initDriver 50 blankDevice : Driver Device).cc 0).1)
        0 0 sevens).cache 0).memContent 0 = 7 := by
  decide

/-- Claim C14 (codec round trip): for every primary opcode and secondary
opcode in [0, 255], status in {0, 1}, cartridge and frame in [0, 65535],
`extract_cart_opcode` applied to the register built by `create_cart_opcode`
returns 0 and yields exactly these five values. -/
theorem codec_round_trip (k1 k2 rt ct fm : Nat) (h1 : k1 ≤ 255) (h2 : k2 ≤ 255) (h3 : rt ≤ 1)
    (h4 : ct ≤ 65535) (h5 : fm ≤ 65535) :
    extract_cart_opcode (create_cart_opcode k1 k2 rt ct fm)
      = (0, { ky1 := k1, ky2 := k2, rt1 := rt, ct1 := ct, fm1 := fm }) := by
  have h := extract_create k1 k2 rt ct fm
  rw [Nat.mod_eq_of_lt (by omega : k1 < 256), Nat.mod_eq_of_lt (by omega : k2 < 256),
    Nat.mod_eq_of_lt (by omega : rt < 2), Nat.mod_eq_of_lt (by omega : ct < 65536),
    Nat.mod_eq_of_lt (by omega : fm < 65536)] at h
  exact Prod.ext rfl h

/-- Claim C15 (codec bit layout and truncation): for all inputs,
`create_cart_opcode(k1, k2, rt, ct, fm)` is
`(k1 mod 2^8) * 2^56 + (k2 mod 2^8) * 2^48 + (rt mod 2) * 2^47
+ (ct mod 2^16) * 2^31 + (fm mod 2^16) * 2^15`. It is a 64-bit value whose
bits 63..56 are the primary opcode, bits 55..48 the secondary opcode, bit 47
the status flag, bits 46..31 the cartridge, bits 30..15 the frame, and whose
15 low bits are zero; values out of range are truncated to the width of their
field. -/
theorem codec_bit_layout (k1 k2 rt ct fm : Nat) :
    create_cart_opcode k1 k2 rt ct fm
      = (k1 % 2 ^ 8) * 2 ^ 56 + (k2 % 2 ^ 8) * 2 ^ 48 + (rt % 2) * 2 ^ 47
        + (ct % 2 ^ 16) * 2 ^ 31 + (fm % 2 ^ 16) * 2 ^ 15 ∧
    create_cart_opcode k1 k2 rt ct fm < 2 ^ 64 ∧
    create_cart_opcode k1 k2 rt ct fm / 2 ^ 56 = k1 % 2 ^ 8 ∧
    create_cart_opcode k1 k2 rt ct fm / 2 ^ 48 % 2 ^ 8 = k2 % 2 ^ 8 ∧
    create_cart_opcode k1 k2 rt ct fm / 2 ^ 47 % 2 = rt % 2 ∧
    create_cart_opcode k1 k2 rt ct fm / 2 ^ 31 % 2 ^ 16 = ct % 2 ^ 16 ∧
    create_cart_opcode k1 k2 rt ct fm / 2 ^ 15 % 2 ^ 16 = fm % 2 ^ 16 ∧
    create_cart_opcode k1 k2 rt ct fm % 2 ^ 15 = 0 := by
  rw [create_eq_sum]
  have b1 := Nat.mod_lt k1 (show 0 < 256 by decide)
  have b2 := Nat.mod_lt k2 (show 0 < 256 by decide)
  have b3 := Nat.mod_lt rt (show 0 < 2 by decide)
  have b4 := Nat.mod_lt ct (show 0 < 65536 by decide)
  have b5 := Nat.mod_lt fm (show 0 < 65536 by decide)
  have p8 : (2 : Nat) ^ 8 = 256 := by decide
  have p16 : (2 : Nat) ^ 16 = 65536 := by decide
  rw [p8, p16]
  generalize k1 % 256 = a at *
  generalize k2 % 256 = b at *
  generalize rt % 2 = c at *
  generalize ct % 65536 = d at *
  generalize fm % 65536 = e at *
  refine ⟨rfl, ?_, ?_, ?_, ?_, ?_, ?_, ?_⟩ <;> omega

/-- Claim C16 fails as stated: the 64-bit register 1 decodes to five zero
fields, and encoding them again gives 0, not 1. -/
theorem register_round_trip_drops_low_bits :
    (1 : Nat) < 2 ^ 64 ∧
    create_cart_opcode (extract_cart_opcode 1).2.ky1 (extract_cart_opcode 1).2.ky2
      (extract_cart_opcode 1).2.rt1 (extract_cart_opcode 1).2.ct1 (extract_cart_opcode 1).2.fm1
      ≠ 1 := by
  decide

/-- Claim C16, amended (register round trip up to the unused bits): for every
64-bit register `r`, decoding `r` with `extract_cart_opcode` and encoding the
five fields again with `create_cart_opcode` gives `r` with its 15 low bits
cleared; so it reproduces `r` exactly when the 15 low bits of `r` are zero. -/
theorem register_round_trip_clears_low_bits (r : Nat) (hr : r < 2 ^ 64) :
    create_cart_opcode (extract_cart_opcode r).2.ky1 (extract_cart_opcode r).2.ky2
      (extract_cart_opcode r).2.rt1 (extract_cart_opcode r).2.ct1 (extract_cart_opcode r).2.fm1
      = r - r % 2 ^ 15 ∧
    (r % 2 ^ 15 = 0 →
      create_cart_opcode (extract_cart_opcode r).2.ky1 (extract_cart_opcode r).2.ky2
        (extract_cart_opcode r).2.rt1 (extract_cart_opcode r).2.ct1 (extract_cart_opcode r).2.fm1
        = r) := by
  have e1 : ∀ x, x &&& 0xff = x % 256 := fun x => Nat.and_pow_two_sub_one_eq_mod x 8
  have e3 : ∀ x, x &&& 1 = x % 2 := fun x => Nat.and_pow_two_sub_one_eq_mod x 1
  have e4 : ∀ x, x &&& 0xffff = x % 65536 := fun x => Nat.and_pow_two_sub_one_eq_mod x 16
  have key : create_cart_opcode (extract_cart_opcode r).2.ky1 (extract_cart_opcode r).2.ky2
      (extract_cart_opcode r).2.rt1 (extract_cart_opcode r).2.ct1 (extract_cart_opcode r).2.fm1
      = r - r % 2 ^ 15 := by
    rw [create_eq_sum]
    unfold extract_cart_opcode
    simp only [e1, e3, e4, Nat.shiftRight_eq_div_pow, Nat.mod_mod]
    omega
  exact ⟨key, fun h => by rw [key, h]; rfl⟩

/-! ## The file table -/

theorem TableInv_of_same {D : Type} {s t : Driver D} (h : SameFiles s t) (hs : TableInv s) :
    TableInv t := by
  obtain ⟨h0, h1⟩ := h
  refine ⟨fun i hi => ?_, fun i hi => ?_, fun i j hi hj he => ?_, fun i => ?_⟩
  · rw [(h1 i).2.2]; exact hs.free i (by omega)
  · rw [(h1 i).2.1]; exact hs.handle i (by omega)
  · rw [(h1 i).1, (h1 j).1] at he
    exact hs.names i j (by omega) (by omega) he
  · rw [(h1 i).2.2]; exact hs.flag i

theorem sameFiles_refl {D : Type} (s : Driver D) : SameFiles s s :=
  ⟨rfl, fun _ => ⟨rfl, rfl, rfl⟩⟩

/-- Replacing one entry by one with the same name, handle and open flag. -/
theorem sameFiles_setAt {D : Type} (s t : Driver D) (k : Nat) (f : cartFile)
    (h0 : t.fileCount = s.fileCount) (ht : t.allFile = setAt s.allFile k f)
    (h1 : f.fName = (s.allFile k).fName) (h2 : f.fHandle = (s.allFile k).fHandle)
    (h3 : f.isOpen = (s.allFile k).isOpen) : SameFiles s t := by
  refine ⟨h0, fun i => ?_⟩
  rw [ht]
  by_cases hik : i = k
  · subst hik
    rw [setAt_same]
    exact ⟨h1, h2, h3⟩
  · rw [setAt_other _ _ _ _ hik]
    exact ⟨rfl, rfl, rfl⟩

theorem sameFiles_poweron {D : Type} (K : CartHeader) (bus : BusFn D) (s : Driver D) :
    SameFiles s (cart_poweron K bus s).1 := by
  unfold cart_poweron
  simp only
  split
  · exact sameFiles_refl s
  · split <;> exact sameFiles_refl s

theorem sameFiles_seek {D : Type} (s : Driver D) (fd : Int) (loc : Nat) :
    SameFiles s (cart_seek s fd loc).1 := by
  unfold cart_seek
  split
  · exact sameFiles_refl s
  · split
    · exact sameFiles_refl s
    · split
      · exact sameFiles_refl s
      · exact sameFiles_setAt s _ fd.toNat _ rfl rfl rfl rfl rfl

theorem sameFiles_read {D : Type} (K : CartHeader) (bus : BusFn D) (s : Driver D) (fd : Int)
    (buf : Block) (count : Int) : SameFiles s (cart_read K bus s fd buf count).1 := by
  unfold cart_read
  split
  · exact sameFiles_refl s
  · split
    · exact sameFiles_refl s
    · split
      · exact sameFiles_refl s
      · exact sameFiles_setAt s _ fd.toNat _ rfl rfl rfl rfl rfl

theorem sameFiles_write {D : Type} (K : CartHeader) (bus : BusFn D) (s : Driver D) (fd : Int)
    (buf : Block) (count : Int) : SameFiles s (cart_write K bus s fd buf count).1 := by
  by_cases h1 : fd > (s.fileCount : Int) ∨ fd < 0
  · have : cart_write K bus s fd buf count = (s, -1) := by
      unfold cart_write
      rw [if_pos h1]
    rw [this]
    exact sameFiles_refl s
  · by_cases h2 : (s.allFile fd.toNat).isOpen = 0
    · have : cart_write K bus s fd buf count = (s, -1) := by
        unfold cart_write
        rw [if_neg h1, if_pos h2]
      rw [this]
      exact sameFiles_refl s
    · by_cases h3 : count < 0
      · have : cart_write K bus s fd buf count = (s, -1) := by
          unfold cart_write
          rw [if_neg h1, if_neg h2, if_pos h3]
        rw [this]
        exact sameFiles_refl s
      · rw [cart_write_eq K bus s fd buf count h1 h2 h3 rfl rfl rfl rfl rfl rfl rfl]
        obtain ⟨k1, k2, k3, -⟩ := writeLoop_keeps K bus (s.allFile fd.toNat).pos count.toNat
          ((s.allFile fd.toNat).fLength / K.CART_FRAME_SIZE) buf
          (((s.allFile fd.toNat).pos + count.toNat) / K.CART_FRAME_SIZE + 1
            - (s.allFile fd.toNat).pos / K.CART_FRAME_SIZE)
          ((s.allFile fd.toNat).pos / K.CART_FRAME_SIZE) 0
          (if (s.allFile fd.toNat).pos = 0 ∧ (s.allFile fd.toNat).fLength = 0 then
              { s.allFile fd.toNat with
                fFrame := setAt (s.allFile fd.toNat).fFrame 0 s.currentFrame,
                fCart := setAt (s.allFile fd.toNat).fCart 0 s.currentCart }
            else s.allFile fd.toNat)
          s.currentFrame s.currentCart s.cc s.dev s.sent zeroBlock
        refine sameFiles_setAt s _ fd.toNat _ rfl rfl ?_ ?_ ?_
        · rw [k1]; split <;> rfl
        · rw [k3]; split <;> rfl
        · rw [k2]; split <;> rfl

theorem TableInv_close {D : Type} (s : Driver D) (fd : Int) (hs : TableInv s) :
    TableInv (cart_close s fd).1 := by
  unfold cart_close
  split
  · exact hs
  · split
    · exact hs
    · refine ⟨fun i hi => ?_, fun i hi => ?_, fun i j hi hj he => ?_, fun i => ?_⟩
      · show (setAt s.allFile fd.toNat _ i).isOpen = 0
        by_cases hik : i = fd.toNat
        · subst hik; rw [setAt_same]
        · rw [setAt_other _ _ _ _ hik]; exact hs.free i hi
      · show (setAt s.allFile fd.toNat _ i).fHandle = _
        by_cases hik : i = fd.toNat
        · subst hik; rw [setAt_same]; exact hs.handle _ hi
        · rw [setAt_other _ _ _ _ hik]; exact hs.handle i hi
      · have hn : ∀ k, (setAt s.allFile fd.toNat
            { s.allFile fd.toNat with isOpen := 0 } k).fName = (s.allFile k).fName := by
          intro k
          by_cases hik : k = fd.toNat
          · subst hik; rw [setAt_same]
          · rw [setAt_other _ _ _ _ hik]
        have he' : (setAt s.allFile fd.toNat { s.allFile fd.toNat with isOpen := 0 } i).fName
            = (setAt s.allFile fd.toNat { s.allFile fd.toNat with isOpen := 0 } j).fName := he
        rw [hn i, hn j] at he'
        exact hs.names i j hi hj he'
      · show (setAt s.allFile fd.toNat _ i).isOpen = 0 ∨ (setAt s.allFile fd.toNat _ i).isOpen = 1
        by_cases hik : i = fd.toNat
        · subst hik; rw [setAt_same]; exact Or.inl rfl
        · rw [setAt_other _ _ _ _ hik]; exact hs.flag i

/-- Opening a name that is in the file table: the first entry with the name
decides. -/
theorem cart_open_known {D : Type} (s : Driver D) (path : String) {i : Nat}
    (h : firstIdx (fun k => decide ((s.allFile k).fName = path)) s.fileCount = some i) :
    cart_open s path
      = if (s.allFile i).isOpen = 1 then (s, -1)
        else ({ s with allFile := setAt s.allFile i { s.allFile i with pos := 0, isOpen := 1 } },
          (s.allFile i).fHandle) := by
  unfold cart_open
  simp only [h]

theorem TableInv_open {D : Type} (s : Driver D) (path : String) (hs : TableInv s) :
    TableInv (cart_open s path).1 := by
  cases hf : firstIdx (fun k => decide ((s.allFile k).fName = path)) s.fileCount with
  | some i =>
    rw [cart_open_known s path hf]
    obtain ⟨hi, -, -⟩ := firstIdx_some hf
    split
    · exact hs
    · refine ⟨fun k hk => ?_, fun k hk => ?_, fun k j hk hj he => ?_, fun k => ?_⟩
      · have hk' : s.fileCount ≤ k := hk
        show (setAt s.allFile i _ k).isOpen = 0
        rw [setAt_other _ _ _ _ (by omega)]
        exact hs.free k hk'
      · have hk' : k < s.fileCount := hk
        show (setAt s.allFile i _ k).fHandle = _
        by_cases hik : k = i
        · subst hik; rw [setAt_same]; exact hs.handle _ hk'
        · rw [setAt_other _ _ _ _ hik]; exact hs.handle k hk'
      · have hn : ∀ k, (setAt s.allFile i
            { s.allFile i with pos := 0, isOpen := 1 } k).fName = (s.allFile k).fName := by
          intro k
          by_cases hik : k = i
          · subst hik; rw [setAt_same]
          · rw [setAt_other _ _ _ _ hik]
        have he' : (setAt s.allFile i { s.allFile i with pos := 0, isOpen := 1 } k).fName
            = (setAt s.allFile i { s.allFile i with pos := 0, isOpen := 1 } j).fName := he
        rw [hn k, hn j] at he'
        exact hs.names k j hk hj he'
      · show (setAt s.allFile i _ k).isOpen = 0 ∨ (setAt s.allFile i _ k).isOpen = 1
        by_cases hik : k = i
        · subst hik; rw [setAt_same]; exact Or.inr rfl
        · rw [setAt_other _ _ _ _ hik]; exact hs.flag k
  | none =>
    rw [cart_open_new s path hf]
    have hnew := firstIdx_none.mp hf
    have hn : ∀ k, k ≠ s.fileCount →
        setAt s.allFile s.fileCount
          ({ s.allFile s.fileCount with
            fName := path, fHandle := s.fileCount, fLength := 0, pos := 0, isOpen := 1 }) k
        = s.allFile k := fun k hk => setAt_other _ _ _ _ hk
    refine ⟨fun k hk => ?_, fun k hk => ?_, fun k j hk hj he => ?_, fun k => ?_⟩
    · have hk' : s.fileCount + 1 ≤ k := hk
      show (setAt s.allFile s.fileCount _ k).isOpen = 0
      rw [hn k (by omega)]
      exact hs.free k (by omega)
    · have hk' : k < s.fileCount + 1 := hk
      show (setAt s.allFile s.fileCount _ k).fHandle = _
      by_cases hik : k = s.fileCount
      · subst hik; rw [setAt_same]
      · rw [hn k hik]; exact hs.handle k (by omega)
    · have hk' : k < s.fileCount + 1 := hk
      have hj' : j < s.fileCount + 1 := hj
      have he' : (setAt s.allFile s.fileCount
          ({ s.allFile s.fileCount with
            fName := path, fHandle := s.fileCount, fLength := 0, pos := 0, isOpen := 1 }) k).fName
          = (setAt s.allFile s.fileCount
          ({ s.allFile s.fileCount with
            fName := path, fHandle := s.fileCount, fLength := 0, pos := 0, isOpen := 1 })
            j).fName := he
      by_cases hkc : k = s.fileCount
      · by_cases hjc : j = s.fileCount
        · omega
        · rw [hkc, setAt_same, hn j hjc] at he'
          have := hnew j (by omega)
          simp only [decide_eq_false_iff_not] at this
          exact absurd he'.symm this
      · by_cases hjc : j = s.fileCount
        · rw [hjc, setAt_same, hn k hkc] at he'
          have := hnew k (by omega)
          simp only [decide_eq_false_iff_not] at this
          exact absurd he' this
        · rw [hn k hkc, hn j hjc] at he'
          exact hs.names k j (by omega) (by omega) he'
    · show (setAt s.allFile s.fileCount _ k).isOpen = 0 ∨ (setAt s.allFile s.fileCount _ k).isOpen = 1
      by_cases hik : k = s.fileCount
      · subst hik; rw [setAt_same]; exact Or.inr rfl
      · rw [hn k hik]; exact hs.flag k

theorem TableInv_init {D : Type} (C : Nat) (dev : D) : TableInv (initDriver C dev) :=
  ⟨fun _ _ => rfl, fun i hi => absurd hi (Nat.not_lt_zero i),
    fun i _ hi _ _ => absurd hi (Nat.not_lt_zero i), fun _ => Or.inl rfl⟩

/-- Every reachable driver state has a well-formed file table. -/
theorem Reach_table {K : CartHeader} {C : Nat} {s : Driver Device} (h : Reach K C s) :
    TableInv s := by
  induction h with
  | poweron => exact TableInv_of_same (sameFiles_poweron K _ _) (TableInv_init C blankDevice)
  | «open» path _ ih => exact TableInv_open _ path ih
  | close fd _ ih => exact TableInv_close _ fd ih
  | seek fd loc _ ih => exact TableInv_of_same (sameFiles_seek _ fd loc) ih
  | read fd buf count _ ih => exact TableInv_of_same (sameFiles_read K _ _ fd buf count) ih
  | write fd buf count _ ih => exact TableInv_of_same (sameFiles_write K _ _ fd buf count) ih

/-- A handle that passes the range check of the driver functions but is not
below `fileCount` names an entry that is not open. -/
theorem unissued_closed {D : Type} {s : Driver D} (hs : TableInv s) {fd : Int}
    (h1 : ¬ (fd > (s.fileCount : Int) ∨ fd < 0)) (h2 : (s.fileCount : Int) ≤ fd) :
    (s.allFile fd.toNat).isOpen = 0 :=
  hs.free fd.toNat (by omega)

/-- The first entry with the name of entry `i` is entry `i`. -/
theorem firstIdx_name {D : Type} {s : Driver D} (hs : TableInv s) {i : Nat}
    (hi : i < s.fileCount) :
    firstIdx (fun k => decide ((s.allFile k).fName = (s.allFile i).fName)) s.fileCount
      = some i := by
  refine firstIdx_of_least hi (decide_eq_true rfl) (fun j hj => decide_eq_false (fun he => ?_))
  have := hs.names j i (by omega) hi he
  omega

theorem setAt_setAt {α : Type} (a : Nat → α) (i : Nat) (v w : α) :
    setAt (setAt a i v) i w = setAt a i w := by
  funext k
  by_cases hk : k = i
  · subst hk; rw [setAt_same, setAt_same]
  · rw [setAt_other _ _ _ _ hk, setAt_other _ _ _ _ hk, setAt_other _ _ _ _ hk]

/-! ## The theorems on the cache calls, the codec and the handles at concrete inputs -/

theorem opened_reach : Reach stdHeader 1 opened :=
  Reach.open "a" Reach.poweron

theorem written_reach : Reach stdHeader 1 written :=
  Reach.seek 0 10 (Reach.write 0 sevens 1024 opened_reach)

theorem codec_round_trip_witness :
    (1 ≤ 255 ∧ 0 ≤ 255 ∧ 1 ≤ 1 ∧ 65535 ≤ 65535 ∧ 1023 ≤ 65535) ∧
    extract_cart_opcode (create_cart_opcode 1 0 1 65535 1023)
      = (0, { ky1 := 1, ky2 := 0, rt1 := 1, ct1 := 65535, fm1 := 1023 }) :=
  ⟨by decide, codec_round_trip 1 0 1 65535 1023 (by decide) (by decide) (by decide) (by decide)
    (by decide)⟩

theorem register_round_trip_clears_low_bits_witness :
    ((2 ^ 56 + 2 ^ 15 : Nat) < 2 ^ 64) ∧ (2 ^ 56 + 2 ^ 15 : Nat) % 2 ^ 15 = 0 ∧
    create_cart_opcode (extract_cart_opcode (2 ^ 56 + 2 ^ 15)).2.ky1
        (extract_cart_opcode (2 ^ 56 + 2 ^ 15)).2.ky2
        (extract_cart_opcode (2 ^ 56 + 2 ^ 15)).2.rt1
        (extract_cart_opcode (2 ^ 56 + 2 ^ 15)).2.ct1
        (extract_cart_opcode (2 ^ 56 + 2 ^ 15)).2.fm1
      = 2 ^ 56 + 2 ^ 15 :=
  ⟨by decide, by decide,
    (register_round_trip_clears_low_bits (2 ^ 56 + 2 ^ 15) (by decide)).2 (by decide)⟩

theorem fullCache_reach : CacheReach stdHeader 2 fullCache :=
  putMany_reach stdHeader (set_cart_cache_size (initDriver 0 blankDevice : Driver Device).cc 2).1
    (fun i => (0, i)) (fun _ => sevens) 2

theorem put_absent_key_witness :
    ((1 ≤ 50 ∧ CacheReach stdHeader 50 unitTestCache ∧
        (∀ i, i < unitTestCache.cacheSize →
          ¬ ((unitTestCache.cache i).memCart = ((0 : Nat) : Int)
              ∧ (unitTestCache.cache i).memFrm = ((2 : Nat) : Int))) ∧
        unitTestCache.current < unitTestCache.cacheSize) ∧
      ((put_cart_cache stdHeader unitTestCache 0 2 nines).current = unitTestCache.current + 1 ∧
        ((put_cart_cache stdHeader unitTestCache 0 2 nines).cache unitTestCache.current).memCart
          = ((0 : Nat) : Int) ∧
        ((put_cart_cache stdHeader unitTestCache 0 2 nines).cache unitTestCache.current).memFrm
          = ((2 : Nat) : Int) ∧
        ((put_cart_cache stdHeader unitTestCache 0 2 nines).cache unitTestCache.current).time
          = 0)) ∧
    ((1 ≤ 2 ∧ CacheReach stdHeader 2 fullCache ∧
        (∀ i, i < fullCache.cacheSize →
          ¬ ((fullCache.cache i).memCart = ((0 : Nat) : Int)
              ∧ (fullCache.cache i).memFrm = ((2 : Nat) : Int))) ∧
        fullCache.current = fullCache.cacheSize) ∧
      ∃ m, m < fullCache.cacheSize ∧
        (∀ i, i < fullCache.cacheSize → (fullCache.cache i).time ≤ (fullCache.cache m).time) ∧
        (put_cart_cache stdHeader fullCache 0 2 nines).current = fullCache.current ∧
        ((put_cart_cache stdHeader fullCache 0 2 nines).cache m).memCart = ((0 : Nat) : Int) ∧
        ((put_cart_cache stdHeader fullCache 0 2 nines).cache m).memFrm = ((2 : Nat) : Int) ∧
        ((put_cart_cache stdHeader fullCache 0 2 nines).cache m).time = 0) := by
  have h := put_absent_key stdHeader 50 (by decide) unitTestCache unitTestCache_reach 0 2 nines
    (by decide)
  have h1 := h.2.1 (by decide)
  have g := put_absent_key stdHeader 2 (by decide) fullCache fullCache_reach 0 2 nines
    (by decide)
  obtain ⟨m, g1, g2, -, g4, g5, g6, g7, -⟩ := g.2.2 (by decide)
  exact ⟨⟨⟨by decide, unitTestCache_reach, by decide, by decide⟩, h1.1, h1.2.1, h1.2.2.1,
      h1.2.2.2.1⟩,
    ⟨by decide, fullCache_reach, by decide, by decide⟩, m, g1, g2, g4, g5, g6, g7⟩

theorem get_ages_every_slot_witness :
    ((1 < unitTestCache.current ∧
        ((unitTestCache.cache 1).memCart = ((0 : Nat) : Int)
          ∧ (unitTestCache.cache 1).memFrm = ((1 : Nat) : Int)) ∧
        (∀ j, j < 1 →
          ¬ ((unitTestCache.cache j).memCart = ((0 : Nat) : Int)
              ∧ (unitTestCache.cache j).memFrm = ((1 : Nat) : Int)))) ∧
      (get_cart_cache unitTestCache 0 1).2 = some (unitTestCache.cache 1).memContent ∧
      ((get_cart_cache unitTestCache 0 1).1.cache 1).time = 0 ∧
      ((get_cart_cache unitTestCache 0 1).1.cache 0).time
        = (unitTestCache.cache 0).time + 1) ∧
    ((∀ j, j < unitTestCache.current →
        ¬ ((unitTestCache.cache j).memCart = ((5 : Nat) : Int)
            ∧ (unitTestCache.cache j).memFrm = ((5 : Nat) : Int))) ∧
      (get_cart_cache unitTestCache 5 5).2 = none ∧
      ((get_cart_cache unitTestCache 5 5).1.cache 0).time
        = (unitTestCache.cache 0).time + 1) := by
  have h := get_ages_every_slot unitTestCache 0 1
  have h1 := h.2.2.2.1 1 (by decide) (by decide) (by decide)
  have g := (get_ages_every_slot unitTestCache 5 5).2.2.2.2 (by decide)
  have e0 : (if 0 < unitTestCache.current then (unitTestCache.cache 0).time + 1
      else (unitTestCache.cache 0).time) = (unitTestCache.cache 0).time + 1 :=
    if_pos (by decide)
  exact ⟨⟨⟨by decide, by decide, by decide⟩, h1.1, h1.2.1,
      (h1.2.2 0 (by decide)).trans e0⟩,
    by decide, g.1, (g.2 0).trans e0⟩

/-! ## Positions and the allocator cursor -/

/-- What `cart_poweron` leaves alone, whatever the far end answers. -/
theorem cart_poweron_keeps {D : Type} (K : CartHeader) (bus : BusFn D) (s : Driver D) :
    (cart_poweron K bus s).1.allFile = s.allFile ∧
    (cart_poweron K bus s).1.fileCount = s.fileCount ∧
    (cart_poweron K bus s).1.currentFrame = s.currentFrame ∧
    (cart_poweron K bus s).1.currentCart = s.currentCart := by
  unfold cart_poweron
  simp only
  split
  · exact ⟨rfl, rfl, rfl, rfl⟩
  · split <;> exact ⟨rfl, rfl, rfl, rfl⟩

/-- A driver call that is rejected or that only changes one entry of the file
table, for which position and length stay in order, keeps `StateInv` when it
keeps the cursor and the number of files. -/
theorem StateInv_of_entry {D : Type} {s t : Driver D} (hs : StateInv s)
    (h0 : t.fileCount = s.fileCount) (h1 : t.currentFrame = s.currentFrame)
    (h2 : t.currentCart = s.currentCart)
    (h3 : ∀ i, (t.allFile i).pos ≤ (t.allFile i).fLength) : StateInv t :=
  ⟨h3, by rw [h1]; exact hs.frame_lo, by rw [h1]; exact hs.frame_hi,
    by rw [h2]; exact hs.cart_lo, by rw [h0, h1, h2]; exact hs.fresh,
    by rw [h0, h1]; exact hs.started⟩

theorem pos_le_setAt (a : Nat → cartFile) (k : Nat) (f : cartFile)
    (ha : ∀ i, (a i).pos ≤ (a i).fLength) (hf : f.pos ≤ f.fLength) :
    ∀ i, (setAt a k f i).pos ≤ (setAt a k f i).fLength := by
  intro i
  by_cases hik : i = k
  · subst hik; rw [setAt_same]; exact hf
  · rw [setAt_other _ _ _ _ hik]; exact ha i

theorem StateInv_poweron {D : Type} (K : CartHeader) (bus : BusFn D) (s : Driver D)
    (hs : StateInv s) : StateInv (cart_poweron K bus s).1 := by
  obtain ⟨a1, a2, a3, a4⟩ := cart_poweron_keeps K bus s
  exact StateInv_of_entry hs a2 a3 a4 (by rw [a1]; exact hs.pos_le)

theorem StateInv_close {D : Type} (s : Driver D) (fd : Int) (hs : StateInv s) :
    StateInv (cart_close s fd).1 := by
  unfold cart_close
  split
  · exact hs
  · split
    · exact hs
    · exact StateInv_of_entry hs rfl rfl rfl
        (pos_le_setAt _ _ _ hs.pos_le (hs.pos_le fd.toNat))

theorem StateInv_seek {D : Type} (s : Driver D) (fd : Int) (loc : Nat) (hs : StateInv s) :
    StateInv (cart_seek s fd loc).1 := by
  unfold cart_seek
  split
  · exact hs
  · split
    · exact hs
    · rename_i h2
      split
      · exact hs
      · exact StateInv_of_entry hs rfl rfl rfl
          (pos_le_setAt _ _ _ hs.pos_le (Nat.le_of_not_lt h2))

theorem StateInv_read {D : Type} (K : CartHeader) {bus : BusFn D} (hb : BusOk bus)
    (hFS : 0 < K.CART_FRAME_SIZE) (s : Driver D) (fd : Int) (buf : Block) (count : Int)
    (hs : StateInv s) : StateInv (cart_read K bus s fd buf count).1 := by
  by_cases h1 : fd > (s.fileCount : Int) ∨ fd < 0
  · have : cart_read K bus s fd buf count = (s, buf, -1) := by
      unfold cart_read; rw [if_pos h1]
    rw [this]; exact hs
  · by_cases h2 : (s.allFile fd.toNat).isOpen = 0
    · have : cart_read K bus s fd buf count = (s, buf, -1) := by
        unfold cart_read; rw [if_neg h1, if_pos h2]
      rw [this]; exact hs
    · by_cases h3 : count < 0
      · have : cart_read K bus s fd buf count = (s, buf, -1) := by
          unfold cart_read; rw [if_neg h1, if_neg h2, if_pos h3]
        rw [this]; exact hs
      · rw [cart_read_eq K bus s fd buf count h1 h2 h3 rfl rfl rfl rfl rfl rfl]
        obtain ⟨data, hdata⟩ := readLoop_all K hb hFS (s.allFile fd.toNat) count.toNat
          (hs.pos_le fd.toNat) s.cc s.dev s.sent zeroBlock
        obtain ⟨-, d2, -⟩ := hdata buf
        refine StateInv_of_entry hs rfl rfl rfl (pos_le_setAt _ _ _ hs.pos_le ?_)
        show (readLoop K bus _ _ _ _ _ _ _ _ _ _ _ _).pos ≤ (s.allFile fd.toNat).fLength
        rw [d2]
        have := hs.pos_le fd.toNat
        omega

/-- The allocator cursor and the entry written by a `cart_write` that passes
the argument checks. -/
theorem cart_write_state {D : Type} (K : CartHeader) {bus : BusFn D} (hb : BusOk bus)
    (hFS : 0 < K.CART_FRAME_SIZE) (s : Driver D) (fd : Int) (buf : Block) (count : Int)
    (hs : StateInv s)
    (h1 : ¬ (fd > (s.fileCount : Int) ∨ fd < 0)) (h2 : (s.allFile fd.toNat).isOpen ≠ 0)
    (h3 : ¬ count < 0) :
    (cart_write K bus s fd buf count).1.fileCount = s.fileCount ∧
    (∀ i, ((cart_write K bus s fd buf count).1.allFile i).pos
      ≤ ((cart_write K bus s fd buf count).1.allFile i).fLength) ∧
    cursorIndex (cart_write K bus s fd buf count).1
      = cursorIndex s
        + ((((s.allFile fd.toNat).pos + count.toNat) / K.CART_FRAME_SIZE
            - (s.allFile fd.toNat).fLength / K.CART_FRAME_SIZE : Nat) : Int) ∧
    -1 ≤ (cart_write K bus s fd buf count).1.currentFrame ∧
    (cart_write K bus s fd buf count).1.currentFrame < 1024 ∧
    (0 ≤ s.currentFrame → 0 ≤ (cart_write K bus s fd buf count).1.currentFrame) := by
  obtain ⟨c1, -, -, -, c5, -, -⟩ := cart_write_frame K bus s fd buf count h1 h2 h3
  obtain ⟨d1, d2, d3⟩ := cart_write_cursor K bus s fd buf count hFS hb h1 h2 h3
    (hs.pos_le fd.toNat) hs.frame_lo hs.frame_hi
  refine ⟨c1, ?_, d1, d2, d3, c5⟩
  rw [cart_write_eq K bus s fd buf count h1 h2 h3 rfl rfl rfl rfl rfl rfl rfl]
  obtain ⟨e1, e2⟩ := write_entry_fields s (s.allFile fd.toNat)
  refine pos_le_setAt _ _ _ hs.pos_le ?_
  generalize hf0 : (if (s.allFile fd.toNat).pos = 0 ∧ (s.allFile fd.toNat).fLength = 0 then
        { s.allFile fd.toNat with
          fFrame := setAt (s.allFile fd.toNat).fFrame 0 s.currentFrame,
          fCart := setAt (s.allFile fd.toNat).fCart 0 s.currentCart }
      else s.allFile fd.toNat) = f0 at e1 e2
  rw [← e1, ← e2]
  obtain ⟨-, r2, r3, -⟩ := writeLoop_all K hb hFS count.toNat buf f0 s.currentFrame
    s.currentCart s.cc s.dev s.sent zeroBlock
    (by rw [e1, e2]; exact hs.pos_le fd.toNat)
  rw [r2, r3]
  omega

theorem cart_write_rejected {D : Type} (K : CartHeader) (bus : BusFn D) (s : Driver D)
    (fd : Int) (buf : Block) (count : Int)
    (h : (fd > (s.fileCount : Int) ∨ fd < 0) ∨ (s.allFile fd.toNat).isOpen = 0 ∨ count < 0) :
    cart_write K bus s fd buf count = (s, -1) := by
  unfold cart_write
  by_cases h1 : fd > (s.fileCount : Int) ∨ fd < 0
  · rw [if_pos h1]
  · by_cases h2 : (s.allFile fd.toNat).isOpen = 0
    · rw [if_neg h1, if_pos h2]
    · by_cases h3 : count < 0
      · rw [if_neg h1, if_neg h2, if_pos h3]
      · rcases h with h | h | h
        · exact absurd h h1
        · exact absurd h h2
        · exact absurd h h3

theorem StateInv_write {D : Type} (K : CartHeader) {bus : BusFn D} (hb : BusOk bus)
    (hFS : 0 < K.CART_FRAME_SIZE) (s : Driver D) (fd : Int) (buf : Block) (count : Int)
    (ht : TableInv s) (hs : StateInv s) : StateInv (cart_write K bus s fd buf count).1 := by
  by_cases h : (fd > (s.fileCount : Int) ∨ fd < 0) ∨ (s.allFile fd.toNat).isOpen = 0 ∨ count < 0
  · rw [cart_write_rejected K bus s fd buf count h]; exact hs
  · have h1 : ¬ (fd > (s.fileCount : Int) ∨ fd < 0) := fun h' => h (Or.inl h')
    have h2 : (s.allFile fd.toNat).isOpen ≠ 0 := fun h' => h (Or.inr (Or.inl h'))
    have h3 : ¬ count < 0 := fun h' => h (Or.inr (Or.inr h'))
    obtain ⟨w1, w2, w3, w4, w5, w6⟩ := cart_write_state K hb hFS s fd buf count hs h1 h2 h3
    have hcount : 0 < s.fileCount := by
      rcases Nat.lt_or_ge fd.toNat s.fileCount with h' | h'
      · omega
      · exact absurd (ht.free fd.toNat h') h2
    have hcf := hs.started hcount
    have hct := hs.cart_lo
    unfold cursorIndex at w3
    refine ⟨w2, w4, w5, ?_, ?_, fun _ => w6 hcf⟩
    · have := w6 hcf
      omega
    · rw [w1]; intro h0; omega

theorem StateInv_open {D : Type} (s : Driver D) (path : String) (hs : StateInv s) :
    StateInv (cart_open s path).1 := by
  cases hf : firstIdx (fun k => decide ((s.allFile k).fName = path)) s.fileCount with
  | some i =>
    rw [cart_open_known s path hf]
    split
    · exact hs
    · exact StateInv_of_entry hs rfl rfl rfl
        (pos_le_setAt _ _ _ hs.pos_le (Nat.zero_le _))
  | none =>
    rw [cart_open_new s path hf]
    have h1 := hs.frame_lo
    have h2 := hs.frame_hi
    have h3 := hs.cart_lo
    refine ⟨pos_le_setAt _ _ _ hs.pos_le (Nat.le_refl 0), ?_, ?_, ?_, ?_, ?_⟩
    · show -1 ≤ (if s.currentFrame + 1 = 1024 then (0 : Int) else s.currentFrame + 1)
      split <;> omega
    · show (if s.currentFrame + 1 = 1024 then (0 : Int) else s.currentFrame + 1) < 1024
      split <;> omega
    · show 0 ≤ (if s.currentFrame + 1 = 1024 then s.currentCart + 1 else s.currentCart)
      split <;> omega
    · intro h0
      have h0' : s.fileCount + 1 = 0 := h0
      omega
    · intro _
      show 0 ≤ (if s.currentFrame + 1 = 1024 then (0 : Int) else s.currentFrame + 1)
      split <;> omega

theorem StateInv_init {D : Type} (C : Nat) (dev : D) : StateInv (initDriver C dev) :=
  ⟨fun _ => Nat.le_refl 0, (show (-1 : Int) ≤ -1 by decide), (show (-1 : Int) < 1024 by decide),
    (show (0 : Int) ≤ 0 by decide), fun _ => ⟨rfl, rfl⟩,
    fun h => absurd h (Nat.lt_irrefl 0)⟩

/-- Every reachable driver state has its positions and its allocator cursor in
order. -/
theorem Reach_state {K : CartHeader} {C : Nat} {s : Driver Device}
    (hFS : 0 < K.CART_FRAME_SIZE) (h : Reach K C s) : StateInv s := by
  induction h with
  | poweron => exact StateInv_poweron K _ _ (StateInv_init C blankDevice)
  | «open» path _ ih => exact StateInv_open _ path ih
  | close fd _ ih => exact StateInv_close _ fd ih
  | seek fd loc _ ih => exact StateInv_seek _ fd loc ih
  | read fd buf count _ ih => exact StateInv_read K (memBus_ok K) hFS _ fd buf count ih
  | write fd buf count hr ih =>
    exact StateInv_write K (memBus_ok K) hFS _ fd buf count (Reach_table hr) ih

/-- The allocator cursor after the splice of one round: stepped once at an
index beyond the frame of the file length, unchanged otherwise. -/
theorem writeSplice_cursor (K : CartHeader) (P N lf : Nat) (buf : Block) (i : Nat) (j : Int)
    (f : cartFile) (cf ct : Int) (tmp : Block) :
    (lf < i →
      (writeSplice K P N lf buf i j f cf ct tmp).2.1 = (if cf + 1 = 1024 then 0 else cf + 1) ∧
      (writeSplice K P N lf buf i j f cf ct tmp).2.2.1
        = (if cf + 1 = 1024 then ct + 1 else ct)) ∧
    (i ≤ lf →
      (writeSplice K P N lf buf i j f cf ct tmp).2.1 = cf ∧
      (writeSplice K P N lf buf i j f cf ct tmp).2.2.1 = ct) := by
  refine ⟨fun hnew => ?_, fun hold => ?_⟩
  · have hn : ¬ i ≤ lf := by omega
    unfold writeSplice
    simp only [if_neg hn]
    split <;> exact ⟨rfl, rfl⟩
  · unfold writeSplice
    simp only [if_pos hold]
    split_ifs <;> exact ⟨rfl, rfl⟩

/-- The loop of `cart_poweroff` that closes the files leaves the allocator
cursor. -/
theorem closeLoop_cursor {D : Type} (n : Nat) :
    ∀ (i : Nat) (s : Driver D),
      (closeLoop n i s).currentFrame = s.currentFrame ∧
      (closeLoop n i s).currentCart = s.currentCart := by
  induction n with
  | zero => intro i s; exact ⟨rfl, rfl⟩
  | succ n ih =>
    intro i s
    rw [closeLoop]
    obtain ⟨h1, h2⟩ := ih (i + 1)
      (if (s.allFile i).isOpen = 1 then (cart_close s (s.allFile i).fHandle).1 else s)
    rw [h1, h2]
    split
    · unfold cart_close
      split_ifs <;> exact ⟨rfl, rfl⟩
    · exact ⟨rfl, rfl⟩

/-- The function `cart_poweroff` leaves the allocator cursor. -/
theorem cart_poweroff_cursor {D : Type} (K : CartHeader) (bus : BusFn D) (s : Driver D) :
    cursorIndex (cart_poweroff K bus s).1 = cursorIndex s := by
  obtain ⟨h1, h2⟩ := closeLoop_cursor s.fileCount 0
    ({ s with dev := (zeroLoop K bus K.CART_MAX_CARTRIDGES 0 s.dev s.sent).2.1,
              sent := (zeroLoop K bus K.CART_MAX_CARTRIDGES 0 s.dev s.sent).2.2 } : Driver D)
  unfold cart_poweroff cursorIndex
  simp only
  split
  · rfl
  · split
    · show (closeLoop _ _ _).currentCart * 1024 + (closeLoop _ _ _).currentFrame = _
      rw [h1, h2]
    · show (closeLoop _ _ _).currentCart * 1024 + (closeLoop _ _ _).currentFrame = _
      rw [h1, h2]

/-- Claim C26 (allocator cursor arithmetic): in every reachable driver state
the allocator frame lies in [-1, 1023]; it is -1 (with cartridge 0) exactly as
long as no file has been created and lies in [0, 1023] afterwards. `cart_open`
of a new name increases the linear index `cartridge * 1024 + frame` by exactly
one, stepping the frame from 1023 to 0 together with the cartridge and by one
otherwise; `cart_open` of a known name leaves it. `cart_write` increases it by
the number of frames the call allocates (none when the call is rejected), and
each allocation in its loop (`writeSplice` at an index beyond the frame of the
file length) steps the cursor by exactly one in the same way, while a round at
an existing index leaves it. `cart_read`, `cart_seek`, `cart_close`,
`cart_poweron` and `cart_poweroff` leave it. So no operation decreases the
linear index. -/
theorem cursor_arithmetic (K : CartHeader) (C : Nat) (s : Driver Device)
    (hFS : 0 < K.CART_FRAME_SIZE) (hs : Reach K C s) :
    (-1 ≤ s.currentFrame ∧ s.currentFrame ≤ 1023 ∧ 0 ≤ s.currentCart) ∧
    (s.fileCount = 0 → s.currentFrame = -1 ∧ s.currentCart = 0) ∧
    (0 < s.fileCount → 0 ≤ s.currentFrame) ∧
    (∀ path, (∀ i, i < s.fileCount → (s.allFile i).fName ≠ path) →
      cursorIndex (cart_open s path).1 = cursorIndex s + 1 ∧
      (s.currentFrame = 1023 →
        (cart_open s path).1.currentFrame = 0 ∧
        (cart_open s path).1.currentCart = s.currentCart + 1) ∧
      (s.currentFrame ≠ 1023 →
        (cart_open s path).1.currentFrame = s.currentFrame + 1 ∧
        (cart_open s path).1.currentCart = s.currentCart)) ∧
    (∀ path i, i < s.fileCount → (s.allFile i).fName = path →
      cursorIndex (cart_open s path).1 = cursorIndex s) ∧
    (∀ fd buf count,
      cursorIndex (cart_write K (memBus K) s fd buf count).1
        = cursorIndex s
          + (if (fd > (s.fileCount : Int) ∨ fd < 0) ∨ (s.allFile fd.toNat).isOpen = 0
                ∨ count < 0 then 0
              else ((((s.allFile fd.toNat).pos + count.toNat) / K.CART_FRAME_SIZE
                - (s.allFile fd.toNat).fLength / K.CART_FRAME_SIZE : Nat) : Int))) ∧
    (∀ (P N lf : Nat) (buf : Block) (i : Nat) (j : Int) (f : cartFile) (cf ct : Int)
        (tmp : Block),
      (lf < i →
        (writeSplice K P N lf buf i j f cf ct tmp).2.2.1 * 1024
            + (writeSplice K P N lf buf i j f cf ct tmp).2.1 = ct * 1024 + cf + 1 ∧
        (cf = 1023 →
          (writeSplice K P N lf buf i j f cf ct tmp).2.1 = 0 ∧
          (writeSplice K P N lf buf i j f cf ct tmp).2.2.1 = ct + 1) ∧
        (cf ≠ 1023 →
          (writeSplice K P N lf buf i j f cf ct tmp).2.1 = cf + 1 ∧
          (writeSplice K P N lf buf i j f cf ct tmp).2.2.1 = ct)) ∧
      (i ≤ lf →
        (writeSplice K P N lf buf i j f cf ct tmp).2.1 = cf ∧
        (writeSplice K P N lf buf i j f cf ct tmp).2.2.1 = ct)) ∧
    (∀ fd buf count,
      cursorIndex (cart_read K (memBus K) s fd buf count).1 = cursorIndex s) ∧
    (∀ fd loc, cursorIndex (cart_seek s fd loc).1 = cursorIndex s) ∧
    (∀ fd, cursorIndex (cart_close s fd).1 = cursorIndex s) ∧
    cursorIndex (cart_poweron K (memBus K) s).1 = cursorIndex s ∧
    cursorIndex (cart_poweroff K (memBus K) s).1 = cursorIndex s := by
  have hi := Reach_state hFS hs
  have ht := Reach_table hs
  have h1 := hi.frame_lo
  have h2 := hi.frame_hi
  refine ⟨⟨h1, by omega, hi.cart_lo⟩, hi.fresh, hi.started, ?_, ?_, ?_, ?_, ?_, ?_, ?_, ?_, ?_⟩
  · intro path hnew
    have hf : firstIdx (fun k => decide ((s.allFile k).fName = path)) s.fileCount = none := by
      rw [firstIdx_none]
      exact fun j hj => decide_eq_false (hnew j hj)
    rw [cart_open_new s path hf]
    unfold cursorIndex
    refine ⟨?_, fun h => ?_, fun h => ?_⟩
    · show (if s.currentFrame + 1 = 1024 then s.currentCart + 1 else s.currentCart) * 1024
        + (if s.currentFrame + 1 = 1024 then (0 : Int) else s.currentFrame + 1)
        = s.currentCart * 1024 + s.currentFrame + 1
      split <;> omega
    · show (if s.currentFrame + 1 = 1024 then (0 : Int) else s.currentFrame + 1) = 0 ∧
        (if s.currentFrame + 1 = 1024 then s.currentCart + 1 else s.currentCart)
          = s.currentCart + 1
      rw [if_pos (by omega), if_pos (by omega)]
      exact ⟨rfl, rfl⟩
    · show (if s.currentFrame + 1 = 1024 then (0 : Int) else s.currentFrame + 1)
          = s.currentFrame + 1 ∧
        (if s.currentFrame + 1 = 1024 then s.currentCart + 1 else s.currentCart)
          = s.currentCart
      rw [if_neg (by omega), if_neg (by omega)]
      exact ⟨rfl, rfl⟩
  · intro path i hi' hname
    cases hf : firstIdx (fun k => decide ((s.allFile k).fName = path)) s.fileCount with
    | some k =>
      rw [cart_open_known s path hf]
      split <;> rfl
    | none =>
      have := firstIdx_none.mp hf i hi'
      rw [decide_eq_false_iff_not] at this
      exact absurd hname this
  · intro fd buf count
    by_cases h : (fd > (s.fileCount : Int) ∨ fd < 0) ∨ (s.allFile fd.toNat).isOpen = 0
        ∨ count < 0
    · rw [cart_write_rejected K (memBus K) s fd buf count h, if_pos h]
      show cursorIndex s = cursorIndex s + 0
      omega
    · rw [if_neg h]
      exact (cart_write_state K (memBus_ok K) hFS s fd buf count hi (fun h' => h (Or.inl h'))
        (fun h' => h (Or.inr (Or.inl h'))) (fun h' => h (Or.inr (Or.inr h')))).2.2.1
  · intro P N lf buf i j f cf ct tmp
    obtain ⟨a, b⟩ := writeSplice_cursor K P N lf buf i j f cf ct tmp
    refine ⟨fun hnew => ?_, b⟩
    obtain ⟨a1, a2⟩ := a hnew
    rw [a1, a2]
    by_cases h : cf + 1 = 1024
    · rw [if_pos h, if_pos h]
      exact ⟨by omega, fun _ => ⟨rfl, rfl⟩, fun h' => absurd (by omega) h'⟩
    · rw [if_neg h, if_neg h]
      exact ⟨by omega, fun h' => absurd (by omega) h, fun _ => ⟨rfl, rfl⟩⟩
  · intro fd buf count
    unfold cart_read cursorIndex
    split
    · rfl
    · split
      · rfl
      · split <;> rfl
  · intro fd loc
    unfold cart_seek cursorIndex
    split
    · rfl
    · split
      · rfl
      · split <;> rfl
  · intro fd
    unfold cart_close cursorIndex
    split
    · rfl
    · split <;> rfl
  · unfold cursorIndex
    rw [(cart_poweron_keeps K (memBus K) s).2.2.1, (cart_poweron_keeps K (memBus K) s).2.2.2]
  · exact cart_poweroff_cursor K (memBus K) s

/-! ## Power-on and power-off -/

/-- The requests of the loop over the cartridges on a far end that answers
with the status flag clear. -/
theorem zeroLoop_sent {D : Type} (K : CartHeader) {bus : BusFn D} (hb : BusOk bus) (n : Nat) :
    ∀ (i : Nat) (d : D) (sent : List Nat),
      (zeroLoop K bus n i d sent).1 = true ∧
      (zeroLoop K bus n i d sent).2.2
        = sent ++ (List.range' i n).flatMap
            (fun k => [create_cart_opcode K.CART_OP_LDCART 0 0 k 0,
                       create_cart_opcode K.CART_OP_BZERO 0 0 0 0]) := by
  induction n with
  | zero =>
    intro i d sent
    rw [zeroLoop]
    exact ⟨rfl, by simp⟩
  | succ n ih =>
    intro i d sent
    rw [zeroLoop]
    simp only [bus_xfer_ok hb, Bool.true_eq_false, if_false]
    obtain ⟨h1, h2⟩ := ih (i + 1)
      (bus_xfer bus (bus_xfer bus d sent K.CART_OP_LDCART i 0 zeroBlock).dev
        (bus_xfer bus d sent K.CART_OP_LDCART i 0 zeroBlock).sent K.CART_OP_BZERO 0 0
        zeroBlock).dev
      (bus_xfer bus (bus_xfer bus d sent K.CART_OP_LDCART i 0 zeroBlock).dev
        (bus_xfer bus d sent K.CART_OP_LDCART i 0 zeroBlock).sent K.CART_OP_BZERO 0 0
        zeroBlock).sent
    refine ⟨h1, ?_⟩
    rw [h2, List.range'_succ, List.flatMap_cons]
    have e1 : (bus_xfer bus (bus_xfer bus d sent K.CART_OP_LDCART i 0 zeroBlock).dev
        (bus_xfer bus d sent K.CART_OP_LDCART i 0 zeroBlock).sent K.CART_OP_BZERO 0 0
        zeroBlock).sent
        = sent ++ [create_cart_opcode K.CART_OP_LDCART 0 0 i 0]
            ++ [create_cart_opcode K.CART_OP_BZERO 0 0 0 0] := by
      rw [bus_xfer_eq hb, bus_xfer_eq hb]
    rw [e1]
    simp

theorem zeroRequests_length (K : CartHeader) :
    (zeroRequests K).length = 2 * K.CART_MAX_CARTRIDGES := by
  unfold zeroRequests
  induction K.CART_MAX_CARTRIDGES with
  | zero => rfl
  | succ n ih =>
    rw [List.range_succ, List.flatMap_append, List.length_append, ih]
    simp
    omega

/-- A freshly initialised cache misses every lookup. -/
theorem init_misses (c : Cache) (cart frm : Nat) :
    (get_cart_cache (init_cart_cache c) cart frm).2 = none :=
  get_none_of (fun j hj => absurd hj (Nat.not_lt_zero j))

/-- Claim C22 (power-on sequence): on a far end that answers every request
with the status flag clear, `cart_poweron` returns 0 and sends exactly the INIT
request followed, for each cartridge `i = 0 .. CART_MAX_CARTRIDGES - 1` in
increasing order, by LOAD_CARTRIDGE carrying `i` and ZERO_FRAME, which are
`1 + 2 * CART_MAX_CARTRIDGES` requests; afterwards the cache is empty: the
occupancy is 0, every allocated slot holds the empty key with age zero, and
every lookup misses. -/
theorem cart_poweron_sequence {D : Type} (K : CartHeader) (bus : BusFn D) (hb : BusOk bus)
    (s : Driver D) :
    (cart_poweron K bus s).2 = 0 ∧
    (cart_poweron K bus s).1.sent
      = s.sent ++ [create_cart_opcode K.CART_OP_INITMS 0 0 0 0] ++ zeroRequests K ∧
    (cart_poweron K bus s).1.sent.length = s.sent.length + (1 + 2 * K.CART_MAX_CARTRIDGES) ∧
    (cart_poweron K bus s).1.cc.cacheSize = s.cc.cacheSize ∧
    (cart_poweron K bus s).1.cc.current = 0 ∧
    (∀ i, i < s.cc.cacheSize →
      ((cart_poweron K bus s).1.cc.cache i).memCart = -1 ∧
      ((cart_poweron K bus s).1.cc.cache i).memFrm = -1 ∧
      ((cart_poweron K bus s).1.cc.cache i).time = 0) ∧
    (∀ cart frm, (get_cart_cache (cart_poweron K bus s).1.cc cart frm).2 = none) := by
  obtain ⟨z1, z2⟩ := zeroLoop_sent K hb K.CART_MAX_CARTRIDGES 0
    (bus_xfer bus s.dev s.sent K.CART_OP_INITMS 0 0 zeroBlock).dev
    (bus_xfer bus s.dev s.sent K.CART_OP_INITMS 0 0 zeroBlock).sent
  have hp : cart_poweron K bus s
      = ({ s with
            cc := init_cart_cache s.cc
            dev := (zeroLoop K bus K.CART_MAX_CARTRIDGES 0
              (bus_xfer bus s.dev s.sent K.CART_OP_INITMS 0 0 zeroBlock).dev
              (bus_xfer bus s.dev s.sent K.CART_OP_INITMS 0 0 zeroBlock).sent).2.1
            sent := (zeroLoop K bus K.CART_MAX_CARTRIDGES 0
              (bus_xfer bus s.dev s.sent K.CART_OP_INITMS 0 0 zeroBlock).dev
              (bus_xfer bus s.dev s.sent K.CART_OP_INITMS 0 0 zeroBlock).sent).2.2 }, 0) := by
    unfold cart_poweron
    simp only [bus_xfer_ok hb, z1, Bool.true_eq_false, if_false]
  have hsent : (cart_poweron K bus s).1.sent
      = s.sent ++ [create_cart_opcode K.CART_OP_INITMS 0 0 0 0] ++ zeroRequests K := by
    rw [hp]
    show (zeroLoop K bus K.CART_MAX_CARTRIDGES 0 _ _).2.2 = _
    rw [z2, bus_xfer_eq hb, ← List.range_eq_range']
    rfl
  refine ⟨by rw [hp], hsent, ?_, by rw [hp]; rfl, by rw [hp]; rfl, ?_, ?_⟩
  · rw [hsent, List.length_append, List.length_append, zeroRequests_length]
    simp
    omega
  · intro i hi
    rw [hp]
    show ((init_cart_cache s.cc).cache i).memCart = -1 ∧ ((init_cart_cache s.cc).cache i).memFrm = -1
      ∧ ((init_cart_cache s.cc).cache i).time = 0
    unfold init_cart_cache
    simp only [if_pos hi]
    exact ⟨trivial, trivial, trivial⟩
  · intro cart frm
    rw [hp]
    exact init_misses s.cc cart frm

/-- The loop of `cart_read` keeps the cache well-formed and its capacity. -/
theorem readLoop_cache_inv {D : Type} (K : CartHeader) (bus : BusFn D) (f : cartFile)
    (P N : Nat) (n : Nat) :
    ∀ (i : Nat) (j : Int) (pos : Nat) (cc : Cache) (dev : D) (sent : List Nat)
      (tmp buf : Block), CacheInv cc →
      CacheInv (readLoop K bus f P N n i j pos cc dev sent tmp buf).cc ∧
      (readLoop K bus f P N n i j pos cc dev sent tmp buf).cc.cacheSize = cc.cacheSize := by
  induction n with
  | zero =>
    intro i j pos cc dev sent tmp buf h
    rw [readLoop]
    exact ⟨h, rfl⟩
  | succ n ih =>
    intro i j pos cc dev sent tmp buf h
    obtain ⟨f1, f2⟩ := fetch_cache_inv K bus true h dev sent tmp (f.fCart i) (f.fFrame i)
    rw [readLoop]
    split_ifs
    all_goals first
      | exact ⟨f1, f2⟩
      | (obtain ⟨r1, r2⟩ := ih _ _ _ _ _ _ _ _ f1
         exact ⟨r1, r2.trans f2⟩)

theorem cart_read_cache_inv {D : Type} (K : CartHeader) (bus : BusFn D) (s : Driver D)
    (fd : Int) (buf : Block) (count : Int) (h : CacheInv s.cc) :
    CacheInv (cart_read K bus s fd buf count).1.cc ∧
    (cart_read K bus s fd buf count).1.cc.cacheSize = s.cc.cacheSize := by
  unfold cart_read
  split
  · exact ⟨h, rfl⟩
  · split
    · exact ⟨h, rfl⟩
    · split
      · exact ⟨h, rfl⟩
      · exact readLoop_cache_inv K bus _ _ _ _ _ _ _ _ _ _ _ _ h

theorem cart_write_cache_inv {D : Type} (K : CartHeader) (bus : BusFn D) (s : Driver D)
    (fd : Int) (buf : Block) (count : Int) (h : CacheInv s.cc) :
    CacheInv (cart_write K bus s fd buf count).1.cc ∧
    (cart_write K bus s fd buf count).1.cc.cacheSize = s.cc.cacheSize := by
  by_cases hr : (fd > (s.fileCount : Int) ∨ fd < 0) ∨ (s.allFile fd.toNat).isOpen = 0
      ∨ count < 0
  · rw [cart_write_rejected K bus s fd buf count hr]
    exact ⟨h, rfl⟩
  · obtain ⟨-, -, -, -, -, c6, c7⟩ := cart_write_frame K bus s fd buf count
      (fun h' => hr (Or.inl h')) (fun h' => hr (Or.inr (Or.inl h')))
      (fun h' => hr (Or.inr (Or.inr h')))
    exact ⟨c6 h, c7⟩

theorem cart_open_cc {D : Type} (s : Driver D) (path : String) :
    (cart_open s path).1.cc = s.cc := by
  unfold cart_open
  split
  · split <;> rfl
  · rfl

theorem cart_close_cc {D : Type} (s : Driver D) (fd : Int) :
    (cart_close s fd).1.cc = s.cc := by
  unfold cart_close
  split
  · rfl
  · split <;> rfl

/-- Every reachable driver state has a well-formed cache of the configured
capacity. -/
theorem Reach_cache {K : CartHeader} {C : Nat} {s : Driver Device} (h : Reach K C s) :
    CacheInv s.cc ∧ s.cc.cacheSize = C := by
  induction h with
  | poweron =>
    obtain ⟨-, -, -, -, -, a6, -⟩ :=
      cart_poweron_std K (initDriver C blankDevice) (fun _ _ _ => rfl)
    rw [a6]
    exact ⟨CacheInv_init _, rfl⟩
  | «open» path _ ih => rw [cart_open_cc]; exact ih
  | close fd _ ih => rw [cart_close_cc]; exact ih
  | seek fd loc _ ih =>
    rw [cart_seek_cc]; exact ih
  | read fd buf count _ ih =>
    obtain ⟨r1, r2⟩ := cart_read_cache_inv K (memBus K) _ fd buf count ih.1
    exact ⟨r1, r2.trans ih.2⟩
  | write fd buf count _ ih =>
    obtain ⟨r1, r2⟩ := cart_write_cache_inv K (memBus K) _ fd buf count ih.1
    exact ⟨r1, r2.trans ih.2⟩

theorem cartFile_close_eq (f : cartFile) (h : f.isOpen = 0) : { f with isOpen := 0 } = f := by
  cases f
  simp only at h
  simp only [h]

/-- The loop of `cart_poweroff` over the files closes the entries it visits
and changes nothing else. -/
theorem closeLoop_spec {D : Type} (n : Nat) :
    ∀ (i : Nat) (s : Driver D), TableInv s → i + n ≤ s.fileCount →
      closeLoop n i s
        = { s with
            allFile := fun k =>
              if i ≤ k ∧ k < i + n then { s.allFile k with isOpen := 0 } else s.allFile k } := by
  induction n with
  | zero =>
    intro i s _ _
    rw [closeLoop]
    have : (fun k => if i ≤ k ∧ k < i + 0 then ({ s.allFile k with isOpen := 0 } : cartFile)
        else s.allFile k) = s.allFile := by
      funext k
      rw [if_neg (by omega)]
    rw [this]
  | succ n ih =>
    intro i s ht hn
    rw [closeLoop]
    have e0 : ((i : Nat) : Int).toNat = i := Int.toNat_natCast i
    have hstep : (if (s.allFile i).isOpen = 1 then (cart_close s (s.allFile i).fHandle).1 else s)
        = { s with allFile := setAt s.allFile i { s.allFile i with isOpen := 0 } } := by
      by_cases ho : (s.allFile i).isOpen = 1
      · rw [if_pos ho, ht.handle i (by omega)]
        unfold cart_close
        rw [if_neg (by omega), e0, if_neg (by rw [ho]; decide)]
      · rw [if_neg ho]
        have h0 : (s.allFile i).isOpen = 0 := by
          rcases ht.flag i with h | h
          · exact h
          · exact absurd h ho
        have : setAt s.allFile i { s.allFile i with isOpen := 0 } = s.allFile := by
          funext k
          by_cases hk : k = i
          · subst hk; rw [setAt_same, cartFile_close_eq _ h0]
          · rw [setAt_other _ _ _ _ hk]
        rw [this]
    have ht' : TableInv ({ s with
        allFile := setAt s.allFile i { s.allFile i with isOpen := 0 } } : Driver D) := by
      have := TableInv_close s i ht
      by_cases ho : (s.allFile i).isOpen = 0
      · have e : setAt s.allFile i { s.allFile i with isOpen := 0 } = s.allFile := by
          funext k
          by_cases hk : k = i
          · subst hk; rw [setAt_same, cartFile_close_eq _ ho]
          · rw [setAt_other _ _ _ _ hk]
        rw [e]
        exact ht
      · have hc : cart_close s i
            = ({ s with allFile := setAt s.allFile i { s.allFile i with isOpen := 0 } }, 0) := by
          unfold cart_close
          rw [if_neg (by omega), e0, if_neg ho]
        rw [hc] at this
        exact this
    rw [hstep, ih (i + 1) _ ht' (by show i + 1 + n ≤ s.fileCount; omega)]
    congr 1
    funext k
    show (if i + 1 ≤ k ∧ k < i + 1 + n then
        ({ (setAt s.allFile i { s.allFile i with isOpen := 0 } k) with isOpen := 0 } : cartFile)
      else setAt s.allFile i { s.allFile i with isOpen := 0 } k) = _
    by_cases hk : k = i
    · subst hk
      rw [if_neg (by omega), setAt_same, if_pos (by omega)]
    · rw [setAt_other _ _ _ _ hk]
      by_cases hr : i + 1 ≤ k ∧ k < i + 1 + n
      · rw [if_pos hr, if_pos (by omega)]
      · rw [if_neg hr, if_neg (by omega)]

/-- A cache cleared by `close_cart_cache` misses every lookup. -/
theorem close_misses (K : CartHeader) {c : Cache} (h : c.current ≤ c.cacheSize)
    (cart frm : Nat) : (get_cart_cache (close_cart_cache K c) cart frm).2 = none := by
  refine get_none_of (fun j hj => ?_)
  have hj' : j < c.cacheSize := Nat.lt_of_lt_of_le hj h
  unfold close_cart_cache
  simp only [if_pos hj']
  intro hk
  have := hk.1
  omega

/-- In a well-formed cache the first occupied slot that holds a key is the
only one. -/
theorem firstIdx_of_key {c : Cache} (h : CacheInv c) {cart frm p : Nat} (hp : p < c.current)
    (h1 : (c.cache p).memCart = (cart : Int)) (h2 : (c.cache p).memFrm = (frm : Int)) :
    firstIdx (keyMatch c.cache cart frm) c.current = some p := by
  refine firstIdx_of_least hp ((keyMatch_iff _ _ _ _).mpr ⟨h1, h2⟩) (fun j hj => ?_)
  rw [keyMatch_false_iff]
  rintro ⟨e1, e2⟩
  have := h.uniq j p (by omega) hp (e1.trans h1.symm) (e2.trans h2.symm)
  omega

/-- The slot that `put_cart_cache` inserts into or overwrites has age zero
afterwards, and every other occupied slot was occupied before and is one call
older. -/
theorem put_touch (K : CartHeader) {c : Cache} (h : CacheInv c) (hC : 1 ≤ c.cacheSize)
    (cart frm : Nat) (buf : Block) :
    ∃ p, p < (put_cart_cache K c cart frm buf).current ∧
      ((put_cart_cache K c cart frm buf).cache p).memCart = (cart : Int) ∧
      ((put_cart_cache K c cart frm buf).cache p).memFrm = (frm : Int) ∧
      ((put_cart_cache K c cart frm buf).cache p).time = 0 ∧
      ∀ i, i < (put_cart_cache K c cart frm buf).current → i ≠ p →
        i < c.current ∧
        ((put_cart_cache K c cart frm buf).cache i).time = (c.cache i).time + 1 := by
  cases hf : firstIdx (keyMatch (ageAll c) cart frm) c.cacheSize with
  | some p =>
    obtain ⟨hp, hm, -⟩ := firstIdx_some hf
    rw [keyMatch_ageAll] at hm
    have hpc := match_lt_current h hp hm
    have hk := (keyMatch_iff _ _ _ _).mp hm
    have hput : put_cart_cache K c cart frm buf
        = { c with
            cache := setAt (ageAll c) p
              { ageAll c p with
                memContent := memcpy (ageAll c p).memContent 0 buf 0 K.CART_FRAME_SIZE
                time := 0 } } := by
      unfold put_cart_cache
      simp only [hf]
    rw [hput]
    refine ⟨p, hpc, ?_, ?_, ?_, fun i hi hip => ⟨hi, ?_⟩⟩
    · show (setAt (ageAll c) p _ p).memCart = _
      rw [setAt_same]; show (ageAll c p).memCart = _
      rw [ageAll_memCart]; exact hk.1
    · show (setAt (ageAll c) p _ p).memFrm = _
      rw [setAt_same]; show (ageAll c p).memFrm = _
      rw [ageAll_memFrm]; exact hk.2
    · show (setAt (ageAll c) p _ p).time = _
      rw [setAt_same]
    · have hi' : i < c.current := hi
      show (setAt (ageAll c) p _ i).time = _
      rw [setAt_other _ _ _ _ hip, ageAll_time, if_pos hi']
  | none =>
    by_cases hfull : c.current = c.cacheSize
    · have hput : put_cart_cache K c cart frm buf
          = { c with
              cache := setAt (ageAll c) (maxIndex (ageAll c) (c.cacheSize - 1))
                { memCart := cart, memFrm := frm, time := 0,
                  memContent := memcpy
                    (ageAll c (maxIndex (ageAll c) (c.cacheSize - 1))).memContent
                    0 buf 0 K.CART_FRAME_SIZE } } := by
        unfold put_cart_cache
        simp only [hf, if_pos hfull]
      have hm := maxIndex_le (ageAll c) (c.cacheSize - 1)
      generalize maxIndex (ageAll c) (c.cacheSize - 1) = m at hput hm
      rw [hput]
      refine ⟨m, by show m < c.current; omega, ?_, ?_, ?_, fun i hi hip => ⟨hi, ?_⟩⟩
      · show (setAt (ageAll c) m _ m).memCart = _
        rw [setAt_same]
      · show (setAt (ageAll c) m _ m).memFrm = _
        rw [setAt_same]
      · show (setAt (ageAll c) m _ m).time = _
        rw [setAt_same]
      · have hi' : i < c.current := hi
        show (setAt (ageAll c) m _ i).time = _
        rw [setAt_other _ _ _ _ hip, ageAll_time, if_pos hi']
    · have hput : put_cart_cache K c cart frm buf
          = { c with
              cache := setAt (ageAll c) c.current
                { ageAll c c.current with
                  memCart := cart, memFrm := frm,
                  memContent := memcpy (ageAll c c.current).memContent 0 buf 0
                    K.CART_FRAME_SIZE }
              current := c.current + 1 } := by
        unfold put_cart_cache
        simp only [hf, if_neg hfull]
      have hlt : c.current < c.cacheSize := by
        have := h.cur_le
        omega
      rw [hput]
      refine ⟨c.current, by show c.current < c.current + 1; omega, ?_, ?_, ?_,
        fun i hi hip => ?_⟩
      · show (setAt (ageAll c) c.current _ c.current).memCart = _
        rw [setAt_same]
      · show (setAt (ageAll c) c.current _ c.current).memFrm = _
        rw [setAt_same]
      · show (setAt (ageAll c) c.current _ c.current).time = _
        rw [setAt_same]
        show (ageAll c c.current).time = 0
        rw [ageAll_time, if_neg (Nat.lt_irrefl _)]
        exact (h.empty_hi c.current (Nat.le_refl _) hlt).2.2
      · have hi' : i < c.current + 1 := hi
        have hi2 : i < c.current := by omega
        refine ⟨hi2, ?_⟩
        show (setAt (ageAll c) c.current _ i).time = _
        rw [setAt_other _ _ _ _ hip, ageAll_time, if_pos hi2]

/-- The ages after `get_cart_cache`: the slot that is hit has age zero, every
other occupied slot is one call older. -/
theorem get_touch (c : Cache) (cart frm : Nat) :
    (∀ p, firstIdx (keyMatch c.cache cart frm) c.current = some p →
      ((get_cart_cache c cart frm).1.cache p).time = 0 ∧
      ∀ i, i < c.current → i ≠ p →
        ((get_cart_cache c cart frm).1.cache i).time = (c.cache i).time + 1) ∧
    (firstIdx (keyMatch c.cache cart frm) c.current = none →
      ∀ i, i < c.current →
        ((get_cart_cache c cart frm).1.cache i).time = (c.cache i).time + 1) := by
  refine ⟨fun p hp => ?_, fun hn => ?_⟩
  · have hget : get_cart_cache c cart frm
        = ({ c with cache := setAt (ageAll c) p { ageAll c p with time := 0 } },
            some (ageAll c p).memContent) := by
      unfold get_cart_cache
      simp only [keyMatch_ageAll, hp]
    rw [hget]
    refine ⟨?_, fun i hi hip => ?_⟩
    · show (setAt (ageAll c) p _ p).time = 0
      rw [setAt_same]
    · show (setAt (ageAll c) p _ i).time = _
      rw [setAt_other _ _ _ _ hip, ageAll_time, if_pos hi]
  · have hget : get_cart_cache c cart frm = ({ c with cache := ageAll c }, none) := by
      unfold get_cart_cache
      simp only [keyMatch_ageAll, hn]
    rw [hget]
    intro i hi
    show (ageAll c i).time = _
    rw [ageAll_time, if_pos hi]

theorem cacheAfter_inv (K : CartHeader) (c0 : Cache) (h : List CacheOp) :
    CacheInv (cacheAfter K c0 h) ∧ (cacheAfter K c0 h).cacheSize = c0.cacheSize := by
  induction h with
  | nil => exact ⟨CacheInv_init c0, rfl⟩
  | cons op h ih =>
    cases op with
    | put cart frm buf =>
      exact ⟨CacheInv_put K ih.1 cart frm buf, (put_cacheSize K _ cart frm buf).trans ih.2⟩
    | get cart frm =>
      exact ⟨CacheInv_get ih.1 cart frm, (get_cacheSize _ cart frm).trans ih.2⟩

/-- The age of every occupied slot is the number of calls since the slot was
last inserted into or hit, and the ages of the occupied slots are pairwise
different. -/
theorem ages_history (K : CartHeader) (c0 : Cache) (hC : 1 ≤ c0.cacheSize) (h : List CacheOp) :
    (∀ i, i < (cacheAfter K c0 h).current →
      ((cacheAfter K c0 h).cache i).time = sinceTouched K c0 h i) ∧
    (∀ i j, i < (cacheAfter K c0 h).current → j < (cacheAfter K c0 h).current → i ≠ j →
      ((cacheAfter K c0 h).cache i).time ≠ ((cacheAfter K c0 h).cache j).time) := by
  induction h with
  | nil =>
    exact ⟨fun i hi => absurd hi (Nat.not_lt_zero i), fun i j hi => absurd hi (Nat.not_lt_zero i)⟩
  | cons op h ih =>
    obtain ⟨hinv, hsz⟩ := cacheAfter_inv K c0 h
    obtain ⟨ih1, ih2⟩ := ih
    cases op with
    | put cart frm buf =>
      obtain ⟨p, hp, k1, k2, t0, hrest⟩ := put_touch K hinv (by omega) cart frm buf
      have htouch : touched K (cacheAfter K c0 h) (CacheOp.put cart frm buf) = some p :=
        firstIdx_of_key (CacheInv_put K hinv cart frm buf) hp k1 k2
      refine ⟨fun i hi => ?_, fun i j hi hj hij => ?_⟩
      · show ((put_cart_cache K (cacheAfter K c0 h) cart frm buf).cache i).time
          = if touched K (cacheAfter K c0 h) (CacheOp.put cart frm buf) = some i then 0
            else sinceTouched K c0 h i + 1
        rw [htouch]
        by_cases hip : i = p
        · subst hip; rw [if_pos rfl, t0]
        · rw [if_neg (fun he => hip (Option.some.inj he).symm)]
          obtain ⟨r1, r2⟩ := hrest i hi hip
          rw [r2, ih1 i r1]
      · show ((put_cart_cache K (cacheAfter K c0 h) cart frm buf).cache i).time
          ≠ ((put_cart_cache K (cacheAfter K c0 h) cart frm buf).cache j).time
        by_cases hip : i = p
        · subst hip
          obtain ⟨-, r2⟩ := hrest j hj (fun e => hij e.symm)
          rw [t0, r2]; omega
        · by_cases hjp : j = p
          · subst hjp
            obtain ⟨-, r2⟩ := hrest i hi hip
            rw [t0, r2]; omega
          · obtain ⟨a1, a2⟩ := hrest i hi hip
            obtain ⟨b1, b2⟩ := hrest j hj hjp
            have := ih2 i j a1 b1 hij
            rw [a2, b2]; omega
    | get cart frm =>
      obtain ⟨g1, g2⟩ := get_touch (cacheAfter K c0 h) cart frm
      have hcur : (get_cart_cache (cacheAfter K c0 h) cart frm).1.current
          = (cacheAfter K c0 h).current := get_current _ cart frm
      cases hf : firstIdx (keyMatch (cacheAfter K c0 h).cache cart frm)
          (cacheAfter K c0 h).current with
      | some p =>
        obtain ⟨t0, hrest⟩ := g1 p hf
        refine ⟨fun i hi => ?_, fun i j hi hj hij => ?_⟩
        · have hi' : i < (cacheAfter K c0 h).current := by rw [← hcur]; exact hi
          show ((get_cart_cache (cacheAfter K c0 h) cart frm).1.cache i).time
            = if touched K (cacheAfter K c0 h) (CacheOp.get cart frm) = some i then 0
              else sinceTouched K c0 h i + 1
          have htouch : touched K (cacheAfter K c0 h) (CacheOp.get cart frm) = some p := hf
          rw [htouch]
          by_cases hip : i = p
          · subst hip; rw [if_pos rfl, t0]
          · rw [if_neg (fun he => hip (Option.some.inj he).symm), hrest i hi' hip, ih1 i hi']
        · have hi' : i < (cacheAfter K c0 h).current := by rw [← hcur]; exact hi
          have hj' : j < (cacheAfter K c0 h).current := by rw [← hcur]; exact hj
          show ((get_cart_cache (cacheAfter K c0 h) cart frm).1.cache i).time
            ≠ ((get_cart_cache (cacheAfter K c0 h) cart frm).1.cache j).time
          by_cases hip : i = p
          · subst hip
            rw [t0, hrest j hj' (fun e => hij e.symm)]; omega
          · by_cases hjp : j = p
            · subst hjp
              rw [t0, hrest i hi' hip]; omega
            · have := ih2 i j hi' hj' hij
              rw [hrest i hi' hip, hrest j hj' hjp]; omega
      | none =>
        have hrest := g2 hf
        refine ⟨fun i hi => ?_, fun i j hi hj hij => ?_⟩
        · have hi' : i < (cacheAfter K c0 h).current := by rw [← hcur]; exact hi
          show ((get_cart_cache (cacheAfter K c0 h) cart frm).1.cache i).time
            = if touched K (cacheAfter K c0 h) (CacheOp.get cart frm) = some i then 0
              else sinceTouched K c0 h i + 1
          have htouch : touched K (cacheAfter K c0 h) (CacheOp.get cart frm) = none := hf
          rw [htouch, if_neg (by simp), hrest i hi', ih1 i hi']
        · have hi' : i < (cacheAfter K c0 h).current := by rw [← hcur]; exact hi
          have hj' : j < (cacheAfter K c0 h).current := by rw [← hcur]; exact hj
          show ((get_cart_cache (cacheAfter K c0 h) cart frm).1.cache i).time
            ≠ ((get_cart_cache (cacheAfter K c0 h) cart frm).1.cache j).time
          have := ih2 i j hi' hj' hij
          rw [hrest i hi', hrest j hj']; omega

/-- A put of an absent key into a full cache overwrites a slot of greatest
age and leaves the key and the bytes of every other slot. -/
theorem put_evicts_oldest (K : CartHeader) {c : Cache} (hC : 1 ≤ c.cacheSize)
    (hfull : c.current = c.cacheSize) (cart frm : Nat) (buf : Block)
    (habs : ∀ i, i < c.cacheSize →
      ¬ ((c.cache i).memCart = (cart : Int) ∧ (c.cache i).memFrm = (frm : Int))) :
    ∃ m, m < c.cacheSize ∧
      ((put_cart_cache K c cart frm buf).cache m).memCart = (cart : Int) ∧
      ((put_cart_cache K c cart frm buf).cache m).memFrm = (frm : Int) ∧
      (∀ i, i ≠ m →
        ((put_cart_cache K c cart frm buf).cache i).memCart = (c.cache i).memCart ∧
        ((put_cart_cache K c cart frm buf).cache i).memFrm = (c.cache i).memFrm ∧
        ((put_cart_cache K c cart frm buf).cache i).memContent = (c.cache i).memContent) ∧
      ∀ i, i < c.cacheSize → (c.cache i).time ≤ (c.cache m).time := by
  have hnone : firstIdx (keyMatch (ageAll c) cart frm) c.cacheSize = none := by
    rw [keyMatch_ageAll, firstIdx_none]
    exact fun j hj => (keyMatch_false_iff _ _ _ _).mpr (habs j hj)
  have hput : put_cart_cache K c cart frm buf
      = { c with
          cache := setAt (ageAll c) (maxIndex (ageAll c) (c.cacheSize - 1))
            { memCart := cart, memFrm := frm, time := 0,
              memContent := memcpy (ageAll c (maxIndex (ageAll c) (c.cacheSize - 1))).memContent
                0 buf 0 K.CART_FRAME_SIZE } } := by
    unfold put_cart_cache
    simp only [hnone, if_pos hfull]
  obtain ⟨g1, -⟩ := maxIndex_greatest (ageAll c) (c.cacheSize - 1)
  have hm := maxIndex_le (ageAll c) (c.cacheSize - 1)
  generalize maxIndex (ageAll c) (c.cacheSize - 1) = m at hput g1 hm
  have hmlt : m < c.cacheSize := by omega
  have hage : ∀ i, i < c.cacheSize → (ageAll c i).time = (c.cache i).time + 1 := by
    intro i hi
    rw [ageAll_time, if_pos (by omega)]
  rw [hput]
  refine ⟨m, hmlt, ?_, ?_, fun i hi => ?_, fun i hi => ?_⟩
  · show (setAt (ageAll c) m _ m).memCart = _
    rw [setAt_same]
  · show (setAt (ageAll c) m _ m).memFrm = _
    rw [setAt_same]
  · show (setAt (ageAll c) m _ i).memCart = _ ∧ (setAt (ageAll c) m _ i).memFrm = _
      ∧ (setAt (ageAll c) m _ i).memContent = _
    rw [setAt_other _ _ _ _ hi]
    exact ⟨ageAll_memCart c i, ageAll_memFrm c i, ageAll_memContent c i⟩
  · have := g1 i (by omega)
    rw [hage i hi, hage m hmlt] at this
    omega

/-- Claim C27: in every cache state that `init_cart_cache` followed by a
history `h` of `put_cart_cache` and `get_cart_cache` calls (latest call
first) produces, the age of each occupied slot is the number of calls since
the slot was last inserted into or hit, and the occupied slots have pairwise
different ages.  Consequently a put of an absent key into a full cache of
capacity at least one overwrites one slot `m`, keeps the key and bytes of
every other slot, and every other slot is strictly younger than `m` and
was inserted into or hit strictly more recently: the evicted slot is unique
and holds the least recently used key. -/
theorem ages_distinct_lru (K : CartHeader) (c0 : Cache) (h : List CacheOp) :
    (∀ i, i < (cacheAfter K c0 h).current →
      ((cacheAfter K c0 h).cache i).time = sinceTouched K c0 h i) ∧
    (∀ i j, i < (cacheAfter K c0 h).current → j < (cacheAfter K c0 h).current → i ≠ j →
      ((cacheAfter K c0 h).cache i).time ≠ ((cacheAfter K c0 h).cache j).time) ∧
    (∀ (cart frm : Nat) (buf : Block),
      1 ≤ (cacheAfter K c0 h).cacheSize →
      (cacheAfter K c0 h).current = (cacheAfter K c0 h).cacheSize →
      (∀ i, i < (cacheAfter K c0 h).cacheSize →
        ¬ (((cacheAfter K c0 h).cache i).memCart = (cart : Int)
            ∧ ((cacheAfter K c0 h).cache i).memFrm = (frm : Int))) →
      ∃ m, m < (cacheAfter K c0 h).cacheSize ∧
        ((put_cart_cache K (cacheAfter K c0 h) cart frm buf).cache m).memCart = (cart : Int) ∧
        ((put_cart_cache K (cacheAfter K c0 h) cart frm buf).cache m).memFrm = (frm : Int) ∧
        (∀ i, i ≠ m →
          ((put_cart_cache K (cacheAfter K c0 h) cart frm buf).cache i).memCart
            = ((cacheAfter K c0 h).cache i).memCart ∧
          ((put_cart_cache K (cacheAfter K c0 h) cart frm buf).cache i).memFrm
            = ((cacheAfter K c0 h).cache i).memFrm ∧
          ((put_cart_cache K (cacheAfter K c0 h) cart frm buf).cache i).memContent
            = ((cacheAfter K c0 h).cache i).memContent) ∧
        ∀ i, i < (cacheAfter K c0 h).cacheSize → i ≠ m →
          ((cacheAfter K c0 h).cache i).time < ((cacheAfter K c0 h).cache m).time ∧
          sinceTouched K c0 h i < sinceTouched K c0 h m) := by
  obtain ⟨hinv, hsz⟩ := cacheAfter_inv K c0 h
  have hages : (∀ i, i < (cacheAfter K c0 h).current →
        ((cacheAfter K c0 h).cache i).time = sinceTouched K c0 h i) ∧
      (∀ i j, i < (cacheAfter K c0 h).current → j < (cacheAfter K c0 h).current → i ≠ j →
        ((cacheAfter K c0 h).cache i).time ≠ ((cacheAfter K c0 h).cache j).time) := by
    by_cases hC : 1 ≤ c0.cacheSize
    · exact ages_history K c0 hC h
    · have hcur : (cacheAfter K c0 h).current = 0 := by
        have := hinv.cur_le
        omega
      rw [hcur]
      exact ⟨fun i hi => absurd hi (Nat.not_lt_zero i),
        fun i j hi => absurd hi (Nat.not_lt_zero i)⟩
  obtain ⟨a1, a2⟩ := hages
  refine ⟨a1, a2, fun cart frm buf hC hfull habs => ?_⟩
  obtain ⟨m, m1, m2, m3, m4, m5⟩ := put_evicts_oldest K hC hfull cart frm buf habs
  refine ⟨m, m1, m2, m3, m4, fun i hi him => ?_⟩
  have hlt : ((cacheAfter K c0 h).cache i).time < ((cacheAfter K c0 h).cache m).time := by
    have h1 := m5 i hi
    have h2 := a2 i m (by omega) (by omega) him
    omega
  refine ⟨hlt, ?_⟩
  rw [← a1 i (by omega), ← a1 m (by omega)]
  exact hlt

theorem ages_distinct_lru_witness :
    (1 < (cacheAfter stdHeader lruCache0 lruHistory).current ∧
      1 ≤ (cacheAfter stdHeader lruCache0 lruHistory).cacheSize ∧
      (cacheAfter stdHeader lruCache0 lruHistory).current
        = (cacheAfter stdHeader lruCache0 lruHistory).cacheSize ∧
      (∀ i, i < (cacheAfter stdHeader lruCache0 lruHistory).cacheSize →
        ¬ (((cacheAfter stdHeader lruCache0 lruHistory).cache i).memCart = ((0 : Nat) : Int)
            ∧ ((cacheAfter stdHeader lruCache0 lruHistory).cache i).memFrm
                = ((2 : Nat) : Int)))) ∧
    ((cacheAfter stdHeader lruCache0 lruHistory).cache 1).time
      = sinceTouched stdHeader lruCache0 lruHistory 1 ∧
    sinceTouched stdHeader lruCache0 lruHistory 1 = 1 ∧
    sinceTouched stdHeader lruCache0 lruHistory 0 = 0 ∧
    ∃ m, m < (cacheAfter stdHeader lruCache0 lruHistory).cacheSize ∧
      ((put_cart_cache stdHeader (cacheAfter stdHeader lruCache0 lruHistory) 0 2
          zeroBlock).cache m).memCart = ((0 : Nat) : Int) ∧
      ((put_cart_cache stdHeader (cacheAfter stdHeader lruCache0 lruHistory) 0 2
          zeroBlock).cache m).memFrm = ((2 : Nat) : Int) ∧
      (∀ i, i ≠ m →
        ((put_cart_cache stdHeader (cacheAfter stdHeader lruCache0 lruHistory) 0 2
            zeroBlock).cache i).memCart
          = ((cacheAfter stdHeader lruCache0 lruHistory).cache i).memCart ∧
        ((put_cart_cache stdHeader (cacheAfter stdHeader lruCache0 lruHistory) 0 2
            zeroBlock).cache i).memFrm
          = ((cacheAfter stdHeader lruCache0 lruHistory).cache i).memFrm ∧
        ((put_cart_cache stdHeader (cacheAfter stdHeader lruCache0 lruHistory) 0 2
            zeroBlock).cache i).memContent
          = ((cacheAfter stdHeader lruCache0 lruHistory).cache i).memContent) ∧
      ∀ i, i < (cacheAfter stdHeader lruCache0 lruHistory).cacheSize → i ≠ m →
        ((cacheAfter stdHeader lruCache0 lruHistory).cache i).time
            < ((cacheAfter stdHeader lruCache0 lruHistory).cache m).time ∧
        sinceTouched stdHeader lruCache0 lruHistory i
          < sinceTouched stdHeader lruCache0 lruHistory m :=
  ⟨⟨by decide, by decide, by decide, by decide⟩,
   (ages_distinct_lru stdHeader lruCache0 lruHistory).1 1 (by decide),
   by decide, by decide,
   (ages_distinct_lru stdHeader lruCache0 lruHistory).2.2 0 2 zeroBlock
     (by decide) (by decide) (by decide)⟩

/-! ## The cartridge selected when a frame is written -/

/-- A WRITE_FRAME exchange with the storing device stores the buffer sent in
the named frame of the cartridge that is selected, whatever the caller meant,
and appends one request to the log. -/
theorem xfer_std_wr_same (d : Device) (sent : List Nat) (ct fm : Nat) (buf : Block) :
    (bus_xfer (memBus stdHeader) d sent 4 ct fm buf).dev.mem d.loaded (fm % 65536)
      = memcpy (d.mem d.loaded (fm % 65536)) 0 buf 0 1024 ∧
    (bus_xfer (memBus stdHeader) d sent 4 ct fm buf).sent
      = sent ++ [create_cart_opcode 4 0 0 ct fm] := by
  rw [bus_xfer_eq (memBus_ok stdHeader), memBus_std_wr]
  refine ⟨?_, rfl⟩
  simp only [setAt_same]

/-- The requests of a fetch that misses the cache: LOAD_CARTRIDGE for the
cartridge asked for, then READ_FRAME. -/
theorem fetch_std_miss_sent (p : Bool) (cc : Cache) (d : Device) (sent : List Nat) (tmp : Block)
    (cart frm : Int) (hm : (get_cart_cache cc (toU16 cart) (toU16 frm)).2 = none) :
    (fetch_frame stdHeader (memBus stdHeader) p cc d sent tmp cart frm).sent
      = sent ++ [create_cart_opcode 2 0 0 (toU64 cart) 0,
                 create_cart_opcode 3 0 0 0 (toU64 frm)] := by
  unfold fetch_frame
  simp only [hm, bus_xfer_ok (memBus_ok stdHeader), Bool.true_eq_false, if_false]
  have e1 : stdHeader.CART_OP_LDCART = 2 := rfl
  have e2 : stdHeader.CART_OP_RDFRME = 3 := rfl
  simp only [e1, e2, bus_xfer_eq (memBus_ok stdHeader), List.append_assoc, List.singleton_append]

/-- In the write of `writeLoop_two_frames`, the second frame is recorded in the
frame map as cartridge 1, frame 1, but the last three requests are
LOAD_CARTRIDGE 0, READ_FRAME 0, WRITE_FRAME 1: when the WRITE_FRAME is sent the
device has cartridge 0 selected, and the bytes are stored in cartridge 0,
frame 1. -/
theorem writeLoop_two_frames_device (B : Block) (f : cartFile) (cc : Cache) (dev : Device)
    (sent : List Nat) (tmp : Block)
    (hc0 : f.fCart 0 = 1) (hf0 : f.fFrame 0 = 0) (hc1 : f.fCart 1 = 0) (hf1 : f.fFrame 1 = 0)
    (hinv : CacheInv cc) (hsz : cc.cacheSize = 1) :
    ∃ (r : WriteRes Device) (pre : List Nat),
      writeLoop stdHeader (memBus stdHeader) 0 1025 0 B 2 0 0 f 0 1 cc dev sent tmp = r ∧
      r.f.fCart 1 = 1 ∧ r.f.fFrame 1 = 1 ∧
      r.sent = pre ++ [create_cart_opcode 2 0 0 0 0, create_cart_opcode 3 0 0 0 0,
                       create_cart_opcode 4 0 0 0 1] ∧
      r.dev.loaded = 0 ∧ r.dev.mem 0 1 0 = B 1024 := by
  have hb := memBus_ok stdHeader
  have eFS : stdHeader.CART_FRAME_SIZE = 1024 := rfl
  -- the first round
  obtain ⟨hx1i, hx1s⟩ := fetch_cache_inv stdHeader (memBus stdHeader) false hinv dev sent tmp
    (f.fCart 0) (f.fFrame 0)
  obtain ⟨x1, hx1⟩ : ∃ x, fetch_frame stdHeader (memBus stdHeader) false cc dev sent tmp
    (f.fCart 0) (f.fFrame 0) = x := ⟨_, rfl⟩
  rw [hx1] at hx1i hx1s
  obtain ⟨p1, p2, p3, p4, p5, -⟩ := put_cap1 stdHeader hx1i (hx1s.trans hsz) 1 0
    (memcpy x1.tmp 0 B 0 1024)
  obtain ⟨y1, hy1⟩ : ∃ y, bus_xfer (memBus stdHeader) x1.dev x1.sent stdHeader.CART_OP_WRFRME 0 0
    (memcpy x1.tmp 0 B 0 1024) = y := ⟨_, rfl⟩
  have step1 := writeLoop_round stdHeader hb (P := 0) (N := 1025) (L := 0) (B := B) (m := 2)
    1 rfl (i := 0) (j := 0) (a := 0) (b := 1) (u := 1) (v := 0) (w := 0)
    hx1 (splice_first_of_two B f 0 1 x1.tmp)
    (by show toU16 (f.fCart 0) = 1; rw [hc0]; exact toU16_one)
    (by show toU16 (f.fFrame 0) = 0; rw [hf0]; exact toU16_zero)
    (by show toU64 (f.fFrame 0) = 0; rw [hf0]; exact toU64_zero) hy1
  generalize put_cart_cache stdHeader x1.cc 1 0 (memcpy x1.tmp 0 B 0 1024) = cc1
    at p1 p2 p3 p4 p5 step1
  -- the second round
  have hmiss := get_cap1_miss p1 p3 0 0 (by rw [p4]; simp)
  have hmiss' : (get_cart_cache cc1 (toU16 0) (toU16 0)).2 = none := by
    rw [toU16_zero]; exact hmiss.1
  obtain ⟨m1, -, -⟩ := fetch_std_miss false cc1 y1.dev y1.sent (memcpy x1.tmp 0 B 0 1024) 0 0
    hmiss'
  have m4 := fetch_std_miss_sent false cc1 y1.dev y1.sent (memcpy x1.tmp 0 B 0 1024) 0 0 hmiss'
  simp only [toU64_zero] at m1 m4
  obtain ⟨x2, hx2⟩ : ∃ x, fetch_frame stdHeader (memBus stdHeader) false cc1 y1.dev y1.sent
    (memcpy x1.tmp 0 B 0 1024) 0 0 = x := ⟨_, rfl⟩
  rw [hx2] at m1 m4
  have m1' : x2.dev.loaded = 0 := m1
  obtain ⟨hl2, -⟩ := xfer_std_wr x2.dev x2.sent 0 1 (memcpy x2.tmp 0 B 1024 1)
  obtain ⟨hw2, hs2⟩ := xfer_std_wr_same x2.dev x2.sent 0 1 (memcpy x2.tmp 0 B 1024 1)
  obtain ⟨y2, hy2⟩ : ∃ y, bus_xfer (memBus stdHeader) x2.dev x2.sent stdHeader.CART_OP_WRFRME 0 1
    (memcpy x2.tmp 0 B 1024 1) = y := ⟨_, rfl⟩
  have hy2' : bus_xfer (memBus stdHeader) x2.dev x2.sent 4 0 1 (memcpy x2.tmp 0 B 1024 1) = y2 :=
    hy2
  rw [hy2'] at hl2 hw2 hs2
  have step2 := writeLoop_round stdHeader hb (P := 0) (N := 1025) (L := 0) (B := B) (m := 1)
    0 rfl (i := 1) (j := 0 - 1 + 1) (f := { f with pos := f.pos + 1024 }) (a := 0) (b := 1)
    (c := cc1) (d := y1.dev) (s := y1.sent) (t := memcpy x1.tmp 0 B 0 1024)
    (u := 1) (v := 1) (w := 1)
    (by show fetch_frame stdHeader (memBus stdHeader) false cc1 y1.dev y1.sent
          (memcpy x1.tmp 0 B 0 1024) (f.fCart 1) (f.fFrame 1) = x2
        rw [hc1, hf1]; exact hx2)
    (splice_second_of_two B _ x2.tmp)
    (by show toU16 (setAt f.fCart 1 1 1) = 1; rw [setAt_same]; exact toU16_one)
    (by show toU16 (setAt f.fFrame 1 1 1) = 1; rw [setAt_same]; exact toU16_one)
    (by show toU64 (setAt f.fFrame 1 1 1) = 1; rw [setAt_same]; exact toU64_one) hy2
  refine ⟨_, y1.sent, (step1.trans step2).trans (writeLoop_zero _ _ _ _ _ _ _ _ _ _ _ _ _ _ _),
    ?_, ?_, ?_, ?_, ?_⟩
  · show setAt f.fCart 1 1 1 = 1
    rw [setAt_same]
  · show setAt f.fFrame 1 1 1 = 1
    rw [setAt_same]
  · show y2.sent = _
    rw [hs2, m4, List.append_assoc]
    rfl
  · show y2.dev.loaded = 0
    rw [hl2, m1']
  · show y2.dev.mem 0 1 0 = B 1024
    rw [m1'] at hw2
    have e : (1 : Nat) % 65536 = 1 := rfl
    rw [e] at hw2
    rw [hw2, memcpy_apply, if_pos (by decide), memcpy_apply, if_pos (by decide)]

/-- The write of 1025 bytes 7 to the second file sends the WRITE_FRAME of the
second frame, recorded as cartridge 1, frame 1, while cartridge 0 is selected:
the bytes are stored in cartridge 0, frame 1. -/
theorem sevens_write_device (s : Driver Device) (h : TwoFiles s) :
    (((cart_write stdHeader (memBus stdHeader) s 1 sevens 1025).1.allFile 1).fCart 1 = 1 ∧
     ((cart_write stdHeader (memBus stdHeader) s 1 sevens 1025).1.allFile 1).fFrame 1 = 1) ∧
    (∃ pre, (cart_write stdHeader (memBus stdHeader) s 1 sevens 1025).1.sent
      = pre ++ [create_cart_opcode stdHeader.CART_OP_LDCART 0 0 0 0,
                create_cart_opcode stdHeader.CART_OP_RDFRME 0 0 0 0,
                create_cart_opcode stdHeader.CART_OP_WRFRME 0 0 0 1]) ∧
    (cart_write stdHeader (memBus stdHeader) s 1 sevens 1025).1.dev.loaded = 0 ∧
    (cart_write stdHeader (memBus stdHeader) s 1 sevens 1025).1.dev.mem 0 1 0 = 7 := by
  obtain ⟨a1, a2, a3, a4, a5, a6, a7, a8, a9, a10, -, a12⟩ := h
  have e1 : (1 : Int).toNat = 1 := rfl
  have eN : (1025 : Int).toNat = 1025 := rfl
  have eFS : stdHeader.CART_FRAME_SIZE = 1024 := rfl
  have h1 : ¬ ((1 : Int) > (s.fileCount : Int) ∨ (1 : Int) < 0) := by
    rw [a1]; decide
  have h2 : (s.allFile (1 : Int).toNat).isOpen ≠ 0 := by
    rw [e1, a2]; decide
  have h3 : ¬ (1025 : Int) < 0 := by decide
  obtain ⟨r, pre, hr, r1, r2, r3, r4, r5⟩ :=
    writeLoop_two_frames_device sevens
      { s.allFile 1 with
        fFrame := setAt (s.allFile 1).fFrame 0 s.currentFrame
        fCart := setAt (s.allFile 1).fCart 0 s.currentCart }
      s.cc s.dev s.sent zeroBlock
      (by show setAt (s.allFile 1).fCart 0 s.currentCart 0 = 1
          rw [setAt_same]; exact a8)
      (by show setAt (s.allFile 1).fFrame 0 s.currentFrame 0 = 0
          rw [setAt_same]; exact a7)
      (by show setAt (s.allFile 1).fCart 0 s.currentCart 1 = 0
          rw [setAt_other _ _ _ _ (by decide)]; exact a5)
      (by show setAt (s.allFile 1).fFrame 0 s.currentFrame 1 = 0
          rw [setAt_other _ _ _ _ (by decide)]; exact a6)
      a9 a10
  have hw := cart_write_eq stdHeader (memBus stdHeader) s 1 sevens 1025 h1 h2 h3
    (P := 0) (N := 1025) (n := 2) (r := r)
    (by rw [e1]; exact a3) eN (by rw [e1, a4, eFS]) (by rw [eFS]) (by rw [eFS]) rfl
    (by rw [e1, a3, a4, a7, a8, if_pos ⟨rfl, rfl⟩]
        rw [a7, a8] at hr
        exact hr)
  rw [e1] at hw
  rw [hw]
  refine ⟨⟨?_, ?_⟩, ⟨pre, r3⟩, r4, r5⟩
  · show (setAt s.allFile 1 r.f 1).fCart 1 = 1
    rw [setAt_same]; exact r1
  · show (setAt s.allFile 1 r.f 1).fFrame 1 = 1
    rw [setAt_same]; exact r2

/-- Claim C28 (writes land in the mapped cartridge) fails in a reachable state.
Cache capacity 1, storing device: power on, open "a", write 1023 * 1024 zero
bytes to it, open "b", write 1025 bytes 7 to "b". The write records the second
frame of "b" in the frame map as cartridge 1, frame 1, but its last three
requests are LOAD_CARTRIDGE 0, READ_FRAME 0 and WRITE_FRAME 1: the WRITE_FRAME
of that frame is sent while cartridge 0 is selected on the device. The bytes
are stored in cartridge 0, frame 1, which held zero bytes before, and
cartridge 1, frame 1 still holds zero bytes. -/
theorem write_frame_misses_mapped_cartridge :
    ∃ s0 s1 s2 s3 s4 : Driver Device,
      s0 = (cart_poweron stdHeader (memBus stdHeader) (initDriver 1 blankDevice)).1 ∧
      s1 = (cart_open s0 "a").1 ∧
      s2 = (cart_write stdHeader (memBus stdHeader) s1 0 zeroBlock 1047552).1 ∧
      s3 = (cart_open s2 "b").1 ∧
      s4 = (cart_write stdHeader (memBus stdHeader) s3 1 sevens 1025).1 ∧
      Reach stdHeader 1 s3 ∧
      s3.dev.mem 0 1 0 = 0 ∧
      ((s4.allFile 1).fCart 1 = 1 ∧ (s4.allFile 1).fFrame 1 = 1) ∧
      (∃ pre, s4.sent
        = pre ++ [create_cart_opcode stdHeader.CART_OP_LDCART 0 0 0 0,
                  create_cart_opcode stdHeader.CART_OP_RDFRME 0 0 0 0,
                  create_cart_opcode stdHeader.CART_OP_WRFRME 0 0 0 1]) ∧
      s4.dev.loaded = 0 ∧ s4.dev.mem 0 1 0 = 7 ∧ s4.dev.mem 1 1 0 = 0 := by
  have h3 := twoFiles_open _ (cartFull_write _ (oneFile_open _
    (fresh_poweron (initDriver 1 blankDevice) rfl rfl rfl rfl rfl (fun _ _ _ => rfl))))
  have h := sevens_write_device _ h3
  have hc := sevens_cache_differs _ h3
  exact ⟨_, _, _, _, _, rfl, rfl, rfl, rfl, rfl,
    Reach.open _ (Reach.write _ _ _ (Reach.open _ Reach.poweron)),
    h3.2.2.2.2.2.2.2.2.2.2.2 0 1 0, h.1, h.2.1, h.2.2.1, h.2.2.2, hc.2.2.2.1⟩

/-! ## The fetch at the start of every round of `cart_write` -/

/-- The block a lookup returns is the content of the first slot below
`current` that holds the key. -/
theorem get_result (c : Cache) (cart frm : Nat) :
    (get_cart_cache c cart frm).2
      = (firstIdx (keyMatch c.cache cart frm) c.current).map (fun i => (c.cache i).memContent) := by
  unfold get_cart_cache
  simp only [keyMatch_ageAll]
  cases firstIdx (keyMatch c.cache cart frm) c.current with
  | none => rfl
  | some i => simp only [Option.map_some', ageAll_memContent]

/-- A second lookup of the same key right after a hit returns the same block. -/
theorem get_twice (c : Cache) (cart frm : Nat) :
    (get_cart_cache (get_cart_cache c cart frm).1 cart frm).2 = (get_cart_cache c cart frm).2 := by
  rw [get_result, get_result, get_current]
  have hk : keyMatch (get_cart_cache c cart frm).1.cache cart frm = keyMatch c.cache cart frm := by
    funext i
    unfold keyMatch
    rw [(get_cache_fields c cart frm i).1, (get_cache_fields c cart frm i).2.1]
  have hc : (fun i => ((get_cart_cache c cart frm).1.cache i).memContent)
      = fun i => (c.cache i).memContent := by
    funext i
    exact (get_cache_fields c cart frm i).2.2
  rw [hk, hc]

/-- A fetch that hits the cache: no request is sent, the device is not
touched, and the cached block is copied into `tmp`. -/
theorem fetch_hit {D : Type} (K : CartHeader) (bus : BusFn D) (p : Bool) (cc : Cache) (dev : D)
    (sent : List Nat) (tmp : Block) (cart frm : Int) (b : Block)
    (h : (get_cart_cache cc (toU16 cart) (toU16 frm)).2 = some b) :
    fetch_frame K bus p cc dev sent tmp cart frm
      = { ok := true
          cc := (get_cart_cache (get_cart_cache cc (toU16 cart) (toU16 frm)).1
                  (toU16 cart) (toU16 frm)).1
          dev := dev, sent := sent, tmp := memcpy tmp 0 b 0 K.CART_FRAME_SIZE } := by
  have h2 := get_twice cc (toU16 cart) (toU16 frm)
  rw [h] at h2
  unfold fetch_frame
  simp only [h, h2]

/-- A fetch that misses the cache, with a device that answers with the status
flag clear: LOAD_CARTRIDGE and READ_FRAME are sent for the pair asked for, and
the frame received is copied into `tmp`. -/
theorem fetch_miss {D : Type} (K : CartHeader) {bus : BusFn D} (hb : BusOk bus) (cc : Cache)
    (dev : D) (sent : List Nat) (tmp : Block) (cart frm : Int)
    (h : (get_cart_cache cc (toU16 cart) (toU16 frm)).2 = none) :
    (fetch_frame K bus false cc dev sent tmp cart frm).sent
      = sent ++ [create_cart_opcode K.CART_OP_LDCART 0 0 (toU64 cart) 0,
                 create_cart_opcode K.CART_OP_RDFRME 0 0 0 (toU64 frm)] ∧
    (fetch_frame K bus false cc dev sent tmp cart frm).tmp
      = memcpy tmp 0
          (bus (bus dev (create_cart_opcode K.CART_OP_LDCART 0 0 (toU64 cart) 0) zeroBlock).2.2
            (create_cart_opcode K.CART_OP_RDFRME 0 0 0 (toU64 frm)) tmp).2.1
          0 K.CART_FRAME_SIZE := by
  unfold fetch_frame
  simp only [h, bus_xfer_ok hb, Bool.true_eq_false, if_false]
  simp only [bus_xfer_eq hb, List.append_assoc, List.singleton_append]
  exact ⟨trivial, trivial⟩

/-- Claim C25 (new frames are not pre-read) is not met by the code: power on,
open "a", open "b" and write 1025 bytes to "b", which is empty. The frame
holding the current length of "b" is index 0; index 1 is newly allocated by
the call (as cartridge 0, frame 2). The requests of the call are
LOAD_CARTRIDGE 0, READ_FRAME 1, WRITE_FRAME 1 for index 0 and then
LOAD_CARTRIDGE 0, READ_FRAME 0, WRITE_FRAME 2 for index 1: a LOAD_CARTRIDGE
and a READ_FRAME are sent for the new index, and they name the pair that the
zero-initialised map entry of index 1 holds, cartridge 0, frame 0, not the
frame allocated. -/
theorem new_frame_is_preread :
    ∃ s0 s1 s2 s3 : Driver Device,
      s0 = (cart_poweron stdHeader (memBus stdHeader) (initDriver 1 blankDevice)).1 ∧
      s1 = (cart_open s0 "a").1 ∧
      s2 = (cart_open s1 "b").1 ∧
      s3 = (cart_write stdHeader (memBus stdHeader) s2 1 sevens 1025).1 ∧
      Reach stdHeader 1 s2 ∧
      (s2.allFile 1).isOpen = 1 ∧ (s2.allFile 1).pos = 0 ∧ (s2.allFile 1).fLength = 0 ∧
      (cart_write stdHeader (memBus stdHeader) s2 1 sevens 1025).2 = 1025 ∧
      (s3.allFile 1).fCart 0 = 0 ∧ (s3.allFile 1).fFrame 0 = 1 ∧
      (s3.allFile 1).fCart 1 = 0 ∧ (s3.allFile 1).fFrame 1 = 2 ∧
      s3.sent = s2.sent ++
        [create_cart_opcode stdHeader.CART_OP_LDCART 0 0 0 0,
         create_cart_opcode stdHeader.CART_OP_RDFRME 0 0 0 1,
         create_cart_opcode stdHeader.CART_OP_WRFRME 0 0 0 1,
         create_cart_opcode stdHeader.CART_OP_LDCART 0 0 0 0,
         create_cart_opcode stdHeader.CART_OP_RDFRME 0 0 0 0,
         create_cart_opcode stdHeader.CART_OP_WRFRME 0 0 0 2] := by
  refine ⟨_, _, _, _, rfl, rfl, rfl, rfl, Reach.open _ (Reach.open _ Reach.poweron), ?_⟩
  decide!

/-! ## Failures of the bus -/

theorem Track_refl (l : List Nat) (n : Nat) : Track l n l n true :=
  ⟨[], (List.append_nil l).symm, rfl, Or.inl ⟨rfl, fun r hr => absurd hr (List.not_mem_nil r)⟩⟩

theorem Track_trans {a b c : List Nat} {na nb nc : Nat} {ok : Bool}
    (h1 : Track a na b nb true) (h2 : Track b nb c nc ok) : Track a na c nc ok := by
  obtain ⟨e1, rfl, rfl, h1⟩ := h1
  obtain ⟨e2, rfl, rfl, h2⟩ := h2
  have g1 : ∀ r, r ∈ e1 → failed r = false := by
    rcases h1 with ⟨-, h⟩ | ⟨h, -⟩
    · exact h
    · exact absurd h (by decide)
  refine ⟨e1 ++ e2, (List.append_assoc _ _ _), by rw [List.length_append, Nat.add_assoc], ?_⟩
  rcases h2 with ⟨hok, h⟩ | ⟨hok, l, r, rfl, hl, hr⟩
  · refine Or.inl ⟨hok, fun r hr => ?_⟩
    rcases List.mem_append.mp hr with h' | h'
    · exact g1 r h'
    · exact h r h'
  · refine Or.inr ⟨hok, e1 ++ l, r, (List.append_assoc _ _ _).symm, fun q hq => ?_, hr⟩
    rcases List.mem_append.mp hq with h' | h'
    · exact g1 q h'
    · exact hl q h'

theorem Run_of_ok {a b : List Nat} {na nb : Nat} (h : Track a na b nb true) (ret : Int) :
    Run a na b nb ret := by
  obtain ⟨e, h1, h2, h3⟩ := h
  refine ⟨e, h1, h2, Or.inl ?_⟩
  rcases h3 with ⟨-, h⟩ | ⟨h, -⟩
  · exact h
  · exact absurd h (by decide)

theorem Run_of_fail {a b : List Nat} {na nb : Nat} (h : Track a na b nb false) :
    Run a na b nb (-1) := by
  obtain ⟨e, h1, h2, h3⟩ := h
  refine ⟨e, h1, h2, Or.inr ⟨rfl, ?_⟩⟩
  rcases h3 with ⟨h, -⟩ | ⟨-, h⟩
  · exact absurd h (by decide)
  · exact h

theorem Run_of_track {a b : List Nat} {na nb : Nat} {ok : Bool} (h : Track a na b nb ok)
    (hok : ok = false) : Run a na b nb (-1) := by
  subst hok
  exact Run_of_fail h

theorem Run_refl (l : List Nat) (n : Nat) (ret : Int) : Run l n l n ret :=
  Run_of_ok (Track_refl l n) ret

theorem Run_trans {a b c : List Nat} {na nb nc : Nat} {ret : Int}
    (h1 : Track a na b nb true) (h2 : Run b nb c nc ret) : Run a na c nc ret := by
  obtain ⟨e1, rfl, rfl, h1⟩ := h1
  obtain ⟨e2, rfl, rfl, h2⟩ := h2
  have g1 : ∀ r, r ∈ e1 → failed r = false := by
    rcases h1 with ⟨-, h⟩ | ⟨h, -⟩
    · exact h
    · exact absurd h (by decide)
  refine ⟨e1 ++ e2, (List.append_assoc _ _ _), by rw [List.length_append, Nat.add_assoc], ?_⟩
  rcases h2 with h | ⟨hret, l, r, rfl, hl, hr⟩
  · refine Or.inl (fun r hr => ?_)
    rcases List.mem_append.mp hr with h' | h'
    · exact g1 r h'
    · exact h r h'
  · refine Or.inr ⟨hret, e1 ++ l, r, (List.append_assoc _ _ _).symm, fun q hq => ?_, hr⟩
    rcases List.mem_append.mp hq with h' | h'
    · exact g1 q h'
    · exact hl q h'

/-- In a run, a response with the status flag set is the last one, and the
call returned -1. -/
theorem Run_aborts {D : Type} {s t : Driver (D × List Nat)} {ret : Int}
    (h : Run s.dev.2 s.sent.length t.dev.2 t.sent.length ret) : Aborts s t ret := by
  obtain ⟨e, h1, h2, h3⟩ := h
  refine ⟨e, h1, h2, fun l r l2 he hf => ?_⟩
  rcases h3 with h | ⟨hret, l', r', rfl, hl, hr⟩
  · have : failed r = false := h r (by rw [he]; simp)
    rw [hf] at this
    exact absurd this (by decide)
  · have hl2 : l2 = [] := by
      rcases List.eq_nil_or_concat l2 with h0 | ⟨m, q, hm⟩
      · exact h0
      · exfalso
        subst hm
        have e1 : l' ++ [r'] = (l ++ r :: m) ++ [q] := by
          rw [he]; simp
        have e2 := List.append_inj_left' e1 rfl
        have : failed r = false := hl r (by rw [e2]; simp)
        rw [hf] at this
        exact absurd this (by decide)
    exact ⟨hl2, hret⟩

/-- One exchange with the logging far end: one request, one response, and the
exchange succeeds exactly when the response has the status flag clear. -/
theorem xfer_track {D : Type} (bus : BusFn D) (dev : D × List Nat) (sent : List Nat)
    (op ct fm : Nat) (buf : Block) :
    Track dev.2 sent.length (bus_xfer (logBus bus) dev sent op ct fm buf).dev.2
      (bus_xfer (logBus bus) dev sent op ct fm buf).sent.length
      (bus_xfer (logBus bus) dev sent op ct fm buf).ok := by
  unfold bus_xfer
  simp only [if_neg (create_ne_allones _ _ _ _ _)]
  have h1 : ∀ r, (extract_cart_opcode r).1 = 0 := fun _ => rfl
  simp only [h1, ne_eq, not_true_eq_false, if_false]
  by_cases h : (extract_cart_opcode
      (logBus bus dev (create_cart_opcode op 0 0 ct fm) buf).1).2.rt1 = 0
  · simp only [h, not_true_eq_false, if_false]
    refine ⟨[(bus dev.1 (create_cart_opcode op 0 0 ct fm) buf).1], rfl, ?_, Or.inl ⟨rfl, ?_⟩⟩
    · simp
    · intro r hr
      rw [List.mem_singleton] at hr
      subst hr
      unfold failed
      exact decide_eq_false (not_not.mpr h)
  · simp only [h, not_false_eq_true, if_true]
    refine ⟨[(bus dev.1 (create_cart_opcode op 0 0 ct fm) buf).1], rfl, ?_,
      Or.inr ⟨rfl, [], _, rfl, fun q hq => absurd hq (List.not_mem_nil q), ?_⟩⟩
    · simp
    · unfold failed
      exact decide_eq_true h

theorem fetch_track {D : Type} (K : CartHeader) (bus : BusFn D) (p : Bool) (cc : Cache)
    (dev : D × List Nat) (sent : List Nat) (tmp : Block) (cart frm : Int) :
    Track dev.2 sent.length (fetch_frame K (logBus bus) p cc dev sent tmp cart frm).dev.2
      (fetch_frame K (logBus bus) p cc dev sent tmp cart frm).sent.length
      (fetch_frame K (logBus bus) p cc dev sent tmp cart frm).ok := by
  unfold fetch_frame
  simp only
  split
  · exact Track_refl _ _
  · have t1 := xfer_track bus dev sent K.CART_OP_LDCART (toU64 cart) 0 zeroBlock
    by_cases h : (bus_xfer (logBus bus) dev sent K.CART_OP_LDCART (toU64 cart) 0 zeroBlock).ok
        = false
    · rw [if_pos h]
      rw [h] at t1
      exact t1
    · rw [if_neg h]
      have h' := Bool.eq_true_of_not_eq_false h
      rw [h'] at t1
      have t2 := xfer_track bus
        (bus_xfer (logBus bus) dev sent K.CART_OP_LDCART (toU64 cart) 0 zeroBlock).dev
        (bus_xfer (logBus bus) dev sent K.CART_OP_LDCART (toU64 cart) 0 zeroBlock).sent
        K.CART_OP_RDFRME 0 (toU64 frm) tmp
      split
      · next h2 =>
        rw [h2] at t2
        exact Track_trans t1 t2
      · next h2 =>
        have h2' := Bool.eq_true_of_not_eq_false h2
        rw [h2'] at t2
        exact Track_trans t1 t2

theorem zeroLoop_track {D : Type} (K : CartHeader) (bus : BusFn D) (n : Nat) :
    ∀ (i : Nat) (dev : D × List Nat) (sent : List Nat),
      Track dev.2 sent.length (zeroLoop K (logBus bus) n i dev sent).2.1.2
        (zeroLoop K (logBus bus) n i dev sent).2.2.length
        (zeroLoop K (logBus bus) n i dev sent).1 := by
  induction n with
  | zero =>
    intro i dev sent
    exact Track_refl _ _
  | succ n ih =>
    intro i dev sent
    rw [zeroLoop]
    simp only
    have t1 := xfer_track bus dev sent K.CART_OP_LDCART i 0 zeroBlock
    split
    · next h =>
      rw [h] at t1
      exact t1
    · next h =>
      rw [Bool.eq_true_of_not_eq_false h] at t1
      have t2 := xfer_track bus
        (bus_xfer (logBus bus) dev sent K.CART_OP_LDCART i 0 zeroBlock).dev
        (bus_xfer (logBus bus) dev sent K.CART_OP_LDCART i 0 zeroBlock).sent
        K.CART_OP_BZERO 0 0 zeroBlock
      split
      · next h2 =>
        rw [h2] at t2
        exact Track_trans t1 t2
      · next h2 =>
        rw [Bool.eq_true_of_not_eq_false h2] at t2
        exact Track_trans (Track_trans t1 t2) (ih _ _ _)

theorem readLoop_run {D : Type} (K : CartHeader) (bus : BusFn D) (f : cartFile) (P N : Nat)
    (n : Nat) :
    ∀ (i : Nat) (j : Int) (pos : Nat) (cc : Cache) (dev : D × List Nat) (sent : List Nat)
      (tmp buf : Block),
      Run dev.2 sent.length
        (readLoop K (logBus bus) f P N n i j pos cc dev sent tmp buf).dev.2
        (readLoop K (logBus bus) f P N n i j pos cc dev sent tmp buf).sent.length
        (readLoop K (logBus bus) f P N n i j pos cc dev sent tmp buf).ret := by
  induction n with
  | zero =>
    intro i j pos cc dev sent tmp buf
    exact Run_refl _ _ _
  | succ n ih =>
    intro i j pos cc dev sent tmp buf
    rw [readLoop]
    have t1 := fetch_track K bus true cc dev sent tmp (f.fCart i) (f.fFrame i)
    split
    · next h => exact Run_of_track t1 h
    · next h =>
      rw [Bool.eq_true_of_not_eq_false h] at t1
      split_ifs
      all_goals first
        | exact Run_of_ok t1 _
        | exact Run_trans t1 (ih _ _ _ _ _ _ _ _)

theorem writeLoop_run {D : Type} (K : CartHeader) (bus : BusFn D) (P N lf : Nat) (buf : Block)
    (n : Nat) :
    ∀ (i : Nat) (j : Int) (f : cartFile) (cf ct : Int) (cc : Cache) (dev : D × List Nat)
      (sent : List Nat) (tmp : Block),
      Run dev.2 sent.length
        (writeLoop K (logBus bus) P N lf buf n i j f cf ct cc dev sent tmp).dev.2
        (writeLoop K (logBus bus) P N lf buf n i j f cf ct cc dev sent tmp).sent.length
        (writeLoop K (logBus bus) P N lf buf n i j f cf ct cc dev sent tmp).ret := by
  induction n with
  | zero =>
    intro i j f cf ct cc dev sent tmp
    exact Run_refl _ _ _
  | succ n ih =>
    intro i j f cf ct cc dev sent tmp
    rw [writeLoop]
    have t1 := fetch_track K bus false cc dev sent tmp (f.fCart i) (f.fFrame i)
    split
    · next h => exact Run_of_track t1 h
    · next h =>
      rw [Bool.eq_true_of_not_eq_false h] at t1
      have t2 := xfer_track bus
        (fetch_frame K (logBus bus) false cc dev sent tmp (f.fCart i) (f.fFrame i)).dev
        (fetch_frame K (logBus bus) false cc dev sent tmp (f.fCart i) (f.fFrame i)).sent
        K.CART_OP_WRFRME 0
        (toU64 ((writeSplice K P N lf buf i j f cf ct
          (fetch_frame K (logBus bus) false cc dev sent tmp (f.fCart i) (f.fFrame i)).tmp).1.fFrame
            i))
        (writeSplice K P N lf buf i j f cf ct
          (fetch_frame K (logBus bus) false cc dev sent tmp (f.fCart i) (f.fFrame i)).tmp).2.2.2.1
      simp only
      split
      · next h2 =>
        exact Run_trans t1 (Run_of_track t2 h2)
      · next h2 =>
        rw [Bool.eq_true_of_not_eq_false h2] at t2
        exact Run_trans (Track_trans t1 t2) (ih _ _ _ _ _ _ _ _ _)

theorem cart_read_run {D : Type} (K : CartHeader) (bus : BusFn D) (s : Driver (D × List Nat))
    (fd : Int) (buf : Block) (count : Int) :
    Run s.dev.2 s.sent.length (cart_read K (logBus bus) s fd buf count).1.dev.2
      (cart_read K (logBus bus) s fd buf count).1.sent.length
      (cart_read K (logBus bus) s fd buf count).2.2 := by
  unfold cart_read
  split_ifs
  · exact Run_refl _ _ _
  · exact Run_refl _ _ _
  · exact Run_refl _ _ _
  · exact readLoop_run K bus _ _ _ _ _ _ _ _ _ _ _ _

theorem cart_write_run {D : Type} (K : CartHeader) (bus : BusFn D) (s : Driver (D × List Nat))
    (fd : Int) (buf : Block) (count : Int) :
    Run s.dev.2 s.sent.length (cart_write K (logBus bus) s fd buf count).1.dev.2
      (cart_write K (logBus bus) s fd buf count).1.sent.length
      (cart_write K (logBus bus) s fd buf count).2 := by
  unfold cart_write
  split_ifs
  · exact Run_refl _ _ _
  · exact Run_refl _ _ _
  · exact Run_refl _ _ _
  · exact writeLoop_run K bus _ _ _ _ _ _ _ _ _ _ _ _ _ _

theorem cart_poweron_run {D : Type} (K : CartHeader) (bus : BusFn D)
    (s : Driver (D × List Nat)) :
    Run s.dev.2 s.sent.length (cart_poweron K (logBus bus) s).1.dev.2
      (cart_poweron K (logBus bus) s).1.sent.length (cart_poweron K (logBus bus) s).2 := by
  unfold cart_poweron
  simp only
  have t1 := xfer_track bus s.dev s.sent K.CART_OP_INITMS 0 0 zeroBlock
  split
  · next h => exact Run_of_track t1 h
  · next h =>
    rw [Bool.eq_true_of_not_eq_false h] at t1
    have t2 := zeroLoop_track K bus K.CART_MAX_CARTRIDGES 0
      (bus_xfer (logBus bus) s.dev s.sent K.CART_OP_INITMS 0 0 zeroBlock).dev
      (bus_xfer (logBus bus) s.dev s.sent K.CART_OP_INITMS 0 0 zeroBlock).sent
    split
    · next h2 => exact Run_trans t1 (Run_of_track t2 h2)
    · next h2 =>
      rw [Bool.eq_true_of_not_eq_false h2] at t2
      exact Run_of_ok (Track_trans t1 t2) _

theorem closeLoop_bus {D : Type} (n : Nat) :
    ∀ (i : Nat) (s : Driver D), (closeLoop n i s).dev = s.dev ∧ (closeLoop n i s).sent = s.sent := by
  induction n with
  | zero => intro i s; exact ⟨rfl, rfl⟩
  | succ n ih =>
    intro i s
    rw [closeLoop]
    obtain ⟨h1, h2⟩ := ih (i + 1)
      (if (s.allFile i).isOpen = 1 then (cart_close s (s.allFile i).fHandle).1 else s)
    rw [h1, h2]
    split
    · unfold cart_close
      split_ifs <;> exact ⟨rfl, rfl⟩
    · exact ⟨rfl, rfl⟩

theorem cart_poweroff_run {D : Type} (K : CartHeader) (bus : BusFn D)
    (s : Driver (D × List Nat)) :
    Run s.dev.2 s.sent.length (cart_poweroff K (logBus bus) s).1.dev.2
      (cart_poweroff K (logBus bus) s).1.sent.length (cart_poweroff K (logBus bus) s).2 := by
  unfold cart_poweroff
  simp only
  have t1 := zeroLoop_track K bus K.CART_MAX_CARTRIDGES 0 s.dev s.sent
  split
  · next h => exact Run_of_track t1 h
  · next h =>
    rw [Bool.eq_true_of_not_eq_false h] at t1
    obtain ⟨c1, c2⟩ := closeLoop_bus s.fileCount 0
      ({ s with dev := (zeroLoop K (logBus bus) K.CART_MAX_CARTRIDGES 0 s.dev s.sent).2.1,
                sent := (zeroLoop K (logBus bus) K.CART_MAX_CARTRIDGES 0 s.dev s.sent).2.2 } :
        Driver (D × List Nat))
    have t2 := xfer_track bus
      (closeLoop s.fileCount 0
        ({ s with dev := (zeroLoop K (logBus bus) K.CART_MAX_CARTRIDGES 0 s.dev s.sent).2.1,
                  sent := (zeroLoop K (logBus bus) K.CART_MAX_CARTRIDGES 0 s.dev s.sent).2.2 } :
          Driver (D × List Nat))).dev
      (closeLoop s.fileCount 0
        ({ s with dev := (zeroLoop K (logBus bus) K.CART_MAX_CARTRIDGES 0 s.dev s.sent).2.1,
                  sent := (zeroLoop K (logBus bus) K.CART_MAX_CARTRIDGES 0 s.dev s.sent).2.2 } :
          Driver (D × List Nat))).sent
      K.CART_OP_POWOFF 0 0 zeroBlock
    have t1' : Track s.dev.2 s.sent.length
        (closeLoop s.fileCount 0
          ({ s with dev := (zeroLoop K (logBus bus) K.CART_MAX_CARTRIDGES 0 s.dev s.sent).2.1,
                    sent := (zeroLoop K (logBus bus) K.CART_MAX_CARTRIDGES 0 s.dev s.sent).2.2 } :
            Driver (D × List Nat))).dev.2
        (closeLoop s.fileCount 0
          ({ s with dev := (zeroLoop K (logBus bus) K.CART_MAX_CARTRIDGES 0 s.dev s.sent).2.1,
                    sent := (zeroLoop K (logBus bus) K.CART_MAX_CARTRIDGES 0 s.dev s.sent).2.2 } :
            Driver (D × List Nat))).sent.length true := by
      rw [c1, c2]
      exact t1
    split
    · next h2 => exact Run_trans t1' (Run_of_track t2 h2)
    · next h2 =>
      rw [Bool.eq_true_of_not_eq_false h2] at t2
      exact Run_of_ok (Track_trans t1' t2) _

/-- Claim C21: in `cart_read`, `cart_write`, `cart_poweron` and
`cart_poweroff`, run against any far end (whose responses are logged), every
request sent receives one response, and whenever a response has the status
flag set it is the last response of the call (no further request is sent, so
nothing is retried) and the call returns -1. The all-ones register that
`client_cart_bus_request` returns on a transport error has the status flag
set. Steps already completed are not rolled back: with a cache of capacity 1
and a far end whose request number 132 meets a transport error, power on, open
"a" and write 1025 bytes 7; the WRITE_FRAME of the second frame fails, the call
returns -1 after 4 requests, and the file keeps position and length 1025, the
allocator cursor stays on the frame allocated for the second frame, and the
cache keeps the first frame. -/
theorem failures_abort {D : Type} (K : CartHeader) (bus : BusFn D)
    (s : Driver (D × List Nat)) (fd : Int) (buf : Block) (count : Int) :
    failed 18446744073709551615 = true ∧
    Aborts s (cart_read K (logBus bus) s fd buf count).1
      (cart_read K (logBus bus) s fd buf count).2.2 ∧
    Aborts s (cart_write K (logBus bus) s fd buf count).1
      (cart_write K (logBus bus) s fd buf count).2 ∧
    Aborts s (cart_poweron K (logBus bus) s).1 (cart_poweron K (logBus bus) s).2 ∧
    Aborts s (cart_poweroff K (logBus bus) s).1 (cart_poweroff K (logBus bus) s).2 ∧
    ∃ s0 s1 s2 : Driver (Nat × List Nat),
      s0 = (cart_poweron stdHeader (logBus (failAt 132)) (initDriver 1 (0, []))).1 ∧
      s1 = (cart_open s0 "a").1 ∧
      s2 = (cart_write stdHeader (logBus (failAt 132)) s1 0 sevens 1025).1 ∧
      (cart_write stdHeader (logBus (failAt 132)) s1 0 sevens 1025).2 = -1 ∧
      s1.sent.length = 129 ∧ s2.sent.length = 133 ∧
      s2.dev.2 = s1.dev.2 ++ [0, 0, 0, 18446744073709551615] ∧
      ((s1.allFile 0).pos = 0 ∧ (s1.allFile 0).fLength = 0 ∧ s1.currentFrame = 0 ∧
        s1.cc.current = 0) ∧
      ((s2.allFile 0).pos = 1025 ∧ (s2.allFile 0).fLength = 1025 ∧ s2.currentFrame = 1 ∧
        s2.cc.current = 1 ∧ (s2.cc.cache 0).memCart = 0 ∧ (s2.cc.cache 0).memFrm = 0 ∧
        (s2.cc.cache 0).memContent 0 = 7) := by
  refine ⟨by decide, Run_aborts (cart_read_run K bus s fd buf count),
    Run_aborts (cart_write_run K bus s fd buf count), Run_aborts (cart_poweron_run K bus s),
    Run_aborts (cart_poweroff_run K bus s), _, _, _, rfl, rfl, rfl, ?_⟩
  decide!

/-! ## The theorems of the allocator cursor and of power-on at concrete inputs -/

theorem cursor_arithmetic_witness :
    (0 < stdHeader.CART_FRAME_SIZE ∧ Reach stdHeader 1 written ∧
      (∀ i, i < written.fileCount → (written.allFile i).fName ≠ "b") ∧
      0 < written.fileCount) ∧
    (-1 ≤ written.currentFrame ∧ written.currentFrame ≤ 1023 ∧ 0 ≤ written.currentCart) ∧
    0 ≤ written.currentFrame ∧
    cursorIndex (cart_open written "b").1 = cursorIndex written + 1 :=
  ⟨⟨by decide, written_reach, by decide, by decide⟩,
    (cursor_arithmetic stdHeader 1 written (by decide) written_reach).1,
    (cursor_arithmetic stdHeader 1 written (by decide) written_reach).2.2.1 (by decide),
    ((cursor_arithmetic stdHeader 1 written (by decide) written_reach).2.2.2.1 "b"
      (by decide)).1⟩

theorem cart_poweron_sequence_witness :
    BusOk (memBus stdHeader) ∧
    (cart_poweron stdHeader (memBus stdHeader) (initDriver 1 blankDevice)).2 = 0 ∧
    (cart_poweron stdHeader (memBus stdHeader) (initDriver 1 blankDevice)).1.sent
      = (initDriver 1 blankDevice : Driver Device).sent
          ++ [create_cart_opcode stdHeader.CART_OP_INITMS 0 0 0 0] ++ zeroRequests stdHeader ∧
    (cart_poweron stdHeader (memBus stdHeader) (initDriver 1 blankDevice)).1.sent.length
      = (initDriver 1 blankDevice : Driver Device).sent.length
          + (1 + 2 * stdHeader.CART_MAX_CARTRIDGES) ∧
    (cart_poweron stdHeader (memBus stdHeader) (initDriver 1 blankDevice)).1.cc.current = 0 :=
  ⟨memBus_ok stdHeader,
    (cart_poweron_sequence stdHeader (memBus stdHeader) (memBus_ok stdHeader)
      (initDriver 1 blankDevice)).1,
    (cart_poweron_sequence stdHeader (memBus stdHeader) (memBus_ok stdHeader)
      (initDriver 1 blankDevice)).2.1,
    (cart_poweron_sequence stdHeader (memBus stdHeader) (memBus_ok stdHeader)
      (initDriver 1 blankDevice)).2.2.1,
    (cart_poweron_sequence stdHeader (memBus stdHeader) (memBus_ok stdHeader)
      (initDriver 1 blankDevice)).2.2.2.2.1⟩

/-! ## Stores past the end of the frame map -/

/-- The splice of a round at an index up to the frame of the file length
leaves the frame map. -/
theorem writeSplice_old_map (K : CartHeader) (P N lf : Nat) (buf : Block) (i : Nat) (j : Int)
    (f : cartFile) (cf ct : Int) (tmp : Block) (hold : i ≤ lf) :
    (writeSplice K P N lf buf i j f cf ct tmp).1.fFrame = f.fFrame ∧
    (writeSplice K P N lf buf i j f cf ct tmp).1.fCart = f.fCart := by
  unfold writeSplice
  simp only [if_pos hold]
  split_ifs <;> exact ⟨rfl, rfl⟩

/-- Claim C18 (open of a new name) is not met by the code once the caller
reuses the buffer of an earlier name. Power on, `cart_open` with a buffer that
holds "a" (handle 0), the caller overwrites the buffer with "b", `cart_open`
with the same buffer. The name "b" was never opened before and one file has
been created, but the call returns -1 and creates no entry: the table entry 0
holds the caller's pointer, reads "b" now, and is open. -/
theorem open_new_name_after_buffer_reuse :
    ∃ s0 s1 s2 : Driver Device,
      s0 = (cart_poweron stdHeader (memBus stdHeader) (initDriver 1 blankDevice)).1 ∧
      s1 = (cart_open s0 "a").1 ∧
      s2 = callerOverwrites s1 0 "b" ∧
      (cart_open s0 "a").2 = 0 ∧ s1.fileCount = 1 ∧ (s1.allFile 0).fName = "a" ∧
      (s2.allFile 0).fName = "b" ∧ (s2.allFile 0).isOpen = 1 ∧
      (cart_open s2 "b").2 = -1 ∧
      (cart_open s2 "b").1.fileCount = 1 ∧
      ((cart_open s2 "b").1.allFile 1).isOpen = 0 := by
  refine ⟨_, _, _, rfl, rfl, rfl, ?_⟩
  decide

/-- Claim C19 (open of a known name) is not met by the code once the caller
reuses the buffer of that name. Power on, `cart_open` with a buffer that holds
"a" (handle 0), `cart_close(0)`, the caller overwrites the buffer with "b",
`cart_open("a")`. The name "a" was opened before and its file is closed, but
the call does not return handle 0: it creates a second entry and returns 1,
the number of files becomes 2, the allocator cursor advances from frame 0 to
frame 1, and the file with handle 0 stays closed. -/
theorem open_known_name_after_buffer_reuse :
    ∃ s0 s1 s2 s3 : Driver Device,
      s0 = (cart_poweron stdHeader (memBus stdHeader) (initDriver 1 blankDevice)).1 ∧
      s1 = (cart_open s0 "a").1 ∧
      s2 = (cart_close s1 0).1 ∧
      s3 = callerOverwrites s2 0 "b" ∧
      (cart_open s0 "a").2 = 0 ∧ (cart_close s1 0).2 = 0 ∧
      (s2.fileCount = 1 ∧ (s2.allFile 0).fName = "a" ∧ (s2.allFile 0).isOpen = 0 ∧
        s2.currentFrame = 0) ∧
      (s3.allFile 0).fName = "b" ∧
      (cart_open s3 "a").2 = 1 ∧
      (cart_open s3 "a").1.fileCount = 2 ∧
      (cart_open s3 "a").1.currentFrame = 1 ∧
      ((cart_open s3 "a").1.allFile 0).isOpen = 0 := by
  refine ⟨_, _, _, _, rfl, rfl, rfl, rfl, ?_⟩
  decide

end FileDriver
